import Mathlib

/-!
# aminogfx-gl: animations, nodes, updates and textures

A shallow embedding of the `Anim` class and of the parts of the frame loop that
drive it (`src/base.h`), of the group and text-node updates of the same file and
of the two-phase texture creation of `src/images.cpp`.  Machine `float`/`double` values are modelled by exact rationals, the
`int` repeat counter by `Int`, pointers by `Option` handles, and the effects an
operation has on the outside world (property writes, callback invocations,
reference releases, removal requests) by the list of `Event`s it emits, in order.
Rounding of written values, infinities and NaN are outside the model; in
particular a duration of 0 (where the C++ division yields an infinity or NaN and
the rational one yields 0) is excluded by hypothesis wherever the progress of a
tick matters.  Where rounding decides which branch the code takes, in the test
`t > 1` of `Anim::update` on the `float` quotient of line 729, the tick is also
given with that quotient as a parameter (`updateWith`), of which `update` is the
instance with the exact quotient and `floatQuot` the quotient rounded as the
machine rounds it.  The conversion of a `float` payload to an `int` member is
truncation toward zero, which is what the code computes when the truncated value
is representable in `int` (`fitsInt`).
-/

namespace Amino

/-! ## Constants (`base.h`, lines 41 and 435-442) -/

/-- The sentinel `FOREVER = -1` of `base.h`. -/
def FOREVER : Int := -1

/-- The constant `Anim::FORWARD`. -/
def FORWARD : Int := 1

/-- The constant `Anim::BACKWARD`. -/
def BACKWARD : Int := 2

/-- The constant `Anim::TF_LINEAR`. -/
def TF_LINEAR : Int := 0

/-- The constant `Anim::TF_CUBIC_IN`. -/
def TF_CUBIC_IN : Int := 1

/-- The constant `Anim::TF_CUBIC_OUT`. -/
def TF_CUBIC_OUT : Int := 2

/-- The constant `Anim::TF_CUBIC_IN_OUT`. -/
def TF_CUBIC_IN_OUT : Int := 3

/-! ## Data model -/

/-- Effects of the animation code on its environment, in program order. -/
inductive Event where
  /-- The call `floatProp->setValue(value)` on the bound property. -/
  | setValue (prop : Nat) (value : ℚ)
  /-- The call `then->Call(handle(), 0, NULL)`. -/
  | callThen (cb : Nat)
  /-- The call `removeAnimationAsync(this)` on the renderer. -/
  | removeAnimationAsync (gfx : Nat)
  /-- The call `prop->release()`. -/
  | release (prop : Nat)
  /-- The statement `delete then`. -/
  | deleteThen (cb : Nat)
  deriving DecidableEq

/-- The fields of `class Anim` (`base.h`, lines 416-436), together with the two
fields `destroyed` and `eventHandler` it inherits from `AminoJSObject`. -/
structure Anim where
  /-- The pointer `AnyProperty *prop`; `none` is `NULL`. -/
  prop : Option Nat
  started : Bool
  start : ℚ
  /-- The field `end`. -/
  end_ : ℚ
  count : Int
  duration : ℚ
  autoreverse : Bool
  direction : Int
  timeFunc : Int
  /-- The pointer `Nan::Callback *then`; `none` is `NULL`. -/
  then_ : Option Nat
  startTime : ℚ
  lastTime : ℚ
  pauseTime : ℚ
  /-- The inherited flag `destroyed`. -/
  destroyed : Bool
  /-- The inherited pointer `eventHandler`; `none` is `NULL`. -/
  eventHandler : Option Nat
  deriving DecidableEq

namespace Anim

/-! ## Time functions (`base.h`, lines 576-624) -/

/-- The function `Anim::cubicIn`: `pow(t, 3)`. -/
def cubicIn (t : ℚ) : ℚ := t ^ 3

/-- The function `Anim::cubicOut`: `1 - cubicIn(1 - t)`. -/
def cubicOut (t : ℚ) : ℚ := 1 - cubicIn (1 - t)

/-- The function `Anim::cubicInOut`: `cubicIn(t * 2.0) / 2.0` below 0.5, else
`1 - cubicIn((1 - t) * 2) / 2`. -/
def cubicInOut (t : ℚ) : ℚ :=
  if t < 1 / 2 then cubicIn (t * 2) / 2 else 1 - cubicIn ((1 - t) * 2) / 2

/-- The `switch (timeFunc)` of `Anim::timeToPosition`, which computes `t2`. -/
def timeFunction (timeFunc : Int) (t : ℚ) : ℚ :=
  if timeFunc = TF_CUBIC_IN then cubicIn t
  else if timeFunc = TF_CUBIC_OUT then cubicOut t
  else if timeFunc = TF_CUBIC_IN_OUT then cubicInOut t
  else t

/-- The function `Anim::timeToPosition`: `start + (end - start) * t2`. -/
def timeToPosition (a : Anim) (t : ℚ) : ℚ :=
  a.start + (a.end_ - a.start) * timeFunction a.timeFunc t

/-! ## Direction, writes, stop and completion (`base.h`, lines 480-490, 631-701) -/

/-- The method `Anim::toggle`: flip the direction when autoreverse is enabled. -/
def toggle (a : Anim) : Anim :=
  if a.autoreverse then
    if a.direction = FORWARD then { a with direction := BACKWARD }
    else { a with direction := FORWARD }
  else a

/-- The method `Anim::applyValue`: nothing happens when `prop` is `NULL`. -/
def applyValue (a : Anim) (value : ℚ) : List Event :=
  match a.prop with
  | none => []
  | some p => [Event.setValue p value]

/-- The method `Anim::destroy`: release the property and delete the callback. -/
def destroy (a : Anim) : Anim × List Event :=
  let r : Anim × List Event :=
    match a.prop with
    | some p => ({ a with prop := none }, [Event.release p])
    | none => (a, [])
  match r.1.then_ with
  | some cb => ({ r.1 with then_ := none }, r.2 ++ [Event.deleteThen cb])
  | none => r

/-- The method `Anim::stop`: unless destroyed, ask the renderer (when set) to remove
the animation and free the resources. -/
def stop (a : Anim) : Anim × List Event :=
  if a.destroyed then (a, [])
  else
    let removal : List Event :=
      match a.eventHandler with
      | some g => [Event.removeAnimationAsync g]
      | none => []
    let r := destroy a
    (r.1, removal ++ r.2)

/-- The method `Anim::endAnimation`: write `end`, call `then` when set, stop. -/
def endAnimation (a : Anim) : Anim × List Event :=
  let written := applyValue a a.end_
  let called : List Event :=
    match a.then_ with
    | some cb => [Event.callThen cb]
    | none => []
  let r := stop a
  (r.1, written ++ called ++ r.2)

/-! ## The frame tick (`base.h`, lines 703-771) -/

/-- Lines 714-719 of `Anim::update`: "handle first start". -/
def firstStart (a : Anim) (currentTime : ℚ) : Anim :=
  if a.startTime = 0 then
    { a with startTime := currentTime, lastTime := currentTime, pauseTime := 0 }
  else a

/-- Lines 721-726 of `Anim::update`: "validate time". -/
def validateTime (a : Anim) (currentTime : ℚ) : Anim :=
  if currentTime < a.startTime then
    { a with startTime := currentTime - (a.lastTime - a.startTime), lastTime := currentTime }
  else a

/-- Lines 714-726 of `Anim::update`: the two steps that fix the start time the
tick computes its progress from. -/
def rebase (a : Anim) (currentTime : ℚ) : Anim :=
  validateTime (firstStart a currentTime) currentTime

/-- Line 729 of `Anim::update`, before the division: `currentTime - startTime`. -/
def elapsed (a : Anim) (currentTime : ℚ) : ℚ :=
  currentTime - (rebase a currentTime).startTime

/-- Line 729 of `Anim::update`: `t = (currentTime - startTime) / duration`. -/
def progress (a : Anim) (currentTime : ℚ) : ℚ :=
  elapsed a currentTime / (rebase a currentTime).duration

/-- Lines 763-770 of `Anim::update`: mirror `t` when running backward, apply the
time function and write the value. -/
def writeAt (a : Anim) (t : ℚ) : Anim × List Event :=
  let t1 := if a.direction = BACKWARD then 1 - t else t
  (a, applyValue a (timeToPosition a t1))

/-- The method `Anim::update`.  The state `a2` is the object after lines 714-731
(re-based start time, `lastTime = currentTime`) and `t` the progress of line 729.
The branches follow lines 733-761: `doToggle0` is `doToggle` after the `FOREVER`
test; a positive count is decremented, and the tick then either starts the next
cycle (`startTime = currentTime; t = 0; toggle()`) or calls `endAnimation` and
returns; a count that is neither positive nor `FOREVER` clamps `t` to 1.  Lines
763-770 are `writeAt`. -/
def update (a : Anim) (currentTime : ℚ) : Anim × List Event :=
  if a.started = false then (a, [])
  else if a.count = 0 then (a, [])
  else
    let t := progress a currentTime
    let a2 : Anim := { rebase a currentTime with lastTime := currentTime }
    if t > 1 then
      let doToggle0 : Bool := decide (a2.count = FOREVER)
      if a2.count > 0 then
        let a3 : Anim := { a2 with count := a2.count - 1 }
        if a3.count > 0 then
          writeAt (toggle { a3 with startTime := currentTime }) 0
        else endAnimation a3
      else if doToggle0 then
        writeAt (toggle { a2 with startTime := currentTime }) 0
      else writeAt a2 1
    else writeAt a2 t

/-! ## Sequences of calls -/

/-- A call made on an animation by the frame loop or by the script. -/
inductive Action where
  /-- The call `update(currentTime)`. -/
  | tick (currentTime : ℚ)
  /-- The call `stop()`. -/
  | stop
  deriving DecidableEq

/-- One call. -/
def step (a : Anim) : Action → Anim × List Event
  | Action.tick now => update a now
  | Action.stop => stop a

/-- A sequence of calls, with the events of all of them in order. -/
def run (a : Anim) : List Action → Anim × List Event
  | [] => (a, [])
  | act :: rest =>
    let r := step a act
    let r2 := run r.1 rest
    (r2.1, r.2 ++ r2.2)

/-- A sequence of ticks. -/
def runTicks (a : Anim) (times : List ℚ) : Anim × List Event :=
  run a (times.map Action.tick)

/-- Whether a call ends the animation: a `stop`, or a tick that takes the repeat
count from a non-zero value to 0 (the branch of `update` that calls
`endAnimation`). -/
def ends (a : Anim) : Action → Bool
  | Action.stop => true
  | Action.tick now => decide (a.count ≠ 0 ∧ (update a now).1.count = 0)

/-- The number of ticks of a run whose progress (line 729) exceeds 1. -/
def overruns (a : Anim) : List ℚ → Nat
  | [] => 0
  | t :: ts => (if progress a t > 1 then 1 else 0) + overruns (update a t).1 ts

/-- The easing function as the specification words it: linear `t`, cubic-in `t³`,
cubic-out `1 − (1−t)³`, cubic-in-out `cubicIn(2t)/2` below one half and
`1 − cubicIn(2(1−t))/2` from there on; any other kind is linear. -/
def specEasing (kind : Int) (t : ℚ) : ℚ :=
  if kind = 1 then t ^ 3
  else if kind = 2 then 1 - (1 - t) ^ 3
  else if kind = 3 then (if t < 1 / 2 then (2 * t) ^ 3 / 2 else 1 - (2 * (1 - t)) ^ 3 / 2)
  else t

/-- An animation as `handleStart` leaves a freshly constructed object bound to
property `p`: the field initialisers of the class for everything it does not set. -/
def started0 (p : Nat) (fromValue toValue duration : ℚ) (count : Int) (autoreverse : Bool)
    (timeFunc : Int) (cb : Option Nat) : Anim :=
  { prop := some p, started := true, start := fromValue, end_ := toValue, count := count,
    duration := duration, autoreverse := autoreverse, direction := FORWARD,
    timeFunc := timeFunc, then_ := cb, startTime := 0, lastTime := 0, pauseTime := 0,
    destroyed := false, eventHandler := some 0 }

/-- The values written to the property by a list of events, in order. -/
def writes : List Event → List ℚ
  | [] => []
  | Event.setValue _ v :: es => v :: writes es
  | _ :: es => writes es

/-- The number of invocations of the completion callback in a list of events. -/
def calls : List Event → Nat
  | [] => 0
  | Event.callThen _ :: es => calls es + 1
  | _ :: es => calls es

/-- The number of property releases in a list of events. -/
def releases : List Event → Nat
  | [] => 0
  | Event.release _ :: es => releases es + 1
  | _ :: es => releases es

/-! ## The tick with the quotient of line 729 as the machine computes it

Line 729 is `float t = (currentTime - startTime) / duration;` with `double`
times and a `float` duration: the difference and the quotient are computed in
binary64 and the quotient is then converted to binary32, each step rounding to
nearest, ties to even.  The test `t > 1` of line 733 is made on the rounded
value. -/

/-- Rounding of a rational to the nearest integer, ties to the even one. -/
def roundHalfEven (q : ℚ) : Int :=
  if q - (⌊q⌋ : ℚ) < 1 / 2 then ⌊q⌋
  else if 1 / 2 < q - (⌊q⌋ : ℚ) then ⌊q⌋ + 1
  else if ⌊q⌋ % 2 = 0 then ⌊q⌋
  else ⌊q⌋ + 1

/-- The spacing of the values of a binary floating-point format with `p`
significant bits and least exponent `emin` around `q`: `2 ^ (e - (p - 1))` where
`e` is the exponent of `q`, not below `emin` (below `2 ^ emin` the values are the
subnormal ones, evenly spaced). -/
def binaryUlp (p : Nat) (emin : Int) (q : ℚ) : ℚ :=
  (2 : ℚ) ^ (max (Int.log 2 |q|) emin - ((p : Int) - 1))

/-- Rounding to the nearest value of a binary floating-point format with `p`
significant bits and least exponent `emin`, ties to even.  The format is taken
without a largest value: overflow to an infinity is not represented. -/
def roundBinary (p : Nat) (emin : Int) (q : ℚ) : ℚ :=
  if q = 0 then 0
  else (roundHalfEven (q / binaryUlp p emin q) : ℚ) * binaryUlp p emin q

/-- Rounding to `double` (binary64: 53 significant bits, least exponent -1022). -/
def toDouble (q : ℚ) : ℚ := roundBinary 53 (-1022) q

/-- Rounding to `float` (binary32: 24 significant bits, least exponent -126). -/
def toFloat (q : ℚ) : ℚ := roundBinary 24 (-126) q

/-- Line 729 of `Anim::update` on the machine, for the difference `x` of the two
times and the duration `d`, `d` not 0: the `double` difference divided by the
duration in `double`, converted to `float`. -/
def floatQuot (x d : ℚ) : ℚ := toFloat (toDouble (toDouble x / d))

/-- The method `Anim::update` with the division of line 729 as a parameter:
`quot x d` is the value the tick computes for `x / d`.  Everything else is as in
`update`, which is the instance with the exact quotient. -/
def updateWith (quot : ℚ → ℚ → ℚ) (a : Anim) (currentTime : ℚ) : Anim × List Event :=
  if a.started = false then (a, [])
  else if a.count = 0 then (a, [])
  else
    let t := quot (elapsed a currentTime) (rebase a currentTime).duration
    let a2 : Anim := { rebase a currentTime with lastTime := currentTime }
    if t > 1 then
      let doToggle0 : Bool := decide (a2.count = FOREVER)
      if a2.count > 0 then
        let a3 : Anim := { a2 with count := a2.count - 1 }
        if a3.count > 0 then
          writeAt (toggle { a3 with startTime := currentTime }) 0
        else endAnimation a3
      else if doToggle0 then
        writeAt (toggle { a2 with startTime := currentTime }) 0
      else writeAt a2 1
    else writeAt a2 t

/-- A sequence of ticks with the division of line 729 as a parameter, with the
events of all of them in order. -/
def runTicksWith (quot : ℚ → ℚ → ℚ) (a : Anim) : List ℚ → Anim × List Event
  | [] => (a, [])
  | t :: ts =>
    let r := updateWith quot a t
    let r2 := runTicksWith quot r.1 ts
    (r2.1, r.2 ++ r2.2)

end Anim

/-! ## Nodes, properties and script entry points (`base.h`, lines 34-101, 205-296) -/

/-- The constant `GROUP`. -/
def GROUP : Int := 1

/-- The constant `RECT`. -/
def RECT : Int := 2

/-- The constant `TEXT`. -/
def TEXT : Int := 3

/-- The constant `POLY`. -/
def POLY : Int := 5

/-- The constant `INVALID`. -/
def INVALID : Int := -1

/-- The constant `R_PROP`. -/
def R_PROP : Int := 5

/-- The constant `G_PROP`. -/
def G_PROP : Int := 6

/-- The constant `B_PROP`. -/
def B_PROP : Int := 7

/-- The constant `TEXT_PROP`. -/
def TEXT_PROP : Int := 9

/-- The constant `W_PROP`. -/
def W_PROP : Int := 10

/-- The constant `H_PROP`. -/
def H_PROP : Int := 11

/-- The constant `FONTSIZE_PROP`. -/
def FONTSIZE_PROP : Int := 12

/-- The constant `FONTID_PROP`. -/
def FONTID_PROP : Int := 28

/-- The constant `TEXT_VALIGN_PROP`. -/
def TEXT_VALIGN_PROP : Int := 40

/-- The constant `TEXT_WRAP_PROP`. -/
def TEXT_WRAP_PROP : Int := 41

/-- The constant `VALIGN_BASELINE`. -/
def VALIGN_BASELINE : Int := 0

/-- The constant `WRAP_NONE`. -/
def WRAP_NONE : Int := 0

/-- Modelled from the spec: the type tag of a property (`prop->type`, with the
constant `PROPERTY_FLOAT`), declared in `base_js.h`, which is not among the
sources: a property is float, boolean, unsigned-integer, string or float-array. -/
inductive PropertyType where
  | float
  | boolean
  | uint32
  | utf8
  | floatArray
  deriving DecidableEq

/-- Modelled from the spec: a property object (`AnyProperty`, declared in
`base_js.h`): its address, its numeric identifier within the owning node and its
type. -/
structure AnyProperty where
  handle : Nat
  id : Nat
  type : PropertyType
  deriving DecidableEq

/-- The members of `class TextNode` (`base.h`, lines 342-360); the vertex buffer is
an opaque handle. -/
structure TextNode where
  text : String
  r : ℚ
  g : ℚ
  b : ℚ
  w : ℚ
  h : ℚ
  wrap : Int
  fontid : Int
  fontsize : Int
  buffer : Option Nat
  vAlign : Int
  lineNr : Int
  deriving DecidableEq

/-- A rendering node: the address of the object, the `type` tag of `AminoNode`,
the inherited `eventHandler` pointer and property table, and the `TextNode`
members, which only mean something when `type` is `TEXT`. -/
structure AminoNode where
  handle : Nat
  type : Int
  eventHandler : Option Nat
  properties : List AnyProperty
  textnode : TextNode
  deriving DecidableEq

/-- The members of a `TextNode` as its constructor sets them (lines 362-379): white,
empty box, no wrapping, empty text, font size 20, no font, no buffer, baseline. -/
def newTextNode : TextNode :=
  { text := "", r := 1, g := 1, b := 1, w := 0, h := 0, wrap := WRAP_NONE,
    fontid := INVALID, fontsize := 20, buffer := none, vAlign := VALIGN_BASELINE,
    lineNr := 0 }

/-- A newly constructed node with the given address, type tag, renderer and
properties. -/
def newNode (handle : Nat) (type : Int) (eventHandler : Option Nat)
    (properties : List AnyProperty) : AminoNode :=
  { handle := handle, type := type, eventHandler := eventHandler,
    properties := properties, textnode := newTextNode }

/-- The asynchronous handlers of `Group` that `enqueueValueUpdate` is given. -/
inductive ChildCallback where
  | addChild
  | removeChild
  deriving DecidableEq

/-- Effects of the script entry points, in program order. -/
inductive Effect where
  /-- The call `Nan::ThrowTypeError(msg)`. -/
  | throwTypeError (msg : String)
  /-- The call `prop->retain()`. -/
  | retain (prop : Nat)
  /-- The call `obj->addAnimationAsync(this)`. -/
  | addAnimationAsync (gfx : Nat)
  /-- The call `group->enqueueValueUpdate(child, callback)`. -/
  | enqueueValueUpdate (group : Nat) (child : Nat) (callback : ChildCallback)
  deriving DecidableEq

namespace AminoNode

/-- The method `AminoNode::checkRenderer(AminoGfx *amino)`: the result and the error
thrown when the node belongs to another renderer. -/
def checkRenderer (node : AminoNode) (amino : Option Nat) : Bool × List Effect :=
  if node.eventHandler ≠ amino then (false, [Effect.throwTypeError "invalid renderer"])
  else (true, [])

/-- Modelled from the spec: the lookup `getPropertyWithId` of `base_js.h` (not
among the sources): the property of the node with that identifier, which is
unique within the node, or `NULL`. -/
def getPropertyWithId (node : AminoNode) (propId : Nat) : Option AnyProperty :=
  node.properties.find? (fun q => q.id = propId)

end AminoNode

namespace Anim

/-- The method `Anim::preInit` (`base.h`, lines 452-478) for the renderer `obj`, the
node `node` and the property identifier `propId`. -/
def preInit (a : Anim) (obj : Nat) (node : AminoNode) (propId : Nat) :
    Anim × List Effect :=
  let chk := node.checkRenderer (some obj)
  if chk.1 = false then (a, chk.2)
  else
    match node.getPropertyWithId propId with
    | none => (a, chk.2 ++ [Effect.throwTypeError "property cannot be animated"])
    | some prop =>
      if prop.type ≠ PropertyType.float then
        (a, chk.2 ++ [Effect.throwTypeError "property cannot be animated"])
      else
        ({ a with eventHandler := some obj, prop := some prop.handle },
          chk.2 ++ [Effect.retain prop.handle, Effect.addAnimationAsync obj])

/-- An animation object as constructed, before `preInit`: the field initialisers of
the class, and the zero value for the fields that have none. -/
def newAnim : Anim :=
  { prop := none, started := false, start := 0, end_ := 0, count := 0, duration := 0,
    autoreverse := false, direction := FORWARD, timeFunc := TF_CUBIC_IN_OUT, then_ := none,
    startTime := 0, lastTime := 0, pauseTime := 0, destroyed := false, eventHandler := none }

/-- The object `data` passed to `_start`: the values read by `handleStart`.  The
field `then_` is the function found under `then`, if there is one. -/
structure StartData where
  fromValue : ℚ
  toValue : ℚ
  duration : ℚ
  count : Int
  autoreverse : Bool
  timeFunc : String
  then_ : Option Nat
  deriving DecidableEq

/-- The method `Anim::handleStart` (`base.h`, lines 531-571). -/
def handleStart (a : Anim) (data : StartData) : Anim × List Effect :=
  if a.started then (a, [Effect.throwTypeError "already started"])
  else
    let tf : Int :=
      if data.timeFunc = "cubicIn" then TF_CUBIC_IN
      else if data.timeFunc = "cubicOut" then TF_CUBIC_OUT
      else if data.timeFunc = "cubicInOut" then TF_CUBIC_IN_OUT
      else TF_LINEAR
    let cb : Option Nat :=
      match data.then_ with
      | some f => some f
      | none => a.then_
    ({ a with start := data.fromValue, end_ := data.toValue, duration := data.duration,
              count := data.count, autoreverse := data.autoreverse, timeFunc := tf,
              then_ := cb, started := true }, [])

/-- A call on an animation during its life: a tick or a stop, or `destroy()`. -/
inductive LifeCall where
  | act (x : Action)
  | destroy
  deriving DecidableEq

/-- One call of the life of an animation. -/
def lifeStep (a : Anim) : LifeCall → Anim × List Event
  | LifeCall.act x => step a x
  | LifeCall.destroy => destroy a

/-- A sequence of calls of the life of an animation. -/
def life (a : Anim) : List LifeCall → Anim × List Event
  | [] => (a, [])
  | c :: rest =>
    let r := lifeStep a c
    let r2 := life r.1 rest
    (r2.1, r.2 ++ r2.2)

/-- Whether a call releases the resources of an animation that is not destroyed: a
`destroy`, a `stop`, or a tick that ends it. -/
def frees (a : Anim) : LifeCall → Bool
  | LifeCall.act x => ends a x
  | LifeCall.destroy => true

/-- The messages of the errors thrown among the effects of an entry point. -/
def errors : List Effect → List String
  | [] => []
  | Effect.throwTypeError msg :: es => msg :: errors es
  | _ :: es => errors es

/-- The number of retains among the effects of an entry point. -/
def retains : List Effect → Nat
  | [] => 0
  | Effect.retain _ :: es => retains es + 1
  | _ :: es => retains es

/-- Modelled from the spec: `retain()` and `release()` (of `base_js.h`, not among
the sources) add one to and take one from the reference count; the count of a
property that stood at `r0` after the given creation effects and events. -/
def refCount (r0 : Int) (effects : List Effect) (events : List Event) : Int :=
  r0 + (retains effects : Int) - (releases events : Int)

end Anim

/-! ## Groups (`base.h`, lines 971-1085) -/

/-- The state of a `Group` that the child operations use: its address, the
inherited `eventHandler` and the `children` vector (addresses of nodes). -/
structure Group where
  handle : Nat
  eventHandler : Option Nat
  children : List Nat
  deriving DecidableEq

namespace Group

/-- The method `Group::Add` (lines 1032-1042) called with `child`. -/
def Add (group : Group) (child : AminoNode) : List Effect :=
  let chk := child.checkRenderer group.eventHandler
  if chk.1 = false then chk.2
  else chk.2 ++ [Effect.enqueueValueUpdate group.handle child.handle ChildCallback.addChild]

/-- The method `Group::Remove` (lines 1060-1066) called with `child`. -/
def Remove (group : Group) (child : AminoNode) : List Effect :=
  [Effect.enqueueValueUpdate group.handle child.handle ChildCallback.removeChild]

/-- Modelled from the spec: `retain()` on a node (of `base_js.h`, not among the
sources) adds one to its reference count. -/
def retainNode (refs : Nat → Int) (node : Nat) : Nat → Int :=
  Function.update refs node (refs node + 1)

/-- Modelled from the spec: `release()` on a node (of `base_js.h`, not among the
sources) takes one from its reference count. -/
def releaseNode (refs : Nat → Int) (node : Nat) : Nat → Int :=
  Function.update refs node (refs node - 1)

/-- The method `Group::addChild` (lines 1047-1058): `push_back` and retain. -/
def addChild (group : Group) (refs : Nat → Int) (node : Nat) : Group × (Nat → Int) :=
  ({ group with children := group.children ++ [node] }, retainNode refs node)

/-- The method `Group::removeChild` (lines 1068-1084): `std::find` the node, and if
it is found erase that position and release the node. -/
def removeChild (group : Group) (refs : Nat → Int) (node : Nat) : Group × (Nat → Int) :=
  if node ∈ group.children then
    ({ group with children := group.children.erase node }, releaseNode refs node)
  else (group, refs)

end Group

/-! ## Queued updates (`base.h`, lines 1086-1201) -/

/-- The members of `class Update`. -/
structure Update where
  type : Int
  node : Int
  property : Int
  value : ℚ
  text : String
  arr : Option (List ℚ)
  callback : Option Nat
  deriving DecidableEq

/-- The least value of a 32-bit `int`. -/
def INT_MIN : Int := -2147483648

/-- The greatest value of a 32-bit `int`. -/
def INT_MAX : Int := 2147483647

/-- The conversion of a `float` to `int`: truncation toward zero.  This is the
result of the C++ conversion when the truncated value is representable in `int`
(`fitsInt`); for any other value the C++ conversion is undefined and this
function says nothing about the code. -/
def truncate (value : ℚ) : Int := value.num.tdiv value.den

/-- Whether the conversion of a `float` value to `int` is defined: the truncated
value is representable in a 32-bit `int`. -/
def fitsInt (value : ℚ) : Bool :=
  decide (INT_MIN ≤ truncate value ∧ truncate value ≤ INT_MAX)

namespace Update

/-- The `switch (property)` of `Update::apply` on a text node: the node after the
assignment and the flag `refresh`. -/
def applyText (u : Update) (t : TextNode) : TextNode × Bool :=
  if u.property = R_PROP then ({ t with r := u.value }, false)
  else if u.property = G_PROP then ({ t with g := u.value }, false)
  else if u.property = B_PROP then ({ t with b := u.value }, false)
  else if u.property = W_PROP then ({ t with w := u.value }, true)
  else if u.property = H_PROP then ({ t with h := u.value }, false)
  else if u.property = TEXT_PROP then ({ t with text := u.text }, true)
  else if u.property = FONTSIZE_PROP then ({ t with fontsize := truncate u.value }, true)
  else if u.property = FONTID_PROP then ({ t with fontid := truncate u.value }, true)
  else if u.property = TEXT_VALIGN_PROP then ({ t with vAlign := truncate u.value }, false)
  else if u.property = TEXT_WRAP_PROP then ({ t with wrap := truncate u.value }, true)
  else (t, false)

/-- The body of `Update::apply` for the target node: the node afterwards and
whether `refreshText()` is called (the call is recorded, not executed: the
function is defined outside the sources). -/
def applyTo (u : Update) (target : AminoNode) : AminoNode × Bool :=
  if target.type = TEXT then
    let r := applyText u target.textnode
    ({ target with textnode := r.1 }, r.2)
  else (target, false)

/-- The method `Update::apply` on the global vector `rects`: the vector afterwards
and whether `refreshText()` was called; `none` when `rects[node]` is out of
range, where the C++ code is undefined. -/
def apply (u : Update) (rects : List AminoNode) : Option (List AminoNode × Bool) :=
  if u.node < 0 then none
  else
    match rects.get? u.node.toNat with
    | none => none
    | some target =>
      let r := applyTo u target
      some (rects.set u.node.toNat r.1, r.2)

end Update

/-! ## Images and textures (`images.cpp`, lines 430-505, 660-911, 1320-1423) -/

/-- Modelled from the spec: the constant `INVALID_TEXTURE` of `gfx.h` (not among
the sources), the handle value that stands for "no texture" (an unset handle). -/
def INVALID_TEXTURE : Nat := 0

/-- The members of `class AminoImage` that texture creation uses: size, format and
the pixel buffer (its persistent handle, data pointer and length). -/
structure AminoImage where
  w : Int
  h : Int
  alpha : Bool
  bpp : Int
  buffer : Option Nat
  bufferData : Option Nat
  bufferLength : Nat
  deriving DecidableEq

namespace AminoImage

/-- The method `AminoImage::hasImage`: `w > 0`. -/
def hasImage (img : AminoImage) : Bool := decide (img.w > 0)

/-- The method `AminoImage::destroyAminoImage`: reset the buffer, its data pointer
and its length. -/
def destroyAminoImage (img : AminoImage) : AminoImage :=
  { img with buffer := none, bufferData := none, bufferLength := 0 }

/-- The static `AminoImage::createTexture(textureId, bufferData, bufferLength, w, h,
bpp)`, where `gen` is the name `glGenTextures` produces: the handle returned, or
`none` when one of the two assertions fails. -/
def createTextureFromBuffer (textureId : Nat) (bufferLength : Nat) (w h bpp : Int)
    (gen : Nat) : Option Nat :=
  if w * h * bpp ≠ (bufferLength : Int) then none
  else if textureId ≠ INVALID_TEXTURE then some textureId
  else if gen = INVALID_TEXTURE then none
  else some gen

/-- The method `AminoImage::createTexture(textureId)`: the invalid handle when
there is no image, else the static function on the members of the image. -/
def createTexture (img : AminoImage) (textureId : Nat) (gen : Nat) : Option Nat :=
  if img.hasImage = false then some INVALID_TEXTURE
  else createTextureFromBuffer textureId img.bufferLength img.w img.h img.bpp gen

end AminoImage

/-- Modelled from the spec: the two phases of a two-phase update
(`AsyncValueUpdate::STATE_APPLY` on the render thread, `STATE_DELETE` on the
controller thread), declared in `base_js.h`, which is not among the sources. -/
inductive AsyncState where
  | STATE_APPLY
  | STATE_DELETE
  deriving DecidableEq

/-- The asynchronous handlers of `AminoTexture` that `enqueueValueUpdate` is given. -/
inductive TextureHandler where
  | createTexture
  | createTextureFromFont
  deriving DecidableEq

/-- Effects of the texture code, in program order. -/
inductive TextureEffect where
  /-- The call `callback->Call(...)` with an error message or with `null`. -/
  | callbackCall (cb : Nat) (error : Option String)
  /-- The statement `delete callback`. -/
  | deleteCallback (cb : Nat)
  /-- The call `notifyTextureCreated()` on the renderer. -/
  | notifyTextureCreated (gfx : Nat)
  /-- The call `deleteTextureAsync(textureId)` on the renderer. -/
  | deleteTextureAsync (gfx : Nat) (textureId : Nat)
  /-- The two `Nan::Set` calls on `w` and `h`; `none` is `undefined`. -/
  | setSize (w h : Option Int)
  /-- The call `video->release()`. -/
  | releaseVideo (video : Nat)
  /-- The statement `delete videoPlayer`. -/
  | deleteVideoPlayer (player : Nat)
  /-- The call `obj->enqueueValueUpdate(value, handler)`. -/
  | enqueueValueUpdate (value : Nat) (handler : TextureHandler)
  deriving DecidableEq

/-- The members of `class AminoTexture` as `images.cpp` uses them, with the inherited
`eventHandler`.  The pointer `callback` is `none` when it is `NULL`; after a
`delete` without reset it still holds the deleted callback. -/
structure AminoTexture where
  callback : Option Nat
  textureId : Nat
  ownTexture : Bool
  w : Int
  h : Int
  video : Option Nat
  videoPlayer : Option Nat
  eventHandler : Option Nat
  deriving DecidableEq

namespace AminoTexture

/-- A texture object as constructed and bound to renderer `gfx` by `preInit`. -/
def newTexture (gfx : Nat) : AminoTexture :=
  { callback := none, textureId := INVALID_TEXTURE, ownTexture := true, w := 0, h := 0,
    video := none, videoPlayer := none, eventHandler := some gfx }

/-- The method `AminoTexture::destroyAminoTexture` (lines 694-725). -/
def destroyAminoTexture (t : AminoTexture) : AminoTexture × List TextureEffect :=
  let e1 : List TextureEffect :=
    match t.callback with
    | some cb => [TextureEffect.deleteCallback cb]
    | none => []
  let e2 : List TextureEffect :=
    match t.video with
    | some v => [TextureEffect.releaseVideo v]
    | none => []
  let e3 : List TextureEffect :=
    match t.videoPlayer with
    | some q => [TextureEffect.deleteVideoPlayer q]
    | none => []
  let t1 : AminoTexture := { t with callback := none, video := none, videoPlayer := none }
  if t1.textureId ≠ INVALID_TEXTURE then
    let e4 : List TextureEffect :=
      match t1.eventHandler with
      | some g => if t1.ownTexture then [TextureEffect.deleteTextureAsync g t1.textureId] else []
      | none => []
    ({ t1 with textureId := INVALID_TEXTURE, w := 0, h := 0 },
      e1 ++ e2 ++ e3 ++ e4 ++ [TextureEffect.setSize none none])
  else (t1, e1 ++ e2 ++ e3)

/-- The method `AminoTexture::LoadTextureFromImage` (lines 798-840) called with the
image `img` (at address `imgObj`) and the function `callback`. -/
def LoadTextureFromImage (t : AminoTexture) (img : AminoImage) (imgObj : Nat)
    (callback : Nat) : AminoTexture × List TextureEffect :=
  if t.callback ≠ none ∨ t.textureId ≠ INVALID_TEXTURE then
    (t, [TextureEffect.callbackCall callback (some "already loading")])
  else if img.hasImage = false then
    (t, [TextureEffect.callbackCall callback (some "image not loaded")])
  else
    ({ t with callback := some callback },
      [TextureEffect.enqueueValueUpdate imgObj TextureHandler.createTexture])

/-- The method `AminoTexture::LoadTextureFromFont` (lines 1325-1353) called with the
font size object `fontObj` and the function `callback`. -/
def LoadTextureFromFont (t : AminoTexture) (fontObj : Nat) (callback : Nat) :
    AminoTexture × List TextureEffect :=
  if t.callback ≠ none ∨ t.textureId ≠ INVALID_TEXTURE then
    (t, [TextureEffect.callbackCall callback (some "already loading")])
  else
    ({ t with callback := some callback },
      [TextureEffect.enqueueValueUpdate fontObj TextureHandler.createTextureFromFont])

/-- The method `AminoTexture::createTexture(update, state)` (lines 845-911) for the
image `img` of the update, where `gen` is the name `glGenTextures` would
produce; `none` when an assertion fails or a null renderer is used.  In
`STATE_DELETE` the callback is called, deleted and reset to `NULL`. -/
def createTexture (t : AminoTexture) (img : AminoImage) (gen : Nat) :
    AsyncState → Option (AminoTexture × List TextureEffect)
  | AsyncState.STATE_APPLY =>
    let isNew : Bool := decide (t.textureId = INVALID_TEXTURE)
    match img.createTexture t.textureId gen with
    | none => none
    | some textureId =>
      if textureId ≠ INVALID_TEXTURE then
        let t1 : AminoTexture :=
          { t with textureId := textureId, ownTexture := if isNew then true else t.ownTexture,
                   w := img.w, h := img.h }
        if isNew then
          match t.eventHandler with
          | some g => some (t1, [TextureEffect.notifyTextureCreated g])
          | none => none
        else some (t1, [])
      else some (t, [])
  | AsyncState.STATE_DELETE =>
    if t.textureId = INVALID_TEXTURE then
      match t.callback with
      | some cb =>
        some ({ t with callback := none },
          [TextureEffect.callbackCall cb (some "could not create texture"),
           TextureEffect.deleteCallback cb])
      | none => some (t, [])
    else
      match t.callback with
      | some cb =>
        some ({ t with callback := none },
          [TextureEffect.setSize (some t.w) (some t.h), TextureEffect.callbackCall cb none,
           TextureEffect.deleteCallback cb])
      | none => some (t, [TextureEffect.setSize (some t.w) (some t.h)])

/-- The method `AminoTexture::createTextureFromFont(update, state)` (lines
1350-1423), where `atlasTexture` is the handle `getAtlasTexture` returns for the
atlas of the font and `atlasW`, `atlasH` are the size of the atlas; `none` when
the assertion on `eventHandler` fails.  In `STATE_DELETE` the callback is called
and deleted; the member `callback` is not assigned. -/
def createTextureFromFont (t : AminoTexture) (atlasTexture : Nat) (atlasW atlasH : Int) :
    AsyncState → Option (AminoTexture × List TextureEffect)
  | AsyncState.STATE_APPLY =>
    match t.eventHandler with
    | none => none
    | some _ =>
      if atlasTexture ≠ INVALID_TEXTURE then
        some ({ t with textureId := atlasTexture, ownTexture := false, w := atlasW,
                       h := atlasH }, [])
      else some (t, [])
  | AsyncState.STATE_DELETE =>
    if t.textureId = INVALID_TEXTURE then
      match t.callback with
      | some cb =>
        some (t, [TextureEffect.callbackCall cb (some "could not create texture"),
                  TextureEffect.deleteCallback cb])
      | none => some (t, [])
    else
      match t.callback with
      | some cb =>
        some (t, [TextureEffect.setSize (some t.w) (some t.h),
                  TextureEffect.callbackCall cb none, TextureEffect.deleteCallback cb])
      | none => some (t, [TextureEffect.setSize (some t.w) (some t.h)])

/-- The deletions of GPU textures requested among the effects. -/
def deletions : List TextureEffect → List Nat
  | [] => []
  | TextureEffect.deleteTextureAsync _ textureId :: es => textureId :: deletions es
  | _ :: es => deletions es

/-- The calls of a callback among the effects, each with its error (or `none`). -/
def callbackCalls : List TextureEffect → List (Nat × Option String)
  | [] => []
  | TextureEffect.callbackCall cb err :: es => (cb, err) :: callbackCalls es
  | _ :: es => callbackCalls es

/-- The callbacks deleted among the effects, in order. -/
def callbackDeletes : List TextureEffect → List Nat
  | [] => []
  | TextureEffect.deleteCallback cb :: es => cb :: callbackDeletes es
  | _ :: es => callbackDeletes es

end AminoTexture

/-! ## The update queue and the frame cycle -/

/-- Modelled from the spec: a queued update.  The queue and its drain live in
`base_js.h`/`base.cpp`, which are not among the sources (`base.h` only declares
`addAnimationAsync` and `processAnimations`); an update either sets a float
property to a value or adds an animation to the active set. -/
inductive QueuedUpdate where
  | setProperty (prop : Nat) (value : ℚ)
  | addAnimation (anim : Anim)
  deriving DecidableEq

/-- Modelled from the spec: the state of the render side: the pending updates in
enqueue order, the value of every float property and the active animations. -/
structure Renderer where
  pending : List QueuedUpdate
  values : Nat → ℚ
  animations : List Anim

namespace Renderer

/-- Modelled from the spec: `enqueue(update)` appends to a FIFO. -/
def enqueue (r : Renderer) (u : QueuedUpdate) : Renderer :=
  { r with pending := r.pending ++ [u] }

/-- Modelled from the spec: applying one update on the render thread: the direct
set of the property value, or the registration of the animation. -/
def applyUpdate (r : Renderer) : QueuedUpdate → Renderer
  | QueuedUpdate.setProperty p v => { r with values := Function.update r.values p v }
  | QueuedUpdate.addAnimation a => { r with animations := r.animations ++ [a] }

/-- Modelled from the spec: `drain()` takes the entire pending batch and applies
each update in enqueue order. -/
def drain (r : Renderer) : Renderer :=
  r.pending.foldl applyUpdate { r with pending := [] }

/-- Modelled from the spec: the property values after the writes (`setValue`)
among the events of an animation, which go through the direct-set path. -/
def applyEvents (values : Nat → ℚ) : List Event → (Nat → ℚ)
  | [] => values
  | Event.setValue p v :: es => applyEvents (Function.update values p v) es
  | _ :: es => applyEvents values es

/-- Modelled from the spec: the advance of one active animation within a frame:
`Anim::update` at the current time, its writes applied to the property values. -/
def advance (now : ℚ) (r : Renderer) (a : Anim) : Renderer :=
  { r with values := applyEvents r.values (Anim.update a now).2,
           animations := r.animations ++ [(Anim.update a now).1] }

/-- Modelled from the spec: `processAnimations` advances all active animations,
in the order of the active set. -/
def processAnimations (r : Renderer) (now : ℚ) : Renderer :=
  r.animations.foldl (advance now) { r with animations := [] }

/-- Modelled from the spec: one frame: drain, then advance all active animations. -/
def cycle (r : Renderer) (now : ℚ) : Renderer :=
  processAnimations (drain r) now

end Renderer

/-! ## Basic facts about the embedding -/

open Anim

section basics

variable (a : Anim) (now : ℚ)

@[simp] theorem rebase_prop : (rebase a now).prop = a.prop := by
  unfold rebase validateTime firstStart; split_ifs <;> rfl
@[simp] theorem rebase_started : (rebase a now).started = a.started := by
  unfold rebase validateTime firstStart; split_ifs <;> rfl
@[simp] theorem rebase_start : (rebase a now).start = a.start := by
  unfold rebase validateTime firstStart; split_ifs <;> rfl
@[simp] theorem rebase_end : (rebase a now).end_ = a.end_ := by
  unfold rebase validateTime firstStart; split_ifs <;> rfl
@[simp] theorem rebase_count : (rebase a now).count = a.count := by
  unfold rebase validateTime firstStart; split_ifs <;> rfl
@[simp] theorem rebase_duration : (rebase a now).duration = a.duration := by
  unfold rebase validateTime firstStart; split_ifs <;> rfl
@[simp] theorem rebase_autoreverse : (rebase a now).autoreverse = a.autoreverse := by
  unfold rebase validateTime firstStart; split_ifs <;> rfl
@[simp] theorem rebase_direction : (rebase a now).direction = a.direction := by
  unfold rebase validateTime firstStart; split_ifs <;> rfl
@[simp] theorem rebase_timeFunc : (rebase a now).timeFunc = a.timeFunc := by
  unfold rebase validateTime firstStart; split_ifs <;> rfl
@[simp] theorem rebase_then : (rebase a now).then_ = a.then_ := by
  unfold rebase validateTime firstStart; split_ifs <;> rfl
@[simp] theorem rebase_destroyed : (rebase a now).destroyed = a.destroyed := by
  unfold rebase validateTime firstStart; split_ifs <;> rfl
@[simp] theorem rebase_eventHandler : (rebase a now).eventHandler = a.eventHandler := by
  unfold rebase validateTime firstStart; split_ifs <;> rfl

@[simp] theorem toggle_prop : (toggle a).prop = a.prop := by
  unfold toggle; split_ifs <;> rfl
@[simp] theorem toggle_start : (toggle a).start = a.start := by
  unfold toggle; split_ifs <;> rfl
@[simp] theorem toggle_end : (toggle a).end_ = a.end_ := by
  unfold toggle; split_ifs <;> rfl
@[simp] theorem toggle_count : (toggle a).count = a.count := by
  unfold toggle; split_ifs <;> rfl
@[simp] theorem toggle_started : (toggle a).started = a.started := by
  unfold toggle; split_ifs <;> rfl
@[simp] theorem toggle_timeFunc : (toggle a).timeFunc = a.timeFunc := by
  unfold toggle; split_ifs <;> rfl
@[simp] theorem toggle_then : (toggle a).then_ = a.then_ := by
  unfold toggle; split_ifs <;> rfl
@[simp] theorem toggle_destroyed : (toggle a).destroyed = a.destroyed := by
  unfold toggle; split_ifs <;> rfl
@[simp] theorem toggle_startTime : (toggle a).startTime = a.startTime := by
  unfold toggle; split_ifs <;> rfl
@[simp] theorem toggle_lastTime : (toggle a).lastTime = a.lastTime := by
  unfold toggle; split_ifs <;> rfl
@[simp] theorem toggle_duration : (toggle a).duration = a.duration := by
  unfold toggle; split_ifs <;> rfl
@[simp] theorem toggle_autoreverse : (toggle a).autoreverse = a.autoreverse := by
  unfold toggle; split_ifs <;> rfl

/-- A tick whose progress does not exceed 1 takes the plain write path. -/
theorem update_within (hs : a.started = true) (hc : a.count ≠ 0)
    (ht : ¬ progress a now > 1) :
    update a now = writeAt { rebase a now with lastTime := now } (progress a now) := by
  unfold update
  simp [hs, hc, ht]

/-- A tick whose progress exceeds 1 with one repeat left ends the animation. -/
theorem update_last (hs : a.started = true) (hc : a.count = 1) (ht : progress a now > 1) :
    update a now = endAnimation { rebase a now with lastTime := now, count := 0 } := by
  unfold update
  simp [hs, hc, ht]

/-- A tick whose progress exceeds 1 with further repeats left starts the next cycle. -/
theorem update_repeat (hs : a.started = true) (hc : 1 < a.count) (ht : progress a now > 1) :
    update a now =
      writeAt (toggle { rebase a now with
        lastTime := now, count := a.count - 1, startTime := now }) 0 := by
  unfold update
  have h0 : a.count ≠ 0 := by omega
  have h1 : 0 < a.count := by omega
  have h2 : 0 < a.count - 1 := by omega
  simp [hs, h0, h1, h2, ht]

/-- A tick whose progress exceeds 1 on an infinite animation starts the next cycle. -/
theorem update_forever (hs : a.started = true) (hc : a.count = FOREVER)
    (ht : progress a now > 1) :
    update a now = writeAt (toggle { rebase a now with lastTime := now, startTime := now }) 0 := by
  unfold update
  simp [hs, hc, ht, FOREVER]

/-- A tick whose progress exceeds 1 with a negative count other than the sentinel
clamps the progress to 1. -/
theorem update_clamp (hs : a.started = true) (hc : a.count < 0) (hf : a.count ≠ FOREVER)
    (ht : progress a now > 1) :
    update a now = writeAt { rebase a now with lastTime := now } 1 := by
  unfold update
  have h0 : a.count ≠ 0 := by omega
  have h1 : ¬ 0 < a.count := by omega
  simp [hs, h0, h1, hf, ht]

/-- A tick on an animation whose repeat count is 0 does nothing. -/
theorem update_count_zero (hc : a.count = 0) : update a now = (a, []) := by
  unfold update
  simp [hc]

/-- Ticks on an animation whose repeat count is 0 do nothing. -/
theorem runTicks_count_zero (times : List ℚ) (hc : a.count = 0) :
    runTicks a times = (a, []) := by
  induction times with
  | nil => rfl
  | cons t ts ih =>
    simp only [runTicks, run, step, List.map] at ih ⊢
    rw [update_count_zero a t hc]
    simp [ih]

/-- The run of a tick followed by further ticks. -/
theorem runTicks_cons (t : ℚ) (ts : List ℚ) :
    runTicks a (t :: ts) =
      ((runTicks (update a t).1 ts).1, (update a t).2 ++ (runTicks (update a t).1 ts).2) := by
  simp [runTicks, run, step]

/-- What `endAnimation` does to a bound animation that is not destroyed. -/
theorem endAnimation_bound (p : Nat) (hp : a.prop = some p) (hd : a.destroyed = false) :
    endAnimation a =
      ({ a with prop := none, then_ := none },
        [Event.setValue p a.end_] ++
        (match a.then_ with | some cb => [Event.callThen cb] | none => []) ++
        (match a.eventHandler with | some g => [Event.removeAnimationAsync g] | none => []) ++
        [Event.release p] ++
        (match a.then_ with | some cb => [Event.deleteThen cb] | none => [])) := by
  obtain ⟨prop, started, start, end_, count, duration, autoreverse, direction, timeFunc,
    then_, startTime, lastTime, pauseTime, destroyed, eventHandler⟩ := a
  simp only at hp hd
  subst hp hd
  cases then_ <;> cases eventHandler <;> simp [endAnimation, stop, destroy, applyValue]

/-- Every time function maps 0 to 0. -/
theorem timeFunction_zero (kind : Int) : timeFunction kind 0 = 0 := by
  unfold timeFunction cubicInOut cubicOut cubicIn
  split_ifs <;> norm_num at *

/-- Every time function maps 1 to 1. -/
theorem timeFunction_one (kind : Int) : timeFunction kind 1 = 1 := by
  unfold timeFunction cubicInOut cubicOut cubicIn
  split_ifs <;> norm_num at *

/-- The position at progress 0 is `start`. -/
theorem timeToPosition_zero : timeToPosition a 0 = a.start := by
  simp [timeToPosition, timeFunction_zero]

/-- The position at progress 1 is `end`. -/
theorem timeToPosition_one : timeToPosition a 1 = a.end_ := by
  simp [timeToPosition, timeFunction_one]

end basics

/-! ## Theorems -/

/-- C1: over exact arithmetic every easing kind maps 0 to 0 and 1 to 1,
`cubicInOut (1/2) = 1/2`, and `timeToPosition` yields `start` at 0 and `end` at 1
for every animation (every start, end and easing kind). -/
theorem easing_boundary_exact :
    (∀ kind : Int, timeFunction kind 0 = 0 ∧ timeFunction kind 1 = 1) ∧
    (cubicIn 0 = 0 ∧ cubicIn 1 = 1) ∧ (cubicOut 0 = 0 ∧ cubicOut 1 = 1) ∧
    (cubicInOut 0 = 0 ∧ cubicInOut 1 = 1) ∧ cubicInOut (1 / 2) = 1 / 2 ∧
    (∀ a : Anim, timeToPosition a 0 = a.start ∧ timeToPosition a 1 = a.end_) := by
  refine ⟨fun kind => ⟨timeFunction_zero kind, timeFunction_one kind⟩, ?_, ?_, ?_, ?_,
    fun a => ⟨timeToPosition_zero a, timeToPosition_one a⟩⟩
  · norm_num [cubicIn]
  · norm_num [cubicOut, cubicIn]
  · norm_num [cubicInOut, cubicIn]
  · norm_num [cubicInOut, cubicIn]

/-- C2: for every `t` the easing functions equal their reference definitions;
`timeToPosition` selects the function by the animation's easing kind, and every
kind other than cubic-in, cubic-out and cubic-in-out is treated as linear. -/
theorem easing_refines_spec :
    (∀ t : ℚ, timeFunction TF_LINEAR t = t ∧ cubicIn t = t ^ 3 ∧
      cubicOut t = 1 - (1 - t) ^ 3 ∧
      cubicInOut t = (if t < 1 / 2 then cubicIn (2 * t) / 2
                      else 1 - cubicIn (2 * (1 - t)) / 2)) ∧
    (∀ (a : Anim) (t : ℚ),
      timeToPosition a t = a.start + (a.end_ - a.start) * specEasing a.timeFunc t) ∧
    (∀ (a : Anim) (t : ℚ), a.timeFunc = TF_CUBIC_IN →
      timeToPosition a t = a.start + (a.end_ - a.start) * cubicIn t) ∧
    (∀ (a : Anim) (t : ℚ), a.timeFunc = TF_CUBIC_OUT →
      timeToPosition a t = a.start + (a.end_ - a.start) * cubicOut t) ∧
    (∀ (a : Anim) (t : ℚ), a.timeFunc = TF_CUBIC_IN_OUT →
      timeToPosition a t = a.start + (a.end_ - a.start) * cubicInOut t) ∧
    (∀ (a : Anim) (t : ℚ), a.timeFunc ≠ TF_CUBIC_IN → a.timeFunc ≠ TF_CUBIC_OUT →
      a.timeFunc ≠ TF_CUBIC_IN_OUT →
      timeToPosition a t = a.start + (a.end_ - a.start) * t) := by
  refine ⟨?_, ?_, ?_, ?_, ?_, ?_⟩
  · intro t
    refine ⟨by simp [timeFunction, TF_LINEAR, TF_CUBIC_IN, TF_CUBIC_OUT, TF_CUBIC_IN_OUT],
      rfl, rfl, ?_⟩
    unfold cubicInOut
    rw [mul_comm t 2, mul_comm (1 - t) 2]
  · intro a t
    unfold timeToPosition timeFunction specEasing cubicInOut cubicOut cubicIn
    simp only [TF_CUBIC_IN, TF_CUBIC_OUT, TF_CUBIC_IN_OUT, mul_comm t 2, mul_comm (1 - t) 2]
  · intro a t h
    simp [timeToPosition, timeFunction, h]
  · intro a t h
    simp [timeToPosition, timeFunction, h, TF_CUBIC_IN, TF_CUBIC_OUT]
  · intro a t h
    simp [timeToPosition, timeFunction, h, TF_CUBIC_IN, TF_CUBIC_OUT, TF_CUBIC_IN_OUT]
  · intro a t h1 h2 h3
    simp [timeToPosition, timeFunction, h1, h2, h3]

/-- C3: for a started animation with non-zero repeat count and duration > 0 that
is bound to its property, a tick whose progress `t = (currentTime - startTime) /
duration` (line 729, computed from the start time the tick uses) lies in `[0, 1]`
writes exactly `start + (end - start) * eased(t)` when running forward and
`start + (end - start) * eased(1 - t)` when running backward, and nothing else
happens; with from = 0, to = 10, duration = 1 and linear easing a tick half a
second after the start time writes 5. -/
theorem tick_writes_eased_value (a : Anim) (now : ℚ) (p : Nat)
    (hs : a.started = true) (hc : a.count ≠ 0) (_hd : 0 < a.duration)
    (hp : a.prop = some p) :
    (0 ≤ progress a now → progress a now ≤ 1 →
      (a.direction = FORWARD → (update a now).2 =
        [Event.setValue p (a.start + (a.end_ - a.start) *
          timeFunction a.timeFunc (progress a now))]) ∧
      (a.direction = BACKWARD → (update a now).2 =
        [Event.setValue p (a.start + (a.end_ - a.start) *
          timeFunction a.timeFunc (1 - progress a now))]) ∧
      (a.direction ≠ BACKWARD → (update a now).2 =
        [Event.setValue p (a.start + (a.end_ - a.start) *
          timeFunction a.timeFunc (progress a now))])) ∧
    (a.start = 0 → a.end_ = 10 → a.duration = 1 → a.timeFunc = TF_LINEAR →
      elapsed a now = 1 / 2 → (update a now).2 = [Event.setValue p 5]) := by
  have key : ¬ progress a now > 1 →
      (update a now).2 = [Event.setValue p (a.start + (a.end_ - a.start) *
        timeFunction a.timeFunc
          (if a.direction = BACKWARD then 1 - progress a now else progress a now))] := by
    intro ht
    rw [update_within a now hs hc ht]
    simp [writeAt, applyValue, timeToPosition, hp]
  refine ⟨fun _ h1 => ⟨?_, ?_, ?_⟩, ?_⟩
  · intro hdir
    have hne : a.direction ≠ BACKWARD := by rw [hdir]; decide
    rw [key (not_lt.mpr h1), if_neg hne]
  · intro hdir
    rw [key (not_lt.mpr h1), if_pos hdir]
  · intro hne
    rw [key (not_lt.mpr h1), if_neg hne]
  · intro h0 h10 h1 hl he
    have ht : progress a now = 1 / 2 := by
      simp [progress, he, h1]
    have hle : ¬ progress a now > 1 := by rw [ht]; norm_num
    rw [key hle, ht, h0, h10, hl]
    by_cases hb : a.direction = BACKWARD
    · simp only [if_pos hb, timeFunction, TF_LINEAR, TF_CUBIC_IN, TF_CUBIC_OUT, TF_CUBIC_IN_OUT]
      norm_num
    · simp only [if_neg hb, timeFunction, TF_LINEAR, TF_CUBIC_IN, TF_CUBIC_OUT, TF_CUBIC_IN_OUT]
      norm_num

/-- Witness for C3: an animation from 0 to 10 over 1 s, linear, whose first tick
was at time 3, has progress 1/2 at time 3.5 and writes 5 there. -/
theorem tick_writes_eased_value_witness :
    (update { started0 7 0 10 1 1 false TF_LINEAR none with startTime := 3, lastTime := 3 }
      (7 / 2)).2 =
      [Event.setValue 7 ((0 : ℚ) + (10 - 0) * timeFunction TF_LINEAR (progress
        { started0 7 0 10 1 1 false TF_LINEAR none with startTime := 3, lastTime := 3 }
        (7 / 2)))] ∧
    (update { started0 7 0 10 1 1 false TF_LINEAR none with startTime := 3, lastTime := 3 }
      (7 / 2)).2 = [Event.setValue 7 5] :=
  ⟨((tick_writes_eased_value
      { started0 7 0 10 1 1 false TF_LINEAR none with startTime := 3, lastTime := 3 } (7 / 2) 7
      rfl (by decide) (by norm_num [started0]) rfl).1
      (by norm_num [progress, elapsed, rebase, validateTime, firstStart, started0])
      (by norm_num [progress, elapsed, rebase, validateTime, firstStart, started0])).1 rfl,
   (tick_writes_eased_value
      { started0 7 0 10 1 1 false TF_LINEAR none with startTime := 3, lastTime := 3 } (7 / 2) 7
      rfl (by decide) (by norm_num [started0]) rfl).2 rfl rfl rfl rfl
      (by norm_num [elapsed, rebase, validateTime, firstStart, started0])⟩

/-- C4, counterexample: the animation from 0 to 10 over 1 s with one repeat and a
callback, first ticked at time 2, is ticked again at time 3, where the elapsed
time equals the duration: the tick writes 10 but the callback is not fired and
the repeat count is still 1. -/
theorem tick_at_duration_no_completion :
    elapsed (runTicks (started0 7 0 10 1 1 false TF_LINEAR (some 4)) [2]).1 3 = 1 ∧
    (runTicks (started0 7 0 10 1 1 false TF_LINEAR (some 4)) [2, 3]).2 =
      [Event.setValue 7 0, Event.setValue 7 10] ∧
    calls (runTicks (started0 7 0 10 1 1 false TF_LINEAR (some 4)) [2, 3]).2 = 0 ∧
    (runTicks (started0 7 0 10 1 1 false TF_LINEAR (some 4)) [2, 3]).1.count = 1 := by
  have h1 : update (started0 7 0 10 1 1 false TF_LINEAR (some 4)) 2 =
      ({ started0 7 0 10 1 1 false TF_LINEAR (some 4) with startTime := 2, lastTime := 2 },
        [Event.setValue 7 0]) := by
    rw [update_within _ _ rfl (by decide)
      (by norm_num [progress, elapsed, rebase, validateTime, firstStart, started0])]
    norm_num [writeAt, applyValue, timeToPosition, timeFunction, progress, elapsed, rebase,
      validateTime, firstStart, started0, FORWARD, BACKWARD, TF_LINEAR, TF_CUBIC_IN,
      TF_CUBIC_OUT, TF_CUBIC_IN_OUT]
  have h2 : update
      { started0 7 0 10 1 1 false TF_LINEAR (some 4) with startTime := 2, lastTime := 2 } 3 =
      ({ started0 7 0 10 1 1 false TF_LINEAR (some 4) with startTime := 2, lastTime := 3 },
        [Event.setValue 7 10]) := by
    rw [update_within _ _ rfl (by decide)
      (by norm_num [progress, elapsed, rebase, validateTime, firstStart, started0])]
    norm_num [writeAt, applyValue, timeToPosition, timeFunction, progress, elapsed, rebase,
      validateTime, firstStart, started0, FORWARD, BACKWARD, TF_LINEAR, TF_CUBIC_IN,
      TF_CUBIC_OUT, TF_CUBIC_IN_OUT]
  refine ⟨?_, ?_, ?_, ?_⟩
  · simp only [runTicks, run, step, List.map, h1]
    norm_num [elapsed, rebase, validateTime, firstStart, started0]
  · simp only [runTicks, run, step, List.map, h1, h2]
    rfl
  · simp only [runTicks, run, step, List.map, h1, h2]
    rfl
  · simp only [runTicks, run, step, List.map, h1, h2]
    rfl

/-- C5: on the tick that consumes the last repeat (progress > 1 with the count
at 1) of a bound animation, the only value written is exactly `end`, whatever
the easing kind and the direction; the callback is invoked exactly when one is
set; the property is released once and the animation is left detached from it,
without callback and with count 0. -/
theorem last_repeat_tick (a : Anim) (now : ℚ) (p : Nat)
    (hs : a.started = true) (hc : a.count = 1) (ht : progress a now > 1)
    (hp : a.prop = some p) (hdes : a.destroyed = false) :
    (update a now).2 =
      [Event.setValue p a.end_] ++
      (match a.then_ with | some cb => [Event.callThen cb] | none => []) ++
      (match a.eventHandler with | some g => [Event.removeAnimationAsync g] | none => []) ++
      [Event.release p] ++
      (match a.then_ with | some cb => [Event.deleteThen cb] | none => []) ∧
    writes (update a now).2 = [a.end_] ∧
    calls (update a now).2 = (if a.then_ = none then 0 else 1) ∧
    releases (update a now).2 = 1 ∧
    (update a now).1.prop = none ∧ (update a now).1.then_ = none ∧
    (update a now).1.count = 0 := by
  have hu := update_last a now hs hc ht
  rw [endAnimation_bound _ p (by simpa using hp) (by simpa using hdes)] at hu
  rw [hu]
  refine ⟨by simp, ?_, ?_, ?_, rfl, rfl, rfl⟩
  · cases hthen : a.then_ <;> cases he : a.eventHandler <;> simp [hthen, he, writes]
  · cases hthen : a.then_ <;> cases he : a.eventHandler <;> simp [hthen, he, calls]
  · cases hthen : a.then_ <;> cases he : a.eventHandler <;> simp [hthen, he, releases]

/-- Witness for C5: a cubic-in-out animation from 0 to 10 that runs backward with
one repeat left, first ticked at time 2, writes exactly 10 at time 4. -/
theorem last_repeat_tick_witness :
    writes (update { started0 7 0 10 1 1 true TF_CUBIC_IN_OUT (some 4) with
      startTime := 2, lastTime := 2, direction := BACKWARD } 4).2 = [10] :=
  (last_repeat_tick
    { started0 7 0 10 1 1 true TF_CUBIC_IN_OUT (some 4) with
      startTime := 2, lastTime := 2, direction := BACKWARD } 4 7 rfl rfl
    (by norm_num [progress, elapsed, rebase, validateTime, firstStart, started0])
    rfl rfl).2.1

section terminal

variable (a : Anim) (now : ℚ)

theorem calls_append (xs ys : List Event) : calls (xs ++ ys) = calls xs + calls ys := by
  induction xs with
  | nil => simp [calls]
  | cons x xs ih => cases x <;> simp [calls, ih, add_right_comm]

theorem writes_append (xs ys : List Event) : writes (xs ++ ys) = writes xs ++ writes ys := by
  induction xs with
  | nil => simp [writes]
  | cons x xs ih => cases x <;> simp [writes, ih]

theorem calls_applyValue (v : ℚ) : calls (applyValue a v) = 0 := by
  unfold applyValue
  cases a.prop <;> simp [calls]

theorem destroy_state : (destroy a).1 = { a with prop := none, then_ := none } := by
  obtain ⟨prop, started, start, end_, count, duration, autoreverse, direction, timeFunc,
    then_, startTime, lastTime, pauseTime, destroyed, eventHandler⟩ := a
  cases prop <;> cases then_ <;> simp [destroy]

theorem destroy_events : calls (destroy a).2 = 0 ∧ writes (destroy a).2 = [] := by
  obtain ⟨prop, started, start, end_, count, duration, autoreverse, direction, timeFunc,
    then_, startTime, lastTime, pauseTime, destroyed, eventHandler⟩ := a
  cases prop <;> cases then_ <;> simp [destroy, calls, writes]

theorem stop_events : calls (stop a).2 = 0 ∧ writes (stop a).2 = [] := by
  unfold stop
  split_ifs
  · simp [calls, writes]
  · have h := destroy_events a
    cases a.eventHandler <;> simp [calls_append, writes_append, calls, writes, h.1, h.2]

theorem stop_state :
    (stop a).1 = if a.destroyed then a else { a with prop := none, then_ := none } := by
  unfold stop
  split_ifs
  · rfl
  · exact destroy_state a

theorem update_not_started (hs : a.started = false) : update a now = (a, []) := by
  unfold update
  simp [hs]

/-- The three shapes a tick can take: inert, a plain write on a state that keeps
the binding, or the end of the animation with the count at 0. -/
theorem update_cases :
    (update a now = (a, []) ∧ (a.started = false ∨ a.count = 0)) ∨
    (∃ (b : Anim) (t : ℚ), update a now = writeAt b t ∧ b.prop = a.prop ∧
      b.then_ = a.then_ ∧ b.destroyed = a.destroyed ∧ b.count ≠ 0 ∧ a.count ≠ 0) ∨
    (∃ b : Anim, update a now = endAnimation b ∧ b.prop = a.prop ∧
      b.then_ = a.then_ ∧ b.destroyed = a.destroyed ∧ b.count = 0 ∧ a.count = 1) := by
  by_cases hs : a.started = true
  swap
  · exact Or.inl ⟨update_not_started a now (by simpa using hs), Or.inl (by simpa using hs)⟩
  by_cases hc : a.count = 0
  · exact Or.inl ⟨update_count_zero a now hc, Or.inr hc⟩
  by_cases ht : progress a now > 1
  swap
  · exact Or.inr (Or.inl ⟨_, _, update_within a now hs hc ht, by simp, by simp, by simp,
      by simpa using hc, hc⟩)
  by_cases h1 : a.count = 1
  · exact Or.inr (Or.inr ⟨_, update_last a now hs h1 ht, by simp, by simp, by simp, rfl, h1⟩)
  by_cases hgt : 1 < a.count
  · refine Or.inr (Or.inl ⟨_, _, update_repeat a now hs hgt ht, by simp, by simp, by simp,
      ?_, hc⟩)
    simp only [toggle_count]
    omega
  by_cases hf : a.count = FOREVER
  · exact Or.inr (Or.inl ⟨_, _, update_forever a now hs hf ht, by simp, by simp, by simp,
      by simpa using hc, hc⟩)
  · have hneg : a.count < 0 := by omega
    exact Or.inr (Or.inl ⟨_, _, update_clamp a now hs hneg hf ht, by simp, by simp, by simp,
      by simpa using hc, hc⟩)

theorem update_destroyed : (update a now).1.destroyed = a.destroyed := by
  rcases update_cases a now with ⟨h, _⟩ | ⟨b, t, h, _, _, hd, _, _⟩ | ⟨b, h, _, _, hd, _, _⟩
  · rw [h]
  · rw [h]; simpa [writeAt] using hd
  · rw [h]
    simp only [endAnimation, stop_state]
    split_ifs <;> simpa using hd

/-- A tick invokes the callback at most once, and when it does the animation is
left with count 0. -/
theorem update_calls :
    calls (update a now).2 = 0 ∨
    (calls (update a now).2 = 1 ∧ (update a now).1.count = 0) := by
  rcases update_cases a now with ⟨h, _⟩ | ⟨b, t, h, _, _, _, _, _⟩ | ⟨b, h, _, _, _, hc, _⟩
  · left; rw [h]; rfl
  · left; rw [h]; simp [writeAt, calls_applyValue]
  · rw [h]
    have hcount : (endAnimation b).1.count = 0 := by
      simp only [endAnimation, stop_state]
      split_ifs <;> simpa using hc
    cases hthen : b.then_ with
    | none =>
      left
      simp [endAnimation, calls_append, calls_applyValue, (stop_events b).1, hthen, calls]
    | some cb =>
      right
      refine ⟨?_, hcount⟩
      simp [endAnimation, calls_append, calls_applyValue, (stop_events b).1, hthen, calls]

theorem writes_applyValue_detached (v : ℚ) (h : a.prop = none) : applyValue a v = [] := by
  simp [applyValue, h]

/-- Without a callback a tick invokes none and sets none. -/
theorem update_then_none (h : a.then_ = none) :
    (update a now).1.then_ = none ∧ calls (update a now).2 = 0 := by
  rcases update_cases a now with ⟨hu, _⟩ | ⟨b, t, hu, _, ht, _, _, _⟩ | ⟨b, hu, _, ht, _, _, _⟩
  · rw [hu]; exact ⟨h, rfl⟩
  · rw [hu]; exact ⟨by simpa [writeAt, h] using ht, by simp [writeAt, calls_applyValue]⟩
  · rw [hu]
    have hb : b.then_ = none := by rw [ht, h]
    refine ⟨?_, ?_⟩
    · simp only [endAnimation, stop_state]
      split_ifs <;> simp [hb]
    · simp [endAnimation, calls_append, calls_applyValue, (stop_events b).1, hb, calls]

/-- Without a property a tick writes nothing and binds none. -/
theorem update_prop_none (h : a.prop = none) :
    (update a now).1.prop = none ∧ writes (update a now).2 = [] := by
  rcases update_cases a now with ⟨hu, _⟩ | ⟨b, t, hu, hp, _, _, _, _⟩ | ⟨b, hu, hp, _, _, _, _⟩
  · rw [hu]; exact ⟨h, rfl⟩
  · have hb : b.prop = none := by rw [hp, h]
    rw [hu]
    exact ⟨by simpa [writeAt] using hb, by simp [writeAt, applyValue, hb, writes]⟩
  · have hb : b.prop = none := by rw [hp, h]
    rw [hu]
    refine ⟨?_, ?_⟩
    · simp only [endAnimation, stop_state]
      split_ifs <;> simp [hb]
    · cases hthen : b.then_ <;>
        simp [endAnimation, writes_append, applyValue, hb, (stop_events b).2, hthen, writes]

/-- A tick that takes the repeat count from non-zero to 0 leaves an animation that
is not destroyed without property and without callback. -/
theorem update_completes (hdes : a.destroyed = false) (hc : a.count ≠ 0)
    (hz : (update a now).1.count = 0) :
    (update a now).1.prop = none ∧ (update a now).1.then_ = none := by
  rcases update_cases a now with ⟨hu, _⟩ | ⟨b, t, hu, _, _, _, hb, _⟩ | ⟨b, hu, _, _, hd, _, _⟩
  · rw [hu] at hz; exact absurd hz hc
  · rw [hu] at hz; exact absurd (by simpa [writeAt] using hz) hb
  · have hbd : b.destroyed = false := by rw [hd, hdes]
    rw [hu]
    simp [endAnimation, stop_state, hbd]

/-- A tick ends the animation exactly when it takes the branch of `update` that
calls `endAnimation`: started, one repeat left, progress above 1. -/
theorem ends_tick_iff :
    ends a (Action.tick now) = true ↔
      (a.started = true ∧ a.count = 1 ∧ progress a now > 1) := by
  simp only [ends, decide_eq_true_eq]
  constructor
  · rintro ⟨hne, hz⟩
    rcases update_cases a now with ⟨hu, _⟩ | ⟨b, t, hu, _, _, _, hb, _⟩ | ⟨b, hu, _, _, _, _, h1⟩
    · rw [hu] at hz; exact absurd hz hne
    · rw [hu] at hz; exact absurd (by simpa [writeAt] using hz) hb
    · have hs : a.started = true := by
        by_contra hs
        rw [update_not_started a now (by simpa using hs)] at hz
        exact hne hz
      refine ⟨hs, h1, ?_⟩
      by_contra ht
      rw [update_within a now hs hne ht] at hz
      exact hne (by simpa [writeAt] using hz)
  · rintro ⟨hs, h1, ht⟩
    refine ⟨by rw [h1]; decide, ?_⟩
    rw [update_last a now hs h1 ht]
    simp only [endAnimation, stop_state]
    split_ifs <;> rfl

theorem step_destroyed (act : Action) : (step a act).1.destroyed = a.destroyed := by
  cases act with
  | tick t => exact update_destroyed a t
  | stop =>
    simp only [step, stop_state]
    split_ifs <;> rfl

theorem run_destroyed (acts : List Action) : (run a acts).1.destroyed = a.destroyed := by
  induction acts generalizing a with
  | nil => rfl
  | cons act rest ih =>
    simp only [run]
    rw [ih, step_destroyed]

theorem run_append (xs ys : List Action) :
    run a (xs ++ ys) = ((run (run a xs).1 ys).1, (run a xs).2 ++ (run (run a xs).1 ys).2) := by
  induction xs generalizing a with
  | nil => simp [run]
  | cons x xs ih => simp [run, ih]

/-- Once the count is 0 or the callback is gone, no call invokes the callback. -/
theorem run_spent (acts : List Action) (h : a.count = 0 ∨ a.then_ = none) :
    calls (run a acts).2 = 0 := by
  induction acts generalizing a with
  | nil => rfl
  | cons act rest ih =>
    simp only [run, calls_append]
    cases act with
    | tick t =>
      simp only [step]
      rcases h with h | h
      · rw [update_count_zero a t h]
        simpa [calls] using ih a (Or.inl h)
      · have hu := update_then_none a t h
        rw [hu.2, ih _ (Or.inr hu.1)]
    | stop =>
      simp only [step]
      rw [(stop_events a).1, ih]
      rw [stop_state]
      split_ifs
      · exact h
      · rcases h with h | h
        · exact Or.inl h
        · exact Or.inr rfl

/-- Once property and callback are gone, no call writes or invokes anything. -/
theorem run_detached (acts : List Action) (hp : a.prop = none) (ht : a.then_ = none) :
    writes (run a acts).2 = [] ∧ calls (run a acts).2 = 0 := by
  refine ⟨?_, run_spent a acts (Or.inr ht)⟩
  induction acts generalizing a with
  | nil => rfl
  | cons act rest ih =>
    simp only [run, writes_append]
    cases act with
    | tick t =>
      simp only [step]
      rw [(update_prop_none a t hp).2, ih _ (update_prop_none a t hp).1 (update_then_none a t ht).1]
      rfl
    | stop =>
      simp only [step]
      rw [(stop_events a).2, ih]
      · rfl
      · rw [stop_state]; split_ifs <;> simp [hp]
      · rw [stop_state]; split_ifs <;> simp [ht]

end terminal

/-- C6: over every sequence of ticks and stop calls on an animation the completion
callback is invoked at most once; and once the animation has completed (a tick
took its repeat count to 0) or has been stopped, no later call writes the
property or invokes the callback. -/
theorem completed_is_terminal (a : Anim) (hdes : a.destroyed = false)
    (acts : List Action) :
    calls (run a acts).2 ≤ 1 ∧
    ∀ (pre : List Action) (act : Action) (post : List Action),
      acts = pre ++ act :: post → ends (run a pre).1 act = true →
      writes (run (step (run a pre).1 act).1 post).2 = [] ∧
      calls (run (step (run a pre).1 act).1 post).2 = 0 := by
  constructor
  · clear hdes
    induction acts generalizing a with
    | nil => simp [run, calls]
    | cons act rest ih =>
      simp only [run, calls_append]
      cases act with
      | tick t =>
        simp only [step]
        rcases update_calls a t with h | ⟨h, hz⟩
        · rw [h]; simpa using ih (update a t).1
        · rw [h, run_spent _ rest (Or.inl hz)]
      | stop =>
        simp only [step]
        rw [(stop_events a).1]
        simpa using ih (stop a).1
  · intro pre act post _ hend
    have hd : (run a pre).1.destroyed = false := by rw [run_destroyed, hdes]
    cases act with
    | tick t =>
      simp only [ends, decide_eq_true_eq] at hend
      have h := update_completes _ t hd hend.1 hend.2
      exact run_detached _ post h.1 h.2
    | stop =>
      simp only [step]
      apply run_detached
      · rw [stop_state]; simp [hd]
      · rw [stop_state]; simp [hd]

/-- Witness for C6: the one-repeat animation from 0 to 10, ticked at 2 and at 4
(which completes it), then ticked, stopped and ticked again. -/
theorem completed_is_terminal_witness :
    calls (run (started0 7 0 10 1 1 false TF_LINEAR (some 4))
      [Action.tick 2, Action.tick 4, Action.tick 5, Action.stop, Action.tick 6]).2 ≤ 1 ∧
    (writes (run (step (run (started0 7 0 10 1 1 false TF_LINEAR (some 4))
        [Action.tick 2]).1 (Action.tick 4)).1
        [Action.tick 5, Action.stop, Action.tick 6]).2 = [] ∧
      calls (run (step (run (started0 7 0 10 1 1 false TF_LINEAR (some 4))
        [Action.tick 2]).1 (Action.tick 4)).1
        [Action.tick 5, Action.stop, Action.tick 6]).2 = 0) :=
  ⟨(completed_is_terminal (started0 7 0 10 1 1 false TF_LINEAR (some 4)) rfl
      [Action.tick 2, Action.tick 4, Action.tick 5, Action.stop, Action.tick 6]).1,
   (completed_is_terminal (started0 7 0 10 1 1 false TF_LINEAR (some 4)) rfl
      [Action.tick 2, Action.tick 4, Action.tick 5, Action.stop, Action.tick 6]).2
      [Action.tick 2] (Action.tick 4) [Action.tick 5, Action.stop, Action.tick 6] rfl
      (by norm_num [ends, run, step, update, progress, elapsed, rebase, validateTime,
        firstStart, started0, writeAt, endAnimation, stop, destroy, applyValue])⟩

section cycles

variable (a : Anim) (now : ℚ)

theorem releases_applyValue (v : ℚ) : releases (applyValue a v) = 0 := by
  unfold applyValue
  cases a.prop <;> simp [releases]

/-- With duration > 0 the progress exceeds 1 exactly when the elapsed time
exceeds the duration. -/
theorem progress_gt_one_iff (hd : 0 < a.duration) :
    progress a now > 1 ↔ a.duration < elapsed a now := by
  unfold progress
  rw [rebase_duration, gt_iff_lt, lt_div_iff₀ hd, one_mul]

/-- What a tick does to a started animation that repeats forever. -/
theorem update_forever_frame (hs : a.started = true) (hc : a.count = FOREVER) :
    (update a now).1.count = FOREVER ∧ (update a now).1.started = true ∧
    (update a now).1.autoreverse = a.autoreverse ∧
    (update a now).1.duration = a.duration ∧ (update a now).1.prop = a.prop ∧
    (update a now).1.then_ = a.then_ ∧ (update a now).1.start = a.start ∧
    (update a now).1.end_ = a.end_ ∧
    calls (update a now).2 = 0 ∧ releases (update a now).2 = 0 := by
  have hc0 : a.count ≠ 0 := by rw [hc]; decide
  by_cases ht : progress a now > 1
  · rw [update_forever a now hs hc ht]
    simp [writeAt, calls_applyValue, releases_applyValue, hc, hs]
  · rw [update_within a now hs hc0 ht]
    simp [writeAt, calls_applyValue, releases_applyValue, hc, hs]

theorem calls_runTicks_cons (t : ℚ) (ts : List ℚ) :
    calls (runTicks a (t :: ts)).2 = calls (update a t).2 + calls (runTicks (update a t).1 ts).2 := by
  rw [runTicks_cons, calls_append]

/-- No sequence of ticks changes or completes a started animation that repeats
forever. -/
theorem runTicks_forever_frame (times : List ℚ) (hs : a.started = true)
    (hc : a.count = FOREVER) :
    (runTicks a times).1.count = FOREVER ∧ (runTicks a times).1.started = true ∧
    (runTicks a times).1.autoreverse = a.autoreverse ∧
    (runTicks a times).1.duration = a.duration ∧ (runTicks a times).1.prop = a.prop ∧
    (runTicks a times).1.then_ = a.then_ ∧ (runTicks a times).1.start = a.start ∧
    (runTicks a times).1.end_ = a.end_ ∧
    calls (runTicks a times).2 = 0 := by
  induction times generalizing a with
  | nil => exact ⟨hc, hs, rfl, rfl, rfl, rfl, rfl, rfl, rfl⟩
  | cons t ts ih =>
    obtain ⟨h1, h2, h3, h4, h5, h6, h7, h8, h9, _⟩ := update_forever_frame a t hs hc
    obtain ⟨i1, i2, i3, i4, i5, i6, i7, i8, i9⟩ := ih (update a t).1 h2 h1
    rw [calls_runTicks_cons, h9, i9]
    rw [runTicks_cons]
    exact ⟨i1, i2, i3.trans h3, i4.trans h4, i5.trans h5, i6.trans h6, i7.trans h7,
      i8.trans h8, rfl⟩

end cycles

section counting

variable (a : Anim) (now : ℚ)

/-- What a tick does to the repeat count of a started animation with a positive
count. -/
theorem update_count_pos (hs : a.started = true) (hc : 1 ≤ a.count) :
    (update a now).1.count = (if progress a now > 1 then a.count - 1 else a.count) ∧
    (update a now).1.started = true := by
  have hc0 : a.count ≠ 0 := by omega
  by_cases ht : progress a now > 1
  · rw [if_pos ht]
    by_cases h1 : a.count = 1
    · rw [update_last a now hs h1 ht]
      simp only [endAnimation, stop_state]
      split_ifs <;> simp [h1, hs]
    · have hgt : 1 < a.count := by omega
      rw [update_repeat a now hs hgt ht]
      simp [writeAt, hs]
  · rw [if_neg ht, update_within a now hs hc0 ht]
    simp [writeAt, hs]

/-- The repeat count after a run of ticks is the initial count less the number
of ticks whose progress exceeded 1, but not below 0. -/
theorem runTicks_count (times : List ℚ) (hs : a.started = true) (hc : 0 ≤ a.count) :
    (runTicks a times).1.count = max (a.count - (overruns a times : Int)) 0 ∧
    (runTicks a times).1.started = true := by
  induction times generalizing a with
  | nil =>
    refine ⟨?_, hs⟩
    simp only [runTicks, run, List.map, overruns]
    rw [max_eq_left (by simpa using hc)]
    simp
  | cons t ts ih =>
    rw [runTicks_cons]
    by_cases h0 : a.count = 0
    · rw [update_count_zero a t h0, runTicks_count_zero a ts h0]
      refine ⟨?_, hs⟩
      rw [h0]
      simp only [zero_sub]
      rw [max_eq_right]
      exact neg_nonpos.mpr (Int.ofNat_nonneg _)
    · have h1 : 1 ≤ a.count := by omega
      obtain ⟨hcnt, hst⟩ := update_count_pos a t hs h1
      have hnn : 0 ≤ (update a t).1.count := by
        rw [hcnt]; split_ifs <;> omega
      obtain ⟨i1, i2⟩ := ih (update a t).1 hst hnn
      refine ⟨?_, i2⟩
      rw [i1, hcnt]
      simp only [overruns]
      by_cases ht : progress a t > 1
      · simp only [if_pos ht]
        push_cast
        congr 1
        ring
      · simp only [if_neg ht]
        push_cast
        congr 1
        ring

end counting

/-- C8: for a started animation with finite repeat count n ≥ 1, a tick decrements
the count by exactly one when its progress exceeds 1 and leaves it unchanged
otherwise; after any ticks the count is n less the number of ticks whose
progress exceeded 1 (never below 0); and a tick completes the animation exactly
when it is the n-th tick whose progress exceeds 1. -/
theorem finite_repeat_countdown (a : Anim) (hs : a.started = true) (hc : 1 ≤ a.count)
    (pre : List ℚ) (now : ℚ) :
    (update a now).1.count = (if progress a now > 1 then a.count - 1 else a.count) ∧
    (runTicks a pre).1.count = max (a.count - (overruns a pre : Int)) 0 ∧
    (ends (runTicks a pre).1 (Action.tick now) = true ↔
      ((overruns a pre : Int) + 1 = a.count ∧ progress (runTicks a pre).1 now > 1)) := by
  have hrun := runTicks_count a pre hs (by omega)
  refine ⟨(update_count_pos a now hs hc).1, hrun.1, ?_⟩
  simp only [ends, decide_eq_true_eq]
  by_cases hk : (overruns a pre : Int) < a.count
  · have hcount : (runTicks a pre).1.count = a.count - (overruns a pre : Int) := by
      rw [hrun.1]; exact max_eq_left (by omega)
    have hpos : 1 ≤ (runTicks a pre).1.count := by omega
    have hu := (update_count_pos (runTicks a pre).1 now hrun.2 hpos).1
    rw [hu]
    constructor
    · rintro ⟨_, hz⟩
      by_cases ht : progress (runTicks a pre).1 now > 1
      · rw [if_pos ht] at hz
        exact ⟨by omega, ht⟩
      · rw [if_neg ht] at hz
        omega
    · rintro ⟨hn, ht⟩
      rw [if_pos ht]
      exact ⟨by omega, by omega⟩
  · have hcount : (runTicks a pre).1.count = 0 := by
      rw [hrun.1]; exact max_eq_right (by omega)
    constructor
    · rintro ⟨hne, _⟩
      exact absurd hcount hne
    · rintro ⟨hn, _⟩
      omega

/-- Witness for C8: with two repeats, first ticked at time 2 and overrunning at
time 4, one repeat is left. -/
theorem finite_repeat_countdown_witness :
    (runTicks (started0 7 0 10 1 2 false TF_LINEAR none) [2, 4]).1.count =
      max ((started0 7 0 10 1 2 false TF_LINEAR none).count -
        (overruns (started0 7 0 10 1 2 false TF_LINEAR none) [2, 4] : Int)) 0 :=
  (finite_repeat_countdown (started0 7 0 10 1 2 false TF_LINEAR none) rfl (by decide)
    [2, 4] 6).2.1

/-- The direction after `toggle`. -/
theorem toggle_direction (a : Anim) :
    (toggle a).direction =
      if a.autoreverse = true then (if a.direction = FORWARD then BACKWARD else FORWARD)
      else a.direction := by
  unfold toggle
  split_ifs <;> rfl

/-- C9: on a tick whose progress exceeds 1 and after which repeats remain (count
above 1, or the forever sentinel) the cycle restarts: the start time becomes the
current time, so the progress of the new cycle at that time is 0; the direction
flips when autoreverse is set and is unchanged otherwise; and the tick writes
`end` when the resulting direction is backward and `start` otherwise. -/
theorem overrun_restarts_cycle (a : Anim) (now : ℚ) (p : Nat)
    (hs : a.started = true) (hc : 1 < a.count ∨ a.count = FOREVER)
    (ht : progress a now > 1) (hp : a.prop = some p) :
    (update a now).1.startTime = now ∧ elapsed (update a now).1 now = 0 ∧
    (update a now).1.count = (if a.count = FOREVER then FOREVER else a.count - 1) ∧
    (a.autoreverse = true → (update a now).1.direction =
      (if a.direction = FORWARD then BACKWARD else FORWARD)) ∧
    (a.autoreverse = false → (update a now).1.direction = a.direction) ∧
    ((update a now).1.direction = FORWARD →
      (update a now).2 = [Event.setValue p a.start]) ∧
    ((update a now).1.direction = BACKWARD →
      (update a now).2 = [Event.setValue p a.end_]) ∧
    ((update a now).1.direction ≠ BACKWARD →
      (update a now).2 = [Event.setValue p a.start]) := by
  have hfb : FORWARD ≠ BACKWARD := by decide
  have hshape : ∃ c : Anim, update a now = writeAt (toggle c) 0 ∧ c.startTime = now ∧
      c.prop = some p ∧ c.start = a.start ∧ c.end_ = a.end_ ∧
      c.autoreverse = a.autoreverse ∧ c.direction = a.direction ∧
      c.count = (if a.count = FOREVER then FOREVER else a.count - 1) := by
    rcases hc with hc | hc
    · have hnf : a.count ≠ FOREVER := by
        intro h; rw [h] at hc; exact absurd hc (by decide)
      exact ⟨_, update_repeat a now hs hc ht, rfl, by simpa using hp, by simp, by simp,
        by simp, by simp, by simp [hnf]⟩
    · exact ⟨_, update_forever a now hs hc ht, rfl, by simpa using hp, by simp, by simp,
        by simp, by simp, by simp [hc]⟩
  obtain ⟨c, hu, hct, hcp, hcs, hce, hca, hcd, hcc⟩ := hshape
  have hwrite : ∀ d : Anim, d.prop = some p →
      (writeAt d 0).2 =
        [Event.setValue p (if d.direction = BACKWARD then d.end_ else d.start)] := by
    intro d hdp
    by_cases hb : d.direction = BACKWARD
    · simp [writeAt, applyValue, hdp, hb, timeToPosition_one]
    · simp [writeAt, applyValue, hdp, hb, timeToPosition_zero]
  have hev := hwrite (toggle c) (by simpa using hcp)
  have hst : (writeAt (toggle c) 0).1 = toggle c := rfl
  rw [hu, hev, hst]
  simp only [toggle_startTime, toggle_count, toggle_end, toggle_start, hcc, hcs, hce, hct]
  refine ⟨trivial, ?_, trivial, ?_, ?_, ?_, ?_, ?_⟩
  · have h1 : (rebase (toggle c) now).startTime = now := by
      unfold rebase validateTime firstStart
      split_ifs <;> simp_all
    rw [elapsed, h1, sub_self]
  · intro har
    rw [toggle_direction, hca, har, hcd, if_pos rfl]
  · intro har
    rw [toggle_direction, hca, har, hcd]
    simp
  · intro hdir
    rw [if_neg (by rw [hdir]; exact hfb)]
  · intro hdir
    rw [if_pos hdir]
  · intro hdir
    rw [if_neg hdir]

/-- Witness for C9: with three repeats and autoreverse, first ticked at time 2, the
overrun at time 4 turns the animation backward and writes 10. -/
theorem overrun_restarts_cycle_witness :
    (update { started0 7 0 10 1 3 true TF_CUBIC_IN none with startTime := 2, lastTime := 2 }
      4).2 = [Event.setValue 7 10] :=
  (overrun_restarts_cycle
    { started0 7 0 10 1 3 true TF_CUBIC_IN none with startTime := 2, lastTime := 2 } 4 7
    rfl (Or.inl (by decide))
    (by norm_num [progress, elapsed, rebase, validateTime, firstStart, started0])
    rfl).2.2.2.2.2.2.1
    (by norm_num [update, progress, elapsed, rebase, validateTime, firstStart, started0,
      writeAt, toggle, FORWARD, BACKWARD])

section clock

variable (a : Anim) (now : ℚ)

/-- With `startTime ≤ lastTime` the start time a tick uses is not after the tick. -/
theorem rebase_startTime_le (hinv : a.startTime ≤ a.lastTime) :
    (rebase a now).startTime ≤ now := by
  unfold rebase validateTime firstStart
  split_ifs with h0 h1 h1
  · simp at h1
  · simp
  · simp only [sub_le_self_iff, sub_nonneg]
    exact hinv
  · exact not_lt.mp h1

/-- The times a tick leaves behind: either nothing changed, or the last time is
the current time and the start time is the re-based one or the current time. -/
theorem update_times :
    ((update a now).1.startTime = a.startTime ∧ (update a now).1.lastTime = a.lastTime) ∨
    ((update a now).1.lastTime = now ∧
      ((update a now).1.startTime = (rebase a now).startTime ∨
        (update a now).1.startTime = now)) := by
  by_cases hs : a.started = true
  swap
  · left; rw [update_not_started a now (by simpa using hs)]; exact ⟨rfl, rfl⟩
  by_cases hc : a.count = 0
  · left; rw [update_count_zero a now hc]; exact ⟨rfl, rfl⟩
  right
  by_cases ht : progress a now > 1
  swap
  · rw [update_within a now hs hc ht]; exact ⟨rfl, Or.inl rfl⟩
  by_cases h1 : a.count = 1
  · rw [update_last a now hs h1 ht]
    simp only [endAnimation, stop_state]
    split_ifs
    · exact ⟨rfl, Or.inl rfl⟩
    · exact ⟨rfl, Or.inl rfl⟩
  by_cases hgt : 1 < a.count
  · rw [update_repeat a now hs hgt ht]
    simp [writeAt]
  by_cases hf : a.count = FOREVER
  · rw [update_forever a now hs hf ht]
    simp [writeAt]
  · rw [update_clamp a now hs (by omega) hf ht]
    exact ⟨rfl, Or.inl rfl⟩

/-- A tick preserves `startTime ≤ lastTime`. -/
theorem update_times_inv (hinv : a.startTime ≤ a.lastTime) :
    (update a now).1.startTime ≤ (update a now).1.lastTime := by
  rcases update_times a now with ⟨h1, h2⟩ | ⟨h1, h2 | h2⟩
  · rw [h1, h2]; exact hinv
  · rw [h1, h2]; exact rebase_startTime_le a now hinv
  · rw [h1, h2]

/-- Every run of ticks preserves `startTime ≤ lastTime`. -/
theorem runTicks_times_inv (times : List ℚ) (hinv : a.startTime ≤ a.lastTime) :
    (runTicks a times).1.startTime ≤ (runTicks a times).1.lastTime := by
  induction times generalizing a with
  | nil => exact hinv
  | cons t ts ih =>
    rw [runTicks_cons]
    exact ih _ (update_times_inv a t hinv)

end clock

/-- C10: for an animation whose start time is not after its last-seen time (as
for every newly started animation, where both are 0) and every sequence of tick
times, also times that move backward, the elapsed value `currentTime -
startTime` used to compute the progress of the next tick is never negative;
when the current time is before the start time, the start time is first
re-based to `currentTime - (lastTime - startTime)`, so that the elapsed value
is the previous `lastTime - startTime`. -/
theorem elapsed_never_negative (a : Anim) (hinv : a.startTime ≤ a.lastTime)
    (pre : List ℚ) (now : ℚ) :
    0 ≤ elapsed (runTicks a pre).1 now ∧
    (0 < (runTicks a pre).1.duration → 0 ≤ progress (runTicks a pre).1 now) ∧
    (now < (firstStart (runTicks a pre).1 now).startTime →
      (rebase (runTicks a pre).1 now).startTime =
        now - ((runTicks a pre).1.lastTime - (runTicks a pre).1.startTime) ∧
      elapsed (runTicks a pre).1 now =
        (runTicks a pre).1.lastTime - (runTicks a pre).1.startTime) := by
  have hb := runTicks_times_inv a pre hinv
  generalize (runTicks a pre).1 = b at hb
  have h0 : 0 ≤ elapsed b now := sub_nonneg.mpr (rebase_startTime_le b now hb)
  refine ⟨h0, ?_, ?_⟩
  · intro hd
    unfold progress
    rw [rebase_duration]
    exact div_nonneg h0 (le_of_lt hd)
  · intro hlt
    unfold elapsed rebase validateTime
    rw [if_pos hlt]
    unfold firstStart at hlt ⊢
    split_ifs at hlt ⊢ with hz
    · simp at hlt
    · simp

/-- Witness for C10: a newly started animation of duration 4 ticked at times 5
and 7 and then at the earlier time 3.  After the ticks at 5 and 7 it is still
running (started, one repeat left, start time 5, last time 7); on the tick at 3
the start time is re-based to 3 - (7 - 5) = 1, the elapsed value is the previous
7 - 5 = 2, and the tick writes the value at progress 2 / 4. -/
theorem elapsed_never_negative_witness :
    (runTicks (started0 7 0 10 4 1 false TF_LINEAR none) [5, 7]).1.started = true ∧
    (runTicks (started0 7 0 10 4 1 false TF_LINEAR none) [5, 7]).1.count = 1 ∧
    (runTicks (started0 7 0 10 4 1 false TF_LINEAR none) [5, 7]).1.startTime = 5 ∧
    (runTicks (started0 7 0 10 4 1 false TF_LINEAR none) [5, 7]).1.lastTime = 7 ∧
    0 ≤ elapsed (runTicks (started0 7 0 10 4 1 false TF_LINEAR none) [5, 7]).1 3 ∧
    (rebase (runTicks (started0 7 0 10 4 1 false TF_LINEAR none) [5, 7]).1 3).startTime = 1 ∧
    elapsed (runTicks (started0 7 0 10 4 1 false TF_LINEAR none) [5, 7]).1 3 = 2 ∧
    elapsed (runTicks (started0 7 0 10 4 1 false TF_LINEAR none) [5, 7]).1 3 =
      (runTicks (started0 7 0 10 4 1 false TF_LINEAR none) [5, 7]).1.lastTime -
      (runTicks (started0 7 0 10 4 1 false TF_LINEAR none) [5, 7]).1.startTime ∧
    (update (runTicks (started0 7 0 10 4 1 false TF_LINEAR none) [5, 7]).1 3).2 =
      [Event.setValue 7 5] :=
  ⟨by norm_num [runTicks, run, step, update, progress, elapsed, rebase, validateTime,
        firstStart, started0, writeAt, applyValue],
   by norm_num [runTicks, run, step, update, progress, elapsed, rebase, validateTime,
        firstStart, started0, writeAt, applyValue],
   by norm_num [runTicks, run, step, update, progress, elapsed, rebase, validateTime,
        firstStart, started0, writeAt, applyValue],
   by norm_num [runTicks, run, step, update, progress, elapsed, rebase, validateTime,
        firstStart, started0, writeAt, applyValue],
   (elapsed_never_negative (started0 7 0 10 4 1 false TF_LINEAR none) (le_refl 0) [5, 7] 3).1,
   by norm_num [runTicks, run, step, update, progress, elapsed, rebase, validateTime,
        firstStart, started0, writeAt, applyValue],
   by norm_num [runTicks, run, step, update, progress, elapsed, rebase, validateTime,
        firstStart, started0, writeAt, applyValue],
   ((elapsed_never_negative (started0 7 0 10 4 1 false TF_LINEAR none) (le_refl 0) [5, 7] 3).2.2
      (by norm_num [runTicks, run, step, update, progress, elapsed, rebase, validateTime,
        firstStart, started0, writeAt, applyValue])).2,
   by norm_num [runTicks, run, step, update, progress, elapsed, rebase, validateTime,
        firstStart, started0, writeAt, applyValue, timeToPosition, timeFunction, TF_LINEAR,
        BACKWARD, FORWARD, TF_CUBIC_IN, TF_CUBIC_OUT, TF_CUBIC_IN_OUT]⟩

/-! ## Inert, rejected and failed requests -/

/-- C11: a tick on an animation whose repeat count is 0 returns before anything
else happens: the object (start and last time, direction, count and all other
fields) is unchanged and there is no effect at all, so the property keeps its
value and the callback is not invoked; the same holds for every sequence of
ticks. -/
theorem zero_count_inert (a : Anim) (hc : a.count = 0) (now : ℚ) (times : List ℚ) :
    update a now = (a, []) ∧ runTicks a times = (a, []) ∧
    writes (runTicks a times).2 = [] ∧ calls (runTicks a times).2 = 0 :=
  ⟨update_count_zero a now hc, runTicks_count_zero a times hc,
    by rw [runTicks_count_zero a times hc]; rfl,
    by rw [runTicks_count_zero a times hc]; rfl⟩

/-- Witness for C11: the started animation from 0 to 10 with repeat count 0. -/
theorem zero_count_inert_witness :
    update (started0 7 0 10 1 0 false TF_LINEAR (some 4)) 5 =
      (started0 7 0 10 1 0 false TF_LINEAR (some 4), []) :=
  (zero_count_inert (started0 7 0 10 1 0 false TF_LINEAR (some 4)) rfl 5 [5, 6]).1

/-- C12: `handleStart` on an animation that is already started throws "already
started" and returns the object unchanged; in particular a second start after a
first one keeps from, to, duration, count, autoreverse, easing kind and callback
of the first. -/
theorem restart_rejected (a : Anim) (hs : a.started = true) (data : StartData) :
    handleStart a data = (a, [Effect.throwTypeError "already started"]) ∧
    (∀ (fresh : Anim) (first : StartData), fresh.started = false →
      handleStart (handleStart fresh first).1 data =
        ((handleStart fresh first).1, [Effect.throwTypeError "already started"]) ∧
      (handleStart fresh first).1.start = first.fromValue ∧
      (handleStart fresh first).1.end_ = first.toValue ∧
      (handleStart fresh first).1.duration = first.duration ∧
      (handleStart fresh first).1.count = first.count ∧
      (handleStart fresh first).1.autoreverse = first.autoreverse) := by
  have key : ∀ b : Anim, b.started = true →
      handleStart b data = (b, [Effect.throwTypeError "already started"]) := by
    intro b hb
    simp [handleStart, hb]
  refine ⟨key a hs, fun fresh first hf => ?_⟩
  · have h1 : (handleStart fresh first).1.started = true := by simp [handleStart, hf]
    refine ⟨key _ h1, ?_, ?_, ?_, ?_, ?_⟩ <;> simp [handleStart, hf]

/-- Witness for C12: the started animation from 0 to 10 is started again with
other values. -/
theorem restart_rejected_witness :
    handleStart (started0 7 0 10 1 1 false TF_LINEAR (some 4))
      { fromValue := 3, toValue := 4, duration := 2, count := 5, autoreverse := true,
        timeFunc := "cubicIn", then_ := some 9 } =
      (started0 7 0 10 1 1 false TF_LINEAR (some 4),
        [Effect.throwTypeError "already started"]) :=
  (restart_rejected (started0 7 0 10 1 1 false TF_LINEAR (some 4)) rfl
    { fromValue := 3, toValue := 4, duration := 2, count := 5, autoreverse := true,
      timeFunc := "cubicIn", then_ := some 9 }).1

section creation

variable (a : Anim) (obj : Nat) (node : AminoNode) (propId : Nat)

/-- Creation on a node of another renderer throws "invalid renderer" and does
nothing else. -/
theorem preInit_wrong_renderer (hr : node.eventHandler ≠ some obj) :
    preInit a obj node propId = (a, [Effect.throwTypeError "invalid renderer"]) := by
  simp [preInit, AminoNode.checkRenderer, hr]

/-- Creation on a node of this renderer without a property of that identifier
throws "property cannot be animated" and does nothing else. -/
theorem preInit_missing (hr : node.eventHandler = some obj)
    (hg : node.getPropertyWithId propId = none) :
    preInit a obj node propId =
      (a, [Effect.throwTypeError "property cannot be animated"]) := by
  simp [preInit, AminoNode.checkRenderer, hr, hg]

/-- Creation on a property that is not float throws "property cannot be animated"
and does nothing else. -/
theorem preInit_not_float (prop : AnyProperty) (hr : node.eventHandler = some obj)
    (hg : node.getPropertyWithId propId = some prop) (hf : prop.type ≠ PropertyType.float) :
    preInit a obj node propId =
      (a, [Effect.throwTypeError "property cannot be animated"]) := by
  simp [preInit, AminoNode.checkRenderer, hr, hg, hf]

/-- Creation on a float property of a node of this renderer binds the animation,
retains the property and enqueues the animation. -/
theorem preInit_success (prop : AnyProperty) (hr : node.eventHandler = some obj)
    (hg : node.getPropertyWithId propId = some prop) (hf : prop.type = PropertyType.float) :
    preInit a obj node propId =
      ({ a with eventHandler := some obj, prop := some prop.handle },
        [Effect.retain prop.handle, Effect.addAnimationAsync obj]) := by
  simp [preInit, AminoNode.checkRenderer, hr, hg, hf]

end creation

/-- C13, counterexample: creation with property identifier 3 on a node that has no
property and belongs to renderer 1, asked of renderer 2, fails with "invalid
renderer", not with "property cannot be animated". -/
theorem preInit_missing_property_other_error :
    AminoNode.getPropertyWithId
      (newNode 5 RECT (some 1) []) 3 = none ∧
    errors (preInit (started0 7 0 10 1 1 false TF_LINEAR none) 2
      (newNode 5 RECT (some 1) []) 3).2 = ["invalid renderer"] := by
  constructor
  · rfl
  · rw [preInit_wrong_renderer _ _ _ _ (by decide)]
    rfl

/-- C13, amended: when the node belongs to the renderer, creation on a property
identifier that the node does not have, or on a property that is not float,
throws "property cannot be animated"; when the node belongs to another renderer
it throws "invalid renderer" whatever the property.  In every failure the object
is unchanged (not bound to a property or renderer) and the error is the only
effect: nothing is retained or enqueued.  Creation succeeds, retaining the
property once and enqueuing the animation once, exactly when the node belongs
to the renderer and the property exists and is float. -/
theorem creation_type_check (a : Anim) (obj : Nat) (node : AminoNode) (propId : Nat) :
    (node.eventHandler = some obj →
      (node.getPropertyWithId propId = none ∨
        ∃ prop, node.getPropertyWithId propId = some prop ∧ prop.type ≠ PropertyType.float) →
      preInit a obj node propId =
        (a, [Effect.throwTypeError "property cannot be animated"])) ∧
    (node.eventHandler ≠ some obj →
      preInit a obj node propId = (a, [Effect.throwTypeError "invalid renderer"])) ∧
    (errors (preInit a obj node propId).2 ≠ [] →
      (preInit a obj node propId).1 = a ∧ retains (preInit a obj node propId).2 = 0 ∧
      ∀ e ∈ (preInit a obj node propId).2, ∃ msg, e = Effect.throwTypeError msg) ∧
    (errors (preInit a obj node propId).2 = [] ↔
      (node.eventHandler = some obj ∧
        ∃ prop, node.getPropertyWithId propId = some prop ∧ prop.type = PropertyType.float)) ∧
    (∀ prop, node.eventHandler = some obj → node.getPropertyWithId propId = some prop →
      prop.type = PropertyType.float →
      preInit a obj node propId =
        ({ a with eventHandler := some obj, prop := some prop.handle },
          [Effect.retain prop.handle, Effect.addAnimationAsync obj])) := by
  have hcases : (node.eventHandler ≠ some obj ∧
        preInit a obj node propId = (a, [Effect.throwTypeError "invalid renderer"])) ∨
      (node.eventHandler = some obj ∧
        (node.getPropertyWithId propId = none ∨
          ∃ prop, node.getPropertyWithId propId = some prop ∧ prop.type ≠ PropertyType.float) ∧
        preInit a obj node propId =
          (a, [Effect.throwTypeError "property cannot be animated"])) ∨
      (∃ prop, node.eventHandler = some obj ∧ node.getPropertyWithId propId = some prop ∧
        prop.type = PropertyType.float ∧
        preInit a obj node propId =
          ({ a with eventHandler := some obj, prop := some prop.handle },
            [Effect.retain prop.handle, Effect.addAnimationAsync obj])) := by
    by_cases hr : node.eventHandler = some obj
    · cases hg : node.getPropertyWithId propId with
      | none => exact Or.inr (Or.inl ⟨hr, Or.inl rfl, preInit_missing a obj node propId hr hg⟩)
      | some prop =>
        by_cases hf : prop.type = PropertyType.float
        · exact Or.inr (Or.inr ⟨prop, hr, rfl, hf, preInit_success a obj node propId prop hr hg hf⟩)
        · exact Or.inr (Or.inl ⟨hr, Or.inr ⟨prop, rfl, hf⟩,
            preInit_not_float a obj node propId prop hr hg hf⟩)
    · exact Or.inl ⟨hr, preInit_wrong_renderer a obj node propId hr⟩
  refine ⟨?_, fun hr => preInit_wrong_renderer a obj node propId hr, ?_, ?_, ?_⟩
  · rintro hr (hg | ⟨prop, hg, hf⟩)
    · exact preInit_missing a obj node propId hr hg
    · exact preInit_not_float a obj node propId prop hr hg hf
  · intro herr
    rcases hcases with ⟨_, h⟩ | ⟨_, _, h⟩ | ⟨prop, _, _, _, h⟩
    · rw [h]; exact ⟨rfl, rfl, by simp⟩
    · rw [h]; exact ⟨rfl, rfl, by simp⟩
    · rw [h] at herr; exact absurd rfl herr
  · rcases hcases with ⟨hr, h⟩ | ⟨_, hbad, h⟩ | ⟨prop, hr, hg, hf, h⟩
    · rw [h]
      constructor
      · intro he; exact absurd he (by simp [errors])
      · rintro ⟨hr2, _⟩; exact absurd hr2 hr
    · rw [h]
      constructor
      · intro he; exact absurd he (by simp [errors])
      · rintro ⟨_, prop, hg, hf⟩
        rcases hbad with hn | ⟨q, hq, hqf⟩
        · rw [hn] at hg; exact absurd hg (by simp)
        · rw [hq] at hg
          cases hg
          exact absurd hf hqf
    · rw [h]
      exact ⟨fun _ => ⟨hr, prop, hg, hf⟩, fun _ => rfl⟩
  · intro prop hr hg hf
    exact preInit_success a obj node propId prop hr hg hf

/-- Witness for C13 (amended): on a node of renderer 1 with a float property 3 and a
boolean property 4, creation succeeds on 3, fails on 4 and fails on the missing 6. -/
theorem creation_type_check_witness :
    preInit (started0 7 0 10 1 1 false TF_LINEAR none) 1
      (newNode 5 RECT (some 1) [⟨11, 3, PropertyType.float⟩, ⟨12, 4, PropertyType.boolean⟩]) 3 =
      ({ started0 7 0 10 1 1 false TF_LINEAR none with
          eventHandler := some 1, prop := some 11 },
        [Effect.retain 11, Effect.addAnimationAsync 1]) ∧
    preInit (started0 7 0 10 1 1 false TF_LINEAR none) 1
      (newNode 5 RECT (some 1) [⟨11, 3, PropertyType.float⟩, ⟨12, 4, PropertyType.boolean⟩]) 4 =
      (started0 7 0 10 1 1 false TF_LINEAR none,
        [Effect.throwTypeError "property cannot be animated"]) ∧
    preInit (started0 7 0 10 1 1 false TF_LINEAR none) 1
      (newNode 5 RECT (some 1) [⟨11, 3, PropertyType.float⟩, ⟨12, 4, PropertyType.boolean⟩]) 6 =
      (started0 7 0 10 1 1 false TF_LINEAR none,
        [Effect.throwTypeError "property cannot be animated"]) :=
  ⟨(creation_type_check (started0 7 0 10 1 1 false TF_LINEAR none) 1
      (newNode 5 RECT (some 1) [⟨11, 3, PropertyType.float⟩, ⟨12, 4, PropertyType.boolean⟩])
      3).2.2.2.2 ⟨11, 3, PropertyType.float⟩ rfl rfl rfl,
   (creation_type_check (started0 7 0 10 1 1 false TF_LINEAR none) 1
      (newNode 5 RECT (some 1) [⟨11, 3, PropertyType.float⟩, ⟨12, 4, PropertyType.boolean⟩])
      4).1 rfl (Or.inr ⟨⟨12, 4, PropertyType.boolean⟩, rfl, by decide⟩),
   (creation_type_check (started0 7 0 10 1 1 false TF_LINEAR none) 1
      (newNode 5 RECT (some 1) [⟨11, 3, PropertyType.float⟩, ⟨12, 4, PropertyType.boolean⟩])
      6).1 rfl (Or.inl rfl)⟩

/-- C14: what the code does where the claim fails.  `Group::Remove` never calls
`checkRenderer`: for every group and child it only enqueues the `removeChild`
update.  So for the group of renderer 1 and a child of renderer 2 it throws
nothing and enqueues, where `Group::Add` on the same pair throws "invalid
renderer" and enqueues nothing, as does animation creation on that child for
renderer 1. -/
theorem group_remove_skips_renderer_check :
    (∀ (group : Group) (child : AminoNode),
      Group.Remove group child =
        [Effect.enqueueValueUpdate group.handle child.handle ChildCallback.removeChild]) ∧
    Group.Remove { handle := 20, eventHandler := some 1, children := [] }
      (newNode 5 RECT (some 2) []) =
      [Effect.enqueueValueUpdate 20 5 ChildCallback.removeChild] ∧
    errors (Group.Remove { handle := 20, eventHandler := some 1, children := [] }
      (newNode 5 RECT (some 2) [])) = [] ∧
    Group.Add { handle := 20, eventHandler := some 1, children := [] }
      (newNode 5 RECT (some 2) []) = [Effect.throwTypeError "invalid renderer"] ∧
    (preInit (started0 7 0 10 1 1 false TF_LINEAR none) 1
      (newNode 5 RECT (some 2) [⟨11, 3, PropertyType.float⟩]) 3).2 =
      [Effect.throwTypeError "invalid renderer"] := by
  refine ⟨fun _ _ => rfl, rfl, rfl, ?_, ?_⟩
  · simp [Group.Add, AminoNode.checkRenderer, newNode]
  · rw [preInit_wrong_renderer _ _ _ _ (by simp [newNode])]

/-! ## The property reference of an animation -/

section reference

variable (a : Anim)

theorem releases_append (xs ys : List Event) :
    releases (xs ++ ys) = releases xs + releases ys := by
  induction xs with
  | nil => simp [releases]
  | cons x xs ih => cases x <;> simp [releases, ih, add_right_comm]

/-- The method `destroy` releases the property exactly when one is bound. -/
theorem destroy_releases :
    releases (destroy a).2 = (if a.prop = none then 0 else 1) := by
  obtain ⟨prop, started, start, end_, count, duration, autoreverse, direction, timeFunc,
    then_, startTime, lastTime, pauseTime, destroyed, eventHandler⟩ := a
  cases prop <;> cases then_ <;> simp [destroy, releases]

/-- The method `stop` either leaves the binding alone and releases nothing, or
releases the bound property once and clears the binding. -/
theorem stop_release :
    (releases (stop a).2 = 0 ∧ (stop a).1.prop = a.prop) ∨
    (releases (stop a).2 = 1 ∧ (stop a).1.prop = none ∧ a.prop ≠ none) := by
  by_cases hd : a.destroyed = true
  · left
    simp [stop, hd, releases]
  · have hst : (stop a).1.prop = none := by
      rw [stop_state]; simp [hd]
    have hev : releases (stop a).2 = (if a.prop = none then 0 else 1) := by
      unfold stop
      rw [if_neg hd]
      simp only [releases_append, destroy_releases]
      cases a.eventHandler <;> simp [releases]
    by_cases hp : a.prop = none
    · left
      rw [hev, hst, if_pos hp]
      exact ⟨rfl, hp.symm⟩
    · right
      rw [hev, if_neg hp]
      exact ⟨rfl, hst, hp⟩

/-- A tick either leaves the binding alone and releases nothing, or releases the
bound property once and clears the binding. -/
theorem update_release (now : ℚ) :
    (releases (update a now).2 = 0 ∧ (update a now).1.prop = a.prop) ∨
    (releases (update a now).2 = 1 ∧ (update a now).1.prop = none ∧ a.prop ≠ none) := by
  rcases update_cases a now with ⟨hu, _⟩ | ⟨b, t, hu, hp, _, _, _, _⟩ | ⟨b, hu, hp, _, _, _, _⟩
  · left; rw [hu]; exact ⟨rfl, rfl⟩
  · left; rw [hu]
    exact ⟨by simp [writeAt, releases_applyValue], by simpa [writeAt] using hp⟩
  · rw [hu]
    have hev : releases (endAnimation b).2 = releases (stop b).2 := by
      simp only [endAnimation, releases_append, releases_applyValue]
      cases b.then_ <;> simp [releases]
    have hst : (endAnimation b).1 = (stop b).1 := rfl
    rw [hev, hst, ← hp]
    exact stop_release b

/-- A call either leaves the binding alone and releases nothing, or releases the
bound property once and clears the binding. -/
theorem lifeStep_release (c : LifeCall) :
    (releases (lifeStep a c).2 = 0 ∧ (lifeStep a c).1.prop = a.prop) ∨
    (releases (lifeStep a c).2 = 1 ∧ (lifeStep a c).1.prop = none ∧ a.prop ≠ none) := by
  cases c with
  | act x =>
    cases x with
    | tick t => exact update_release a t
    | stop => exact stop_release a
  | destroy =>
    have h1 : releases (lifeStep a LifeCall.destroy).2 = (if a.prop = none then 0 else 1) :=
      destroy_releases a
    have h2 : (lifeStep a LifeCall.destroy).1.prop = none := by
      simp [lifeStep, destroy_state]
    by_cases hp : a.prop = none
    · left; exact ⟨by rw [h1, if_pos hp], by rw [h2, hp]⟩
    · right; exact ⟨by rw [h1, if_neg hp], h2, hp⟩

theorem life_append (xs ys : List LifeCall) :
    life a (xs ++ ys) =
      ((life (life a xs).1 ys).1, (life a xs).2 ++ (life (life a xs).1 ys).2) := by
  induction xs generalizing a with
  | nil => simp [life]
  | cons x xs ih => simp [life, ih]

/-- A sequence of calls either leaves the binding alone and releases nothing, or
releases the bound property once in total and clears the binding. -/
theorem life_release (cs : List LifeCall) :
    (releases (life a cs).2 = 0 ∧ (life a cs).1.prop = a.prop) ∨
    (releases (life a cs).2 = 1 ∧ (life a cs).1.prop = none ∧ a.prop ≠ none) := by
  induction cs generalizing a with
  | nil => left; exact ⟨rfl, rfl⟩
  | cons c rest ih =>
    simp only [life, releases_append]
    rcases lifeStep_release a c with ⟨h0, hp⟩ | ⟨h1, hn, hne⟩
    · rcases ih (lifeStep a c).1 with ⟨i0, ip⟩ | ⟨i1, inn, ine⟩
      · left; exact ⟨by omega, by rw [ip, hp]⟩
      · right; exact ⟨by omega, inn, by rwa [hp] at ine⟩
    · rcases ih (lifeStep a c).1 with ⟨i0, ip⟩ | ⟨_, _, ine⟩
      · right; exact ⟨by omega, by rw [ip, hn], hne⟩
      · exact absurd hn ine

theorem lifeStep_destroyed (c : LifeCall) : (lifeStep a c).1.destroyed = a.destroyed := by
  cases c with
  | act x => exact step_destroyed a x
  | destroy => simp [lifeStep, destroy_state]

theorem life_destroyed (cs : List LifeCall) : (life a cs).1.destroyed = a.destroyed := by
  induction cs generalizing a with
  | nil => rfl
  | cons c rest ih =>
    simp only [life]
    rw [ih, lifeStep_destroyed]

/-- A call that frees an animation that is not destroyed leaves it unbound. -/
theorem lifeStep_frees (c : LifeCall) (hdes : a.destroyed = false)
    (hf : frees a c = true) : (lifeStep a c).1.prop = none := by
  cases c with
  | act x =>
    cases x with
    | tick t =>
      simp only [frees, ends, decide_eq_true_eq] at hf
      exact (update_completes a t hdes hf.1 hf.2).1
    | stop =>
      simp only [lifeStep, step, stop_state]
      simp [hdes]
  | destroy => simp [lifeStep, destroy_state]

end reference

/-- C15: the property reference of an animation is paired.  Successful creation
retains the property exactly once and binds the animation to it.  From every
later state of the animation in which it is still bound to that property and
not destroyed (before or after `handleStart`), over every sequence of ticks,
stops and destroys the property is released at most once, so its reference
count never falls below the value before creation; and as soon as the sequence
contains a destroy, a stop or a completing tick, the property has been released
exactly once in total, the count is back at its value before creation, and the
calls after that one release nothing. -/
theorem property_reference_paired (a : Anim) (obj : Nat) (node : AminoNode) (propId : Nat)
    (prop : AnyProperty) (hr : node.eventHandler = some obj)
    (hg : node.getPropertyWithId propId = some prop) (hf : prop.type = PropertyType.float)
    (b : Anim) (hb : b.prop = (preInit a obj node propId).1.prop)
    (hdes : b.destroyed = false) (r0 : Int) (cs : List LifeCall) :
    retains (preInit a obj node propId).2 = 1 ∧
    (preInit a obj node propId).1.prop = some prop.handle ∧
    releases (life b cs).2 ≤ 1 ∧
    r0 ≤ refCount r0 (preInit a obj node propId).2 (life b cs).2 ∧
    (∀ (pre : List LifeCall) (c : LifeCall) (post : List LifeCall),
      cs = pre ++ c :: post → frees (life b pre).1 c = true →
      releases (life b cs).2 = 1 ∧
      refCount r0 (preInit a obj node propId).2 (life b cs).2 = r0 ∧
      releases (life (lifeStep (life b pre).1 c).1 post).2 = 0) := by
  have hpre := preInit_success a obj node propId prop hr hg hf
  have hret : retains (preInit a obj node propId).2 = 1 := by rw [hpre]; rfl
  have hprop0 : (preInit a obj node propId).1.prop = some prop.handle := by rw [hpre]
  have hprop : b.prop = some prop.handle := by rw [hb, hprop0]
  have hle : releases (life b cs).2 ≤ 1 := by
    rcases life_release b cs with ⟨h, _⟩ | ⟨h, _, _⟩ <;> omega
  refine ⟨hret, hprop0, hle, ?_, ?_⟩
  · unfold refCount
    rw [hret]
    omega
  · intro pre c post hcs hfree
    have hdp : (life b pre).1.destroyed = false := by rw [life_destroyed, hdes]
    have hnone := lifeStep_frees (life b pre).1 c hdp hfree
    have hpost : releases (life (lifeStep (life b pre).1 c).1 post).2 = 0 := by
      rcases life_release (lifeStep (life b pre).1 c).1 post with ⟨h, _⟩ | ⟨_, _, hne⟩
      · exact h
      · exact absurd hnone hne
    have htotal : releases (life b cs).2 = 1 := by
      rw [hcs, life_append]
      simp only [life, releases_append, hpost]
      rcases life_release b pre with ⟨h0, hp⟩ | ⟨h1, hn, _⟩
      · rcases lifeStep_release (life b pre).1 c with ⟨_, hsame⟩ | ⟨hone, _, _⟩
        · rw [hnone, hp, hprop] at hsame
          exact absurd hsame (by simp)
        · omega
      · rcases lifeStep_release (life b pre).1 c with ⟨hzero, _⟩ | ⟨_, _, hne⟩
        · omega
        · exact absurd hn hne
    refine ⟨htotal, ?_, hpost⟩
    unfold refCount
    rw [hret, htotal]
    omega

/-- Witness for C15: an animation created on the float property 3 (object 11) of a
node of renderer 1 is started, ticked at time 2, stopped and then destroyed: one
release in total, and the reference count 4 is back at 4. -/
theorem property_reference_paired_witness :
    releases (life (handleStart (preInit newAnim 1
        (newNode 5 RECT (some 1) [⟨11, 3, PropertyType.float⟩]) 3).1
        { fromValue := 0, toValue := 10, duration := 1, count := 1, autoreverse := false,
          timeFunc := "linear", then_ := none }).1
      [LifeCall.act (Action.tick 2), LifeCall.act Action.stop, LifeCall.destroy]).2 = 1 ∧
    refCount 4 (preInit newAnim 1 (newNode 5 RECT (some 1) [⟨11, 3, PropertyType.float⟩]) 3).2
      (life (handleStart (preInit newAnim 1
        (newNode 5 RECT (some 1) [⟨11, 3, PropertyType.float⟩]) 3).1
        { fromValue := 0, toValue := 10, duration := 1, count := 1, autoreverse := false,
          timeFunc := "linear", then_ := none }).1
      [LifeCall.act (Action.tick 2), LifeCall.act Action.stop, LifeCall.destroy]).2 = 4 :=
  ⟨((property_reference_paired newAnim 1
      (newNode 5 RECT (some 1) [⟨11, 3, PropertyType.float⟩]) 3 ⟨11, 3, PropertyType.float⟩
      rfl rfl rfl
      (handleStart (preInit newAnim 1
        (newNode 5 RECT (some 1) [⟨11, 3, PropertyType.float⟩]) 3).1
        { fromValue := 0, toValue := 10, duration := 1, count := 1, autoreverse := false,
          timeFunc := "linear", then_ := none }).1
      rfl rfl 4
      [LifeCall.act (Action.tick 2), LifeCall.act Action.stop, LifeCall.destroy]).2.2.2.2
      [LifeCall.act (Action.tick 2)] (LifeCall.act Action.stop) [LifeCall.destroy] rfl rfl).1,
   ((property_reference_paired newAnim 1
      (newNode 5 RECT (some 1) [⟨11, 3, PropertyType.float⟩]) 3 ⟨11, 3, PropertyType.float⟩
      rfl rfl rfl
      (handleStart (preInit newAnim 1
        (newNode 5 RECT (some 1) [⟨11, 3, PropertyType.float⟩]) 3).1
        { fromValue := 0, toValue := 10, duration := 1, count := 1, autoreverse := false,
          timeFunc := "linear", then_ := none }).1
      rfl rfl 4
      [LifeCall.act (Action.tick 2), LifeCall.act Action.stop, LifeCall.destroy]).2.2.2.2
      [LifeCall.act (Action.tick 2)] (LifeCall.act Action.stop) [LifeCall.destroy] rfl rfl).2.1⟩

/-! ## Group children -/

section children

variable (group : Group) (refs : Nat → Int) (node : Nat)

/-- Releasing after retaining restores the reference counts. -/
theorem releaseNode_retainNode :
    Group.releaseNode (Group.retainNode refs node) node = refs := by
  funext x
  by_cases hx : x = node
  · subst hx
    simp [Group.releaseNode, Group.retainNode]
  · simp [Group.releaseNode, Group.retainNode, Function.update, hx]

/-- The child list after an `addChild` followed by a `removeChild` of the node. -/
theorem removeChild_addChild_children :
    (Group.removeChild (Group.addChild group refs node).1
      (Group.addChild group refs node).2 node).1.children =
      (if node ∈ group.children then group.children.erase node ++ [node]
       else group.children) := by
  simp only [Group.removeChild, Group.addChild]
  rw [if_pos (by simp)]
  by_cases hm : node ∈ group.children
  · rw [if_pos hm]
    exact List.erase_append_left _ hm
  · rw [if_neg hm]
    simp only
    rw [List.erase_append_right _ hm]
    simp

/-- The reference counts after an `addChild` followed by a `removeChild` of the
node. -/
theorem removeChild_addChild_refs :
    (Group.removeChild (Group.addChild group refs node).1
      (Group.addChild group refs node).2 node).2 = refs := by
  simp only [Group.removeChild, Group.addChild]
  rw [if_pos (by simp)]
  exact releaseNode_retainNode refs node

end children

/-- C16, counterexample: in a group whose child list is `[7]`, adding node 7 again
and then removing node 7 leaves the list `[7]`: the child is not absent. -/
theorem add_remove_duplicate_still_present :
    (Group.removeChild
      (Group.addChild { handle := 20, eventHandler := some 1, children := [7] }
        (fun _ => 1) 7).1
      (Group.addChild { handle := 20, eventHandler := some 1, children := [7] }
        (fun _ => 1) 7).2 7).1.children = [7] ∧
    7 ∈ (Group.removeChild
      (Group.addChild { handle := 20, eventHandler := some 1, children := [7] }
        (fun _ => 1) 7).1
      (Group.addChild { handle := 20, eventHandler := some 1, children := [7] }
        (fun _ => 1) 7).2 7).1.children := by
  have h : (Group.removeChild
      (Group.addChild { handle := 20, eventHandler := some 1, children := [7] }
        (fun _ => 1) 7).1
      (Group.addChild { handle := 20, eventHandler := some 1, children := [7] }
        (fun _ => 1) 7).2 7).1.children = [7] := by
    rw [removeChild_addChild_children]
    decide
  rw [h]
  exact ⟨rfl, by decide⟩

/-- C16, amended: for every group state and every node, an `addChild` followed by
a `removeChild` of that node leaves as many occurrences of the node in the child
list as before the add, so the node is absent afterwards exactly when it was
absent before (and then the group is unchanged), while a node that was already
a child is still one; every reference count, that of the node included, equals
its value before the add. -/
theorem add_then_remove_restores (group : Group) (refs : Nat → Int) (node : Nat) :
    (Group.removeChild (Group.addChild group refs node).1
      (Group.addChild group refs node).2 node).2 = refs ∧
    (Group.removeChild (Group.addChild group refs node).1
      (Group.addChild group refs node).2 node).1.children.count node =
      group.children.count node ∧
    (node ∉ group.children →
      (Group.removeChild (Group.addChild group refs node).1
        (Group.addChild group refs node).2 node).1 = group) ∧
    (node ∈ (Group.removeChild (Group.addChild group refs node).1
        (Group.addChild group refs node).2 node).1.children ↔ node ∈ group.children) := by
  have hc := removeChild_addChild_children group refs node
  refine ⟨removeChild_addChild_refs group refs node, ?_, ?_, ?_⟩
  · rw [hc]
    by_cases hm : node ∈ group.children
    · rw [if_pos hm, List.count_append, List.count_erase_self]
      have hpos : 0 < group.children.count node := List.count_pos_iff.mpr hm
      simp
      omega
    · rw [if_neg hm]
  · intro hm
    have hch : (Group.removeChild (Group.addChild group refs node).1
        (Group.addChild group refs node).2 node).1.children = group.children := by
      rw [hc, if_neg hm]
    have hrest : ∀ g1 g2 : Group, g1.handle = g2.handle → g1.eventHandler = g2.eventHandler →
        g1.children = g2.children → g1 = g2 := by
      intro g1 g2 h1 h2 h3
      cases g1; cases g2; simp_all
    apply hrest _ _ _ _ hch
    · simp only [Group.removeChild, Group.addChild]
      rw [if_pos (by simp)]
    · simp only [Group.removeChild, Group.addChild]
      rw [if_pos (by simp)]
  · rw [hc]
    by_cases hm : node ∈ group.children
    · rw [if_pos hm]
      simp [hm]
    · rw [if_neg hm]

/-- Witness for C16 (amended): adding node 7 to a group with the one child 8 and
removing it again gives the group back. -/
theorem add_then_remove_restores_witness :
    (Group.removeChild
      (Group.addChild { handle := 20, eventHandler := some 1, children := [8] }
        (fun _ => 1) 7).1
      (Group.addChild { handle := 20, eventHandler := some 1, children := [8] }
        (fun _ => 1) 7).2 7).1 =
      { handle := 20, eventHandler := some 1, children := [8] } :=
  (add_then_remove_restores { handle := 20, eventHandler := some 1, children := [8] }
    (fun _ => 1) 7).2.2.1 (by decide)

/-- C17: `removeChild` for a node that is not in the child list changes nothing:
the group (same children in the same order) and every reference count are as
before; the function has no error path. -/
theorem remove_absent_noop (group : Group) (refs : Nat → Int) (node : Nat)
    (habs : node ∉ group.children) :
    Group.removeChild group refs node = (group, refs) ∧
    (Group.removeChild group refs node).1.children = group.children ∧
    (Group.removeChild group refs node).2 node = refs node := by
  have h : Group.removeChild group refs node = (group, refs) := by
    simp [Group.removeChild, habs]
  rw [h]
  exact ⟨rfl, rfl, rfl⟩

/-- Witness for C17: removing node 9 from a group with children 7 and 8. -/
theorem remove_absent_noop_witness :
    Group.removeChild { handle := 20, eventHandler := some 1, children := [7, 8] }
      (fun _ => 1) 9 =
      ({ handle := 20, eventHandler := some 1, children := [7, 8] }, fun _ => 1) :=
  (remove_absent_noop { handle := 20, eventHandler := some 1, children := [7, 8] }
    (fun _ => 1) 9 (by decide)).1

/-- C18: `addChild` never deduplicates: for every child list and node the new list
is the old one with the node appended at the end, one longer, also when the
node is already a child; the node is retained once (its reference count grows
by one) and no other count changes. -/
theorem add_child_appends (group : Group) (refs : Nat → Int) (node : Nat) :
    (Group.addChild group refs node).1.children = group.children ++ [node] ∧
    (Group.addChild group refs node).1.children.length = group.children.length + 1 ∧
    (Group.addChild group refs node).1.children.count node =
      group.children.count node + 1 ∧
    (Group.addChild group refs node).2 node = refs node + 1 ∧
    (∀ other : Nat, other ≠ node → (Group.addChild group refs node).2 other = refs other) ∧
    (Group.addChild group refs node).1.handle = group.handle ∧
    (Group.addChild group refs node).1.eventHandler = group.eventHandler := by
  refine ⟨rfl, by simp [Group.addChild], by simp [Group.addChild], ?_, ?_, rfl, rfl⟩
  · simp [Group.addChild, Group.retainNode]
  · intro other hne
    simp [Group.addChild, Group.retainNode, Function.update, hne]

/-- Witness for C18: adding node 7 to a group that already has it leaves the count
of node 8 alone. -/
theorem add_child_appends_witness :
    (Group.addChild { handle := 20, eventHandler := some 1, children := [7] }
      (fun _ => 1) 7).2 8 = 1 :=
  (add_child_appends { handle := 20, eventHandler := some 1, children := [7] }
    (fun _ => 1) 7).2.2.2.2.1 8 (by decide)

/-! ## Applying queued updates -/

section updates

/-- Writing back the element that is already at a position changes nothing. -/
theorem set_same {α : Type} (l : List α) (i : Nat) (x : α) (h : l.get? i = some x) :
    l.set i x = l := by
  induction l generalizing i with
  | nil => rfl
  | cons y ys ih =>
    cases i with
    | zero =>
      simp only [List.get?] at h
      cases h
      rfl
    | succ j =>
      simp only [List.get?] at h
      simp only [List.set, ih j h]

/-- The conversion to `int` of a value that is an integer is that integer. -/
theorem truncate_intCast (n : Int) : truncate (n : ℚ) = n := by
  simp [truncate]

/-- Truncation of a non-negative value is the floor. -/
theorem truncate_nonneg (v : ℚ) (h : 0 ≤ v) : truncate v = ⌊v⌋ := by
  unfold truncate
  rw [Rat.floor_def, Int.tdiv_eq_ediv (Rat.num_nonneg.mpr h) (by positivity)]

/-- Truncation commutes with negation. -/
theorem truncate_neg (v : ℚ) : truncate (-v) = - truncate v := by
  unfold truncate
  simp [Int.neg_tdiv]

/-- Truncation of a non-positive value is the ceiling. -/
theorem truncate_nonpos (v : ℚ) (h : v ≤ 0) : truncate v = ⌈v⌉ := by
  have h1 := truncate_nonneg (-v) (neg_nonneg.mpr h)
  rw [truncate_neg] at h1
  have h4 : truncate v = - ⌊-v⌋ := by omega
  rw [h4, Int.floor_neg, neg_neg]

/-- The result of `Update::apply` when the target exists. -/
theorem apply_of_target (u : Update) (rects : List AminoNode) (target : AminoNode)
    (hidx : 0 ≤ u.node) (hget : rects.get? u.node.toNat = some target) :
    Update.apply u rects =
      some (rects.set u.node.toNat (Update.applyTo u target).1, (Update.applyTo u target).2) := by
  unfold Update.apply
  rw [if_neg (not_lt.mpr hidx), hget]

/-- The properties that `Update::apply` handles on a text node. -/
theorem applyText_unhandled (u : Update) (t : TextNode)
    (h : u.property ∉ [R_PROP, G_PROP, B_PROP, W_PROP, H_PROP, TEXT_PROP, FONTSIZE_PROP,
      FONTID_PROP, TEXT_VALIGN_PROP, TEXT_WRAP_PROP]) :
    Update.applyText u t = (t, false) := by
  simp only [List.mem_cons, List.mem_singleton, List.not_mem_nil, not_or, or_false] at h
  obtain ⟨h1, h2, h3, h4, h5, h6, h7, h8, h9, h10⟩ := h
  simp [Update.applyText, h1, h2, h3, h4, h5, h6, h7, h8, h9, h10]

/-- The flag `refresh` is set exactly for box width, text, font size, font id and
wrap mode. -/
theorem applyText_refresh (u : Update) (t : TextNode) :
    (Update.applyText u t).2 = true ↔
      (u.property = W_PROP ∨ u.property = TEXT_PROP ∨ u.property = FONTSIZE_PROP ∨
        u.property = FONTID_PROP ∨ u.property = TEXT_WRAP_PROP) := by
  simp only [R_PROP, G_PROP, B_PROP, W_PROP, H_PROP, TEXT_PROP, FONTSIZE_PROP,
    FONTID_PROP, TEXT_VALIGN_PROP, TEXT_WRAP_PROP]
  by_cases h1 : u.property = 5
  · simp [Update.applyText, R_PROP, h1]
  by_cases h2 : u.property = 6
  · simp [Update.applyText, R_PROP, G_PROP, h2]
  by_cases h3 : u.property = 7
  · simp [Update.applyText, R_PROP, G_PROP, B_PROP, h3]
  by_cases h4 : u.property = 10
  · simp [Update.applyText, R_PROP, G_PROP, B_PROP, W_PROP, h4]
  by_cases h5 : u.property = 11
  · simp [Update.applyText, R_PROP, G_PROP, B_PROP, W_PROP, H_PROP, h5]
  by_cases h6 : u.property = 9
  · simp [Update.applyText, R_PROP, G_PROP, B_PROP, W_PROP, H_PROP, TEXT_PROP, h6]
  by_cases h7 : u.property = 12
  · simp [Update.applyText, R_PROP, G_PROP, B_PROP, W_PROP, H_PROP, TEXT_PROP,
      FONTSIZE_PROP, h7]
  by_cases h8 : u.property = 28
  · simp [Update.applyText, R_PROP, G_PROP, B_PROP, W_PROP, H_PROP, TEXT_PROP,
      FONTSIZE_PROP, FONTID_PROP, h8]
  by_cases h9 : u.property = 40
  · simp [Update.applyText, R_PROP, G_PROP, B_PROP, W_PROP, H_PROP, TEXT_PROP,
      FONTSIZE_PROP, FONTID_PROP, TEXT_VALIGN_PROP, h9]
  by_cases h10 : u.property = 41
  · simp [Update.applyText, R_PROP, G_PROP, B_PROP, W_PROP, H_PROP, TEXT_PROP,
      FONTSIZE_PROP, FONTID_PROP, TEXT_VALIGN_PROP, TEXT_WRAP_PROP, h10]
  simp [Update.applyText, R_PROP, G_PROP, B_PROP, W_PROP, H_PROP, TEXT_PROP,
    FONTSIZE_PROP, FONTID_PROP, TEXT_VALIGN_PROP, TEXT_WRAP_PROP, h1, h2, h3, h4, h5, h6,
    h7, h8, h9, h10]

end updates

/-- C19: an update whose property identifier is not handled for its target (any
identifier for a target that is not a text node; for a text node any identifier
other than R, G, B, W, H, TEXT, FONTSIZE, FONTID, TEXT_VALIGN and TEXT_WRAP)
is a no-op: the apply returns, the target and the whole node vector are
unchanged and `refreshText` is not called. -/
theorem unknown_property_noop (u : Update) (rects : List AminoNode) (target : AminoNode)
    (hidx : 0 ≤ u.node) (hget : rects.get? u.node.toNat = some target)
    (hunk : target.type ≠ TEXT ∨
      u.property ∉ [R_PROP, G_PROP, B_PROP, W_PROP, H_PROP, TEXT_PROP, FONTSIZE_PROP,
        FONTID_PROP, TEXT_VALIGN_PROP, TEXT_WRAP_PROP]) :
    Update.applyTo u target = (target, false) ∧
    Update.apply u rects = some (rects, false) := by
  have h1 : Update.applyTo u target = (target, false) := by
    unfold Update.applyTo
    by_cases ht : target.type = TEXT
    · rcases hunk with hne | hp
      · exact absurd ht hne
      · rw [if_pos ht, applyText_unhandled u _ hp]
    · rw [if_neg ht]
  refine ⟨h1, ?_⟩
  rw [apply_of_target u rects target hidx hget, h1, set_same rects _ target hget]

/-- Witness for C19: an update of property 99 on the text node at index 0. -/
theorem unknown_property_noop_witness :
    Update.apply { type := 0, node := 0, property := 99, value := 3, text := "x",
                   arr := none, callback := none } [newNode 5 TEXT (some 1) []] =
      some ([newNode 5 TEXT (some 1) []], false) :=
  (unknown_property_noop { type := 0, node := 0, property := 99, value := 3, text := "x",
                           arr := none, callback := none }
    [newNode 5 TEXT (some 1) []] (newNode 5 TEXT (some 1) []) (by decide) rfl
    (Or.inr (by decide))).2

/-- C20, counterexample: a font size update with the payload 12.5 on a new text
node leaves the font size 12, not the payload: the member is an `int` and the
assignment truncates. -/
theorem fontsize_update_not_payload :
    fitsInt (25 / 2) = true ∧
    (Update.applyTo { type := 0, node := 0, property := FONTSIZE_PROP, value := 25 / 2,
                      text := "", arr := none, callback := none }
      (newNode 5 TEXT (some 1) [])).1.textnode.fontsize = 12 ∧
    (((Update.applyTo { type := 0, node := 0, property := FONTSIZE_PROP, value := 25 / 2,
                        text := "", arr := none, callback := none }
      (newNode 5 TEXT (some 1) [])).1.textnode.fontsize : Int) : ℚ) ≠ 25 / 2 := by
  have ht : truncate (25 / 2) = 12 := by
    rw [truncate_nonneg _ (by norm_num), Int.floor_eq_iff]
    norm_num
  have hf : (Update.applyTo { type := 0, node := 0, property := FONTSIZE_PROP, value := 25 / 2,
                              text := "", arr := none, callback := none }
      (newNode 5 TEXT (some 1) [])).1.textnode.fontsize = 12 := by
    simp [Update.applyTo, Update.applyText, newNode, TEXT, R_PROP, G_PROP, B_PROP, W_PROP,
      H_PROP, TEXT_PROP, FONTSIZE_PROP, ht]
  refine ⟨?_, hf, ?_⟩
  · simp [fitsInt, ht, INT_MIN, INT_MAX]
  · rw [hf]
    norm_num

/-- C20, amended: an update applied to a text node sets exactly the member named
by the property identifier and leaves every other member unchanged: r, g, b, w
and h receive the payload and the text receives the string; font size, font id,
vertical alignment and wrap mode are `int` members and, for a payload whose
truncation is representable in a 32-bit `int`, receive the payload truncated
toward zero, a value between `INT_MIN` and `INT_MAX` that is the floor of a
non-negative payload, the ceiling of a non-positive one and the payload itself
when that is an integer; `refreshText` is called exactly for box width, text,
font size, font id and wrap mode, and not for colour, height and vertical
alignment. -/
theorem text_update_sets_field (u : Update) (target : AminoNode)
    (ht : target.type = TEXT) :
    (u.property = R_PROP → Update.applyTo u target =
      ({ target with textnode := { target.textnode with r := u.value } }, false)) ∧
    (u.property = G_PROP → Update.applyTo u target =
      ({ target with textnode := { target.textnode with g := u.value } }, false)) ∧
    (u.property = B_PROP → Update.applyTo u target =
      ({ target with textnode := { target.textnode with b := u.value } }, false)) ∧
    (u.property = W_PROP → Update.applyTo u target =
      ({ target with textnode := { target.textnode with w := u.value } }, true)) ∧
    (u.property = H_PROP → Update.applyTo u target =
      ({ target with textnode := { target.textnode with h := u.value } }, false)) ∧
    (u.property = TEXT_PROP → Update.applyTo u target =
      ({ target with textnode := { target.textnode with text := u.text } }, true)) ∧
    (fitsInt u.value = true →
      (u.property = FONTSIZE_PROP → Update.applyTo u target =
        ({ target with textnode := { target.textnode with fontsize := truncate u.value } },
          true)) ∧
      (u.property = FONTID_PROP → Update.applyTo u target =
        ({ target with textnode := { target.textnode with fontid := truncate u.value } },
          true)) ∧
      (u.property = TEXT_VALIGN_PROP → Update.applyTo u target =
        ({ target with textnode := { target.textnode with vAlign := truncate u.value } },
          false)) ∧
      (u.property = TEXT_WRAP_PROP → Update.applyTo u target =
        ({ target with textnode := { target.textnode with wrap := truncate u.value } },
          true)) ∧
      INT_MIN ≤ truncate u.value ∧ truncate u.value ≤ INT_MAX ∧
      (0 ≤ u.value → truncate u.value = ⌊u.value⌋) ∧
      (u.value ≤ 0 → truncate u.value = ⌈u.value⌉) ∧
      (∀ n : Int, u.value = (n : ℚ) → truncate u.value = n)) ∧
    ((Update.applyTo u target).2 = true ↔
      u.property ∈ [W_PROP, TEXT_PROP, FONTSIZE_PROP, FONTID_PROP, TEXT_WRAP_PROP]) ∧
    (∀ rects : List AminoNode, 0 ≤ u.node → rects.get? u.node.toNat = some target →
      Update.apply u rects =
        some (rects.set u.node.toNat (Update.applyTo u target).1,
          (Update.applyTo u target).2)) := by
  refine ⟨?_, ?_, ?_, ?_, ?_, ?_, ?_, ?_,
    fun rects hidx hget => apply_of_target u rects target hidx hget⟩
  · intro h
    simp [Update.applyTo, Update.applyText, ht, h]
  · intro h
    simp [Update.applyTo, Update.applyText, ht, h, R_PROP, G_PROP]
  · intro h
    simp [Update.applyTo, Update.applyText, ht, h, R_PROP, G_PROP, B_PROP]
  · intro h
    simp [Update.applyTo, Update.applyText, ht, h, R_PROP, G_PROP, B_PROP, W_PROP]
  · intro h
    simp [Update.applyTo, Update.applyText, ht, h, R_PROP, G_PROP, B_PROP, W_PROP, H_PROP]
  · intro h
    simp [Update.applyTo, Update.applyText, ht, h, R_PROP, G_PROP, B_PROP, W_PROP, H_PROP,
      TEXT_PROP]
  · intro hfit
    have hr : INT_MIN ≤ truncate u.value ∧ truncate u.value ≤ INT_MAX := by
      simpa [fitsInt] using hfit
    refine ⟨?_, ?_, ?_, ?_, hr.1, hr.2, truncate_nonneg u.value, truncate_nonpos u.value, ?_⟩
    · intro h
      simp [Update.applyTo, Update.applyText, ht, h, R_PROP, G_PROP, B_PROP, W_PROP, H_PROP,
        TEXT_PROP, FONTSIZE_PROP]
    · intro h
      simp [Update.applyTo, Update.applyText, ht, h, R_PROP, G_PROP, B_PROP, W_PROP, H_PROP,
        TEXT_PROP, FONTSIZE_PROP, FONTID_PROP]
    · intro h
      simp [Update.applyTo, Update.applyText, ht, h, R_PROP, G_PROP, B_PROP, W_PROP, H_PROP,
        TEXT_PROP, FONTSIZE_PROP, FONTID_PROP, TEXT_VALIGN_PROP]
    · intro h
      simp [Update.applyTo, Update.applyText, ht, h, R_PROP, G_PROP, B_PROP, W_PROP, H_PROP,
        TEXT_PROP, FONTSIZE_PROP, FONTID_PROP, TEXT_VALIGN_PROP, TEXT_WRAP_PROP]
    · intro n hn
      rw [hn, truncate_intCast]
  · have hsnd : (Update.applyTo u target).2 = (Update.applyText u target.textnode).2 := by
      simp [Update.applyTo, ht]
    rw [hsnd, applyText_refresh]
    simp only [List.mem_cons, List.mem_singleton, List.not_mem_nil, or_false]

/-- Witness for C20 (amended): a font size update with the payload 24 on a new
text node sets the font size to 24 and calls for a refresh. -/
theorem text_update_sets_field_witness :
    fitsInt 24 = true ∧
    Update.applyTo { type := 0, node := 0, property := FONTSIZE_PROP, value := 24,
                     text := "", arr := none, callback := none }
      (newNode 5 TEXT (some 1) []) =
      ({ newNode 5 TEXT (some 1) [] with
          textnode := { (newNode 5 TEXT (some 1) []).textnode with
            fontsize := truncate 24 } }, true) ∧
    truncate 24 = 24 :=
  ⟨by norm_num [fitsInt, truncate, INT_MIN, INT_MAX],
   ((text_update_sets_field { type := 0, node := 0, property := FONTSIZE_PROP, value := 24,
                              text := "", arr := none, callback := none }
    (newNode 5 TEXT (some 1) []) rfl).2.2.2.2.2.2.1
      (by norm_num [fitsInt, truncate, INT_MIN, INT_MAX])).1 rfl,
   ((text_update_sets_field { type := 0, node := 0, property := FONTSIZE_PROP, value := 24,
                              text := "", arr := none, callback := none }
    (newNode 5 TEXT (some 1) []) rfl).2.2.2.2.2.2.1
      (by norm_num [fitsInt, truncate, INT_MIN, INT_MAX])).2.2.2.2.2.2.2.2 24
      (by norm_num)⟩

/-! ## Two-phase texture creation -/

section textures

open AminoTexture

/-- The method `destroyAminoImage` does not change what `hasImage` reports. -/
theorem hasImage_destroyAminoImage (img : AminoImage) :
    img.destroyAminoImage.hasImage = img.hasImage := rfl

/-- The state after `destroyAminoTexture` of a texture with a valid handle. -/
theorem destroyAminoTexture_valid (t : AminoTexture) (hid : t.textureId ≠ INVALID_TEXTURE) :
    (destroyAminoTexture t).1 =
      { t with callback := none, video := none, videoPlayer := none,
               textureId := INVALID_TEXTURE, w := 0, h := 0 } ∧
    deletions (destroyAminoTexture t).2 =
      (match t.eventHandler with
       | some _ => if t.ownTexture then [t.textureId] else []
       | none => []) := by
  obtain ⟨callback, textureId, ownTexture, w, h, video, videoPlayer, eventHandler⟩ := t
  simp only at hid
  cases callback <;> cases video <;> cases videoPlayer <;> cases eventHandler <;>
    cases ownTexture <;> simp [destroyAminoTexture, hid, deletions]

/-- On a texture with an unset handle `destroyAminoTexture` requests no deletion
and leaves the handle unset. -/
theorem destroyAminoTexture_unset (t : AminoTexture) (hid : t.textureId = INVALID_TEXTURE) :
    deletions (destroyAminoTexture t).2 = [] ∧
    (destroyAminoTexture t).1.textureId = INVALID_TEXTURE := by
  obtain ⟨callback, textureId, ownTexture, w, h, video, videoPlayer, eventHandler⟩ := t
  simp only at hid
  cases callback <;> cases video <;> cases videoPlayer <;>
    simp [destroyAminoTexture, hid, deletions]

end textures

/-- C21: two-phase image texture creation on a texture with an unset handle, a
pending callback and a renderer.  When the creation by the image yields the
invalid handle, the APPLY phase leaves the texture unchanged (handle unset, `w`
and `h` as before) and the notify phase calls the callback once, with the error
"could not create texture".  When it yields a valid handle, after APPLY the
handle is that handle and `w`, `h` are those of the image, and the notify phase
calls the callback once, with no error. -/
theorem two_phase_image_texture (t : AminoTexture) (img : AminoImage) (gen cb g : Nat)
    (hid : t.textureId = INVALID_TEXTURE) (hcb : t.callback = some cb)
    (hg : t.eventHandler = some g) :
    (img.createTexture t.textureId gen = some INVALID_TEXTURE →
      AminoTexture.createTexture t img gen AsyncState.STATE_APPLY = some (t, []) ∧
      AminoTexture.createTexture t img gen AsyncState.STATE_DELETE =
        some ({ t with callback := none },
          [TextureEffect.callbackCall cb (some "could not create texture"),
           TextureEffect.deleteCallback cb])) ∧
    (∀ id : Nat, id ≠ INVALID_TEXTURE → img.createTexture t.textureId gen = some id →
      AminoTexture.createTexture t img gen AsyncState.STATE_APPLY =
        some ({ t with textureId := id, ownTexture := true, w := img.w, h := img.h },
          [TextureEffect.notifyTextureCreated g]) ∧
      AminoTexture.createTexture
          { t with textureId := id, ownTexture := true, w := img.w, h := img.h }
          img gen AsyncState.STATE_DELETE =
        some ({ t with textureId := id, ownTexture := true, w := img.w, h := img.h,
                       callback := none },
          [TextureEffect.setSize (some img.w) (some img.h),
           TextureEffect.callbackCall cb none, TextureEffect.deleteCallback cb])) := by
  constructor
  · intro hres
    constructor
    · simp [AminoTexture.createTexture, hres]
    · simp [AminoTexture.createTexture, hid, hcb]
  · intro id hne hres
    rw [hid] at hres
    constructor
    · simp [AminoTexture.createTexture, hres, hne, hid, hg]
    · simp [AminoTexture.createTexture, hne, hcb]

/-- Witness for C21: a 2x2 RGBA image with its 16 bytes gives the handle 3 that
`glGenTextures` produced, and an image without size gives the invalid handle. -/
theorem two_phase_image_texture_witness :
    AminoTexture.createTexture { AminoTexture.newTexture 1 with callback := some 4 }
      { w := 2, h := 2, alpha := true, bpp := 4, buffer := some 8, bufferData := some 9,
        bufferLength := 16 } 3 AsyncState.STATE_APPLY =
      some ({ AminoTexture.newTexture 1 with
                callback := some 4, textureId := 3, ownTexture := true, w := 2, h := 2 },
        [TextureEffect.notifyTextureCreated 1]) ∧
    AminoTexture.createTexture { AminoTexture.newTexture 1 with callback := some 4 }
      { w := 0, h := 0, alpha := false, bpp := 0, buffer := none, bufferData := none,
        bufferLength := 0 } 3 AsyncState.STATE_DELETE =
      some ({ AminoTexture.newTexture 1 with callback := none },
        [TextureEffect.callbackCall 4 (some "could not create texture"),
         TextureEffect.deleteCallback 4]) :=
  ⟨((two_phase_image_texture { AminoTexture.newTexture 1 with callback := some 4 }
      { w := 2, h := 2, alpha := true, bpp := 4, buffer := some 8, bufferData := some 9,
        bufferLength := 16 } 3 4 1 rfl rfl rfl).2 3 (by decide) (by decide)).1,
   ((two_phase_image_texture { AminoTexture.newTexture 1 with callback := some 4 }
      { w := 0, h := 0, alpha := false, bpp := 0, buffer := none, bufferData := none,
        bufferLength := 0 } 3 4 1 rfl rfl rfl).1 (by decide)).2⟩

/-- C22: what the code does where the claim fails.  `destroyAminoImage` resets
the buffer but not `w`, so a destroyed image still reports an image.  For the
2x2 RGBA image with its 16 bytes, destroyed between enqueue and apply: `hasImage`
is still true, creation does not return the invalid handle but reaches the
buffer-size assertion, which fails (4·4 ≠ 0), and the APPLY phase of the texture
has no result; a load request with the destroyed image is not refused as "image
not loaded" either. -/
theorem destroyed_image_still_reports_image :
    (∀ img : AminoImage, img.destroyAminoImage.hasImage = img.hasImage) ∧
    (AminoImage.destroyAminoImage
      { w := 2, h := 2, alpha := true, bpp := 4, buffer := some 8, bufferData := some 9,
        bufferLength := 16 }).hasImage = true ∧
    (AminoImage.destroyAminoImage
      { w := 2, h := 2, alpha := true, bpp := 4, buffer := some 8, bufferData := some 9,
        bufferLength := 16 }).createTexture INVALID_TEXTURE 3 = none ∧
    AminoTexture.createTexture { AminoTexture.newTexture 1 with callback := some 4 }
      (AminoImage.destroyAminoImage
        { w := 2, h := 2, alpha := true, bpp := 4, buffer := some 8, bufferData := some 9,
          bufferLength := 16 }) 3 AsyncState.STATE_APPLY = none ∧
    AminoTexture.LoadTextureFromImage (AminoTexture.newTexture 1)
      (AminoImage.destroyAminoImage
        { w := 2, h := 2, alpha := true, bpp := 4, buffer := some 8, bufferData := some 9,
          bufferLength := 16 }) 7 4 =
      ({ AminoTexture.newTexture 1 with callback := some 4 },
        [TextureEffect.enqueueValueUpdate 7 TextureHandler.createTexture]) := by
  refine ⟨fun _ => rfl, by decide, by decide, by decide, by decide⟩

/-- C23: the APPLY phase of a font-based creation that gets a valid atlas handle
stores it and marks the texture not owned, and destroying that texture requests
no deletion of the GPU texture; destroying a texture that owns a valid handle
(and has its renderer) requests the deletion of exactly that handle, once.  In
both cases the handle is unset and `w = h = 0` after the destroy, and a second
destroy requests no deletion. -/
theorem atlas_texture_never_deleted (t : AminoTexture) (atlasTexture : Nat)
    (atlasW atlasH : Int) (g : Nat) (hg : t.eventHandler = some g)
    (hat : atlasTexture ≠ INVALID_TEXTURE) :
    AminoTexture.createTextureFromFont t atlasTexture atlasW atlasH AsyncState.STATE_APPLY =
      some ({ t with textureId := atlasTexture, ownTexture := false, w := atlasW,
                     h := atlasH }, []) ∧
    AminoTexture.deletions (AminoTexture.destroyAminoTexture
      { t with textureId := atlasTexture, ownTexture := false, w := atlasW,
               h := atlasH }).2 = [] ∧
    (∀ o : AminoTexture, o.textureId ≠ INVALID_TEXTURE →
      ((o.eventHandler ≠ none ∧ o.ownTexture = true →
        AminoTexture.deletions (AminoTexture.destroyAminoTexture o).2 = [o.textureId]) ∧
      (o.ownTexture = false →
        AminoTexture.deletions (AminoTexture.destroyAminoTexture o).2 = []) ∧
      (AminoTexture.destroyAminoTexture o).1.textureId = INVALID_TEXTURE ∧
      (AminoTexture.destroyAminoTexture o).1.w = 0 ∧
      (AminoTexture.destroyAminoTexture o).1.h = 0 ∧
      AminoTexture.deletions
        (AminoTexture.destroyAminoTexture (AminoTexture.destroyAminoTexture o).1).2 = [])) := by
  have hown : ∀ o : AminoTexture, o.textureId ≠ INVALID_TEXTURE → o.ownTexture = false →
      AminoTexture.deletions (AminoTexture.destroyAminoTexture o).2 = [] := by
    intro o hid hf
    rw [(destroyAminoTexture_valid o hid).2, hf]
    cases o.eventHandler <;> simp
  refine ⟨?_, hown _ hat rfl, ?_⟩
  · simp [AminoTexture.createTextureFromFont, hg, hat]
  · intro o hid
    have hst := (destroyAminoTexture_valid o hid).1
    refine ⟨?_, hown o hid, ?_, ?_, ?_, ?_⟩
    · rintro ⟨he, ho⟩
      rw [(destroyAminoTexture_valid o hid).2, ho]
      cases heh : o.eventHandler with
      | none => exact absurd heh he
      | some _ => simp
    · rw [hst]
    · rw [hst]
    · rw [hst]
    · exact (destroyAminoTexture_unset _ (by rw [hst])).1

/-- Witness for C23: a texture of renderer 1 that gets the atlas handle 6 requests
no deletion when destroyed, and an owned texture with handle 3 requests the
deletion of 3. -/
theorem atlas_texture_never_deleted_witness :
    AminoTexture.deletions (AminoTexture.destroyAminoTexture
      { AminoTexture.newTexture 1 with textureId := 6, ownTexture := false, w := 512,
                                       h := 512 }).2 = [] ∧
    AminoTexture.deletions (AminoTexture.destroyAminoTexture
      { AminoTexture.newTexture 1 with textureId := 3, w := 2, h := 2 }).2 = [3] :=
  ⟨(atlas_texture_never_deleted (AminoTexture.newTexture 1) 6 512 512 1 rfl (by decide)).2.1,
   ((atlas_texture_never_deleted (AminoTexture.newTexture 1) 6 512 512 1 rfl (by decide)).2.2
      { AminoTexture.newTexture 1 with textureId := 3, w := 2, h := 2 } (by decide)).1
      ⟨by decide, rfl⟩⟩

/-- C30: what the code does where the claim fails.  The notify phase of the
image-based creation resets the callback member, that of the font-based
creation deletes the callback and leaves the member pointing at it, after a
success and after a failure alike.  So after a failed font-based creation on a
texture of renderer 1 with callback 4 the handle is unset and the member still
holds 4: the next load request, with callback 9, is answered "already loading",
and destroying the texture deletes callback 4 a second time. -/
theorem font_notify_keeps_callback :
    (∀ (t : AminoTexture) (img : AminoImage) (gen cb : Nat), t.callback = some cb →
      (AminoTexture.createTexture t img gen AsyncState.STATE_DELETE).map
        (fun r => (r.1.callback, AminoTexture.callbackDeletes r.2)) = some (none, [cb])) ∧
    (∀ (t : AminoTexture) (atlasTexture : Nat) (atlasW atlasH : Int) (cb : Nat),
      t.callback = some cb →
      (AminoTexture.createTextureFromFont t atlasTexture atlasW atlasH
        AsyncState.STATE_DELETE).map
        (fun r => (r.1.callback, AminoTexture.callbackDeletes r.2)) = some (some cb, [cb])) ∧
    AminoTexture.createTextureFromFont { AminoTexture.newTexture 1 with callback := some 4 }
      INVALID_TEXTURE 0 0 AsyncState.STATE_APPLY =
      some ({ AminoTexture.newTexture 1 with callback := some 4 }, []) ∧
    AminoTexture.createTextureFromFont { AminoTexture.newTexture 1 with callback := some 4 }
      INVALID_TEXTURE 0 0 AsyncState.STATE_DELETE =
      some ({ AminoTexture.newTexture 1 with callback := some 4 },
        [TextureEffect.callbackCall 4 (some "could not create texture"),
         TextureEffect.deleteCallback 4]) ∧
    AminoTexture.LoadTextureFromFont { AminoTexture.newTexture 1 with callback := some 4 } 7 9 =
      ({ AminoTexture.newTexture 1 with callback := some 4 },
        [TextureEffect.callbackCall 9 (some "already loading")]) ∧
    AminoTexture.callbackDeletes (AminoTexture.destroyAminoTexture
      { AminoTexture.newTexture 1 with callback := some 4 }).2 = [4] := by
  refine ⟨?_, ?_, by decide, by decide, by decide, by decide⟩
  · intro t img gen cb hcb
    by_cases hid : t.textureId = INVALID_TEXTURE
    · simp [AminoTexture.createTexture, hid, hcb, AminoTexture.callbackDeletes]
    · simp [AminoTexture.createTexture, hid, hcb, AminoTexture.callbackDeletes]
  · intro t atlasTexture atlasW atlasH cb hcb
    by_cases hid : t.textureId = INVALID_TEXTURE
    · simp [AminoTexture.createTextureFromFont, hid, hcb, AminoTexture.callbackDeletes]
    · simp [AminoTexture.createTextureFromFont, hid, hcb, AminoTexture.callbackDeletes]

/-! ## The frame cycle -/

section frames

open Renderer

/-- Draining after two more enqueues is draining, then the two updates in order. -/
theorem drain_enqueue_two (r : Renderer) (u1 u2 : QueuedUpdate) :
    drain (enqueue (enqueue r u1) u2) = applyUpdate (applyUpdate (drain r) u1) u2 := by
  simp [drain, enqueue, List.foldl_append]

/-- Advancing the animations of a state that ends with `a` advances the earlier
ones first and `a` last. -/
theorem processAnimations_snoc (r : Renderer) (as : List Anim) (a : Anim) (now : ℚ) :
    processAnimations { r with animations := as ++ [a] } now =
      advance now (processAnimations { r with animations := as } now) a := by
  simp [processAnimations, List.foldl_append]

/-- The first tick of a started animation that is not yet based, has repeats and
runs forward writes its start value. -/
theorem first_tick_writes_start (a : Anim) (now : ℚ) (p : Nat) (hs : a.started = true)
    (hc : a.count ≠ 0) (hp : a.prop = some p) (h0 : a.startTime = 0)
    (hdir : a.direction ≠ BACKWARD) :
    (update a now).2 = [Event.setValue p a.start] := by
  have hst : (rebase a now).startTime = now := by
    simp [rebase, validateTime, firstStart, h0]
  have ht : progress a now = 0 := by
    simp [progress, elapsed, hst]
  have hnot : ¬ progress a now > 1 := by rw [ht]; norm_num
  rw [update_within a now hs hc hnot, ht]
  simp [writeAt, applyValue, hp, hdir, timeToPosition_zero]

/-- A write of `applyValue` goes to the bound property. -/
theorem setValue_mem_applyValue (a : Anim) (x : ℚ) (q : Nat) (v : ℚ)
    (h : Event.setValue q v ∈ applyValue a x) : a.prop = some q := by
  unfold applyValue at h
  cases hp : a.prop with
  | none => simp [hp] at h
  | some p0 =>
    simp [hp] at h
    rw [h.1]

/-- The method `stop` writes no property. -/
theorem setValue_not_mem_stop (a : Anim) (q : Nat) (v : ℚ) :
    Event.setValue q v ∉ (stop a).2 := by
  obtain ⟨prop, started, start, end_, count, duration, autoreverse, direction, timeFunc,
    then_, startTime, lastTime, pauseTime, destroyed, eventHandler⟩ := a
  cases destroyed <;> cases eventHandler <;> cases prop <;> cases then_ <;>
    simp [stop, destroy]

/-- Every write of a tick goes to the property the animation is bound to. -/
theorem setValue_mem_update (a : Anim) (now : ℚ) (q : Nat) (v : ℚ)
    (h : Event.setValue q v ∈ (update a now).2) : a.prop = some q := by
  rcases update_cases a now with ⟨hu, _⟩ | ⟨b, t, hu, hb, _, _, _, _⟩ | ⟨b, hu, hb, _, _, _, _⟩
  · rw [hu] at h
    simp at h
  · rw [hu] at h
    rw [← hb]
    exact setValue_mem_applyValue b _ q v (by simpa [writeAt] using h)
  · rw [hu] at h
    rw [← hb]
    simp only [endAnimation, List.mem_append] at h
    rcases h with (h | h) | h
    · exact setValue_mem_applyValue b _ q v h
    · cases hthen : b.then_ <;> simp [hthen] at h
    · exact absurd h (setValue_not_mem_stop b q v)

/-- Events without a write to `P` leave the value of `P` unchanged. -/
theorem applyEvents_other (P : Nat) (es : List Event) (values : Nat → ℚ)
    (h : ∀ v : ℚ, Event.setValue P v ∉ es) : applyEvents values es P = values P := by
  induction es generalizing values with
  | nil => rfl
  | cons e rest ih =>
    have hrest : ∀ v : ℚ, Event.setValue P v ∉ rest := fun v hv =>
      h v (List.mem_cons_of_mem _ hv)
    cases e with
    | setValue q x =>
      have hq : P ≠ q := by
        intro hPq
        exact h x (by rw [hPq]; exact List.mem_cons_self _ _)
      simp only [applyEvents]
      rw [ih _ hrest]
      simp [Function.update, hq]
    | callThen cb => simpa [applyEvents] using ih values hrest
    | removeAnimationAsync g => simpa [applyEvents] using ih values hrest
    | release p0 => simpa [applyEvents] using ih values hrest
    | deleteThen cb => simpa [applyEvents] using ih values hrest

/-- Advancing an animation that is not bound to `P` leaves the value of `P`
unchanged. -/
theorem advance_other (now : ℚ) (r : Renderer) (b : Anim) (P : Nat)
    (hb : b.prop ≠ some P) : (advance now r b).values P = r.values P := by
  simp only [advance]
  exact applyEvents_other P _ _ (fun v hv => hb (setValue_mem_update b now P v hv))

/-- Advancing animations none of which is bound to `P` leaves the value of `P`
unchanged. -/
theorem foldl_advance_other (now : ℚ) (P : Nat) (as : List Anim) (r : Renderer)
    (h : ∀ b ∈ as, b.prop ≠ some P) :
    (as.foldl (advance now) r).values P = r.values P := by
  induction as generalizing r with
  | nil => rfl
  | cons b rest ih =>
    simp only [List.foldl_cons]
    rw [ih _ (fun c hc => h c (List.mem_cons_of_mem _ hc)),
      advance_other now r b P (h b (List.mem_cons_self _ _))]

end frames

/-! ## Shape of the time functions -/

section shape

theorem cubicIn_mono (s t : ℚ) (h0 : 0 ≤ s) (hst : s ≤ t) : cubicIn s ≤ cubicIn t := by
  unfold cubicIn
  exact pow_le_pow_left₀ h0 hst 3

theorem cubicOut_mono (s t : ℚ) (hst : s ≤ t) (h1 : t ≤ 1) : cubicOut s ≤ cubicOut t := by
  unfold cubicOut
  have h := cubicIn_mono (1 - t) (1 - s) (by linarith) (by linarith)
  linarith

theorem cubicInOut_mono (s t : ℚ) (h0 : 0 ≤ s) (hst : s ≤ t) (h1 : t ≤ 1) :
    cubicInOut s ≤ cubicInOut t := by
  unfold cubicInOut
  by_cases hs : s < 1 / 2
  · by_cases ht : t < 1 / 2
    · rw [if_pos hs, if_pos ht]
      have h := cubicIn_mono (s * 2) (t * 2) (by linarith) (by linarith)
      linarith
    · rw [if_pos hs, if_neg ht]
      have ha : cubicIn (s * 2) ≤ cubicIn 1 := cubicIn_mono (s * 2) 1 (by linarith) (by linarith)
      have hb : cubicIn ((1 - t) * 2) ≤ cubicIn 1 :=
        cubicIn_mono ((1 - t) * 2) 1 (by linarith) (by linarith [not_lt.mp ht])
      have h1' : cubicIn 1 = 1 := by norm_num [cubicIn]
      rw [h1'] at ha hb
      linarith
  · have ht : ¬ t < 1 / 2 := by
      intro h
      exact hs (lt_of_le_of_lt hst h)
    rw [if_neg hs, if_neg ht]
    have h := cubicIn_mono ((1 - t) * 2) ((1 - s) * 2) (by linarith) (by linarith)
    linarith

/-- Every time function is non-decreasing on the unit interval. -/
theorem timeFunction_mono (kind : Int) (s t : ℚ) (h0 : 0 ≤ s) (hst : s ≤ t) (h1 : t ≤ 1) :
    timeFunction kind s ≤ timeFunction kind t := by
  unfold timeFunction
  split_ifs
  · exact cubicIn_mono s t h0 hst
  · exact cubicOut_mono s t hst h1
  · exact cubicInOut_mono s t h0 hst h1
  · exact hst

/-- Every time function maps the unit interval into itself. -/
theorem timeFunction_range (kind : Int) (t : ℚ) (h0 : 0 ≤ t) (h1 : t ≤ 1) :
    0 ≤ timeFunction kind t ∧ timeFunction kind t ≤ 1 := by
  have ha := timeFunction_mono kind 0 t (le_refl 0) h0 h1
  have hb := timeFunction_mono kind t 1 h0 h1 (le_refl 1)
  rw [timeFunction_zero] at ha
  rw [timeFunction_one] at hb
  exact ⟨ha, hb⟩

/-- A position at an eased progress in the unit interval lies between `start` and
`end`. -/
theorem timeToPosition_between (a : Anim) (t : ℚ) (h0 : 0 ≤ t) (h1 : t ≤ 1) :
    min a.start a.end_ ≤ timeToPosition a t ∧ timeToPosition a t ≤ max a.start a.end_ := by
  obtain ⟨e0, e1⟩ := timeFunction_range a.timeFunc t h0 h1
  unfold timeToPosition
  rcases le_total a.start a.end_ with h | h
  · rw [min_eq_left h, max_eq_right h]
    constructor
    · nlinarith
    · nlinarith
  · rw [min_eq_right h, max_eq_left h]
    constructor
    · nlinarith
    · nlinarith

end shape

/-- C25: over exact arithmetic each of the four easing functions (linear,
cubic-in, cubic-out, cubic-in-out; and so the time function of every easing
kind) is non-decreasing on [0, 1] and maps [0, 1] into [0, 1]; hence every value
written by a tick whose progress lies in [0, 1] lies between `start` and `end`
inclusive. -/
theorem easing_monotone_bounded :
    (∀ s t : ℚ, 0 ≤ s → s ≤ t → t ≤ 1 →
      timeFunction TF_LINEAR s ≤ timeFunction TF_LINEAR t ∧ cubicIn s ≤ cubicIn t ∧
      cubicOut s ≤ cubicOut t ∧ cubicInOut s ≤ cubicInOut t) ∧
    (∀ t : ℚ, 0 ≤ t → t ≤ 1 →
      (0 ≤ timeFunction TF_LINEAR t ∧ timeFunction TF_LINEAR t ≤ 1) ∧
      (0 ≤ cubicIn t ∧ cubicIn t ≤ 1) ∧ (0 ≤ cubicOut t ∧ cubicOut t ≤ 1) ∧
      (0 ≤ cubicInOut t ∧ cubicInOut t ≤ 1)) ∧
    (∀ (kind : Int) (s t : ℚ), 0 ≤ s → s ≤ t → t ≤ 1 →
      timeFunction kind s ≤ timeFunction kind t) ∧
    (∀ (kind : Int) (t : ℚ), 0 ≤ t → t ≤ 1 →
      0 ≤ timeFunction kind t ∧ timeFunction kind t ≤ 1) ∧
    (∀ (a : Anim) (now : ℚ), a.started = true → a.count ≠ 0 →
      0 ≤ progress a now → progress a now ≤ 1 →
      ∀ v ∈ writes (update a now).2, min a.start a.end_ ≤ v ∧ v ≤ max a.start a.end_) := by
  have hin : ∀ t : ℚ, timeFunction TF_CUBIC_IN t = cubicIn t := fun t => by
    simp [timeFunction]
  have hout : ∀ t : ℚ, timeFunction TF_CUBIC_OUT t = cubicOut t := fun t => by
    simp [timeFunction, TF_CUBIC_IN, TF_CUBIC_OUT]
  have hio : ∀ t : ℚ, timeFunction TF_CUBIC_IN_OUT t = cubicInOut t := fun t => by
    simp [timeFunction, TF_CUBIC_IN, TF_CUBIC_OUT, TF_CUBIC_IN_OUT]
  refine ⟨?_, ?_, timeFunction_mono, timeFunction_range, ?_⟩
  · intro s t h0 hst h1
    exact ⟨timeFunction_mono _ s t h0 hst h1, cubicIn_mono s t h0 hst,
      cubicOut_mono s t hst h1, cubicInOut_mono s t h0 hst h1⟩
  · intro t h0 h1
    refine ⟨timeFunction_range _ t h0 h1, ?_, ?_, ?_⟩
    · rw [← hin]; exact timeFunction_range _ t h0 h1
    · rw [← hout]; exact timeFunction_range _ t h0 h1
    · rw [← hio]; exact timeFunction_range _ t h0 h1
  · intro a now hs hc h0 h1 v hv
    rw [update_within a now hs hc (not_lt.mpr h1)] at hv
    have hb : ∀ t : ℚ, 0 ≤ t → t ≤ 1 → ∀ b : Anim, b.start = a.start → b.end_ = a.end_ →
        ∀ w ∈ writes (applyValue b (timeToPosition b t)),
          min a.start a.end_ ≤ w ∧ w ≤ max a.start a.end_ := by
      intro t ht0 ht1 b hbs hbe w hw
      have hbt := timeToPosition_between b t ht0 ht1
      rw [hbs, hbe] at hbt
      unfold applyValue at hw
      cases hbp : b.prop with
      | none => rw [hbp] at hw; simp [writes] at hw
      | some q =>
        rw [hbp] at hw
        simp [writes] at hw
        rw [hw]
        exact hbt
    simp only [writeAt] at hv
    split_ifs at hv
    · exact hb (1 - progress a now) (by linarith) (by linarith) _ (by simp) (by simp) v hv
    · exact hb (progress a now) h0 h1 _ (by simp) (by simp) v hv

/-- Witness for C25: cubic-in-out at 1/4 and 3/4, and a cubic-out tick at progress
1/2 of the animation from 0 to 10. -/
theorem easing_monotone_bounded_witness :
    cubicInOut (1 / 4) ≤ cubicInOut (3 / 4) ∧
    (∀ v ∈ writes (update { started0 7 0 10 1 1 false TF_CUBIC_OUT none with
        startTime := 3, lastTime := 3 } (7 / 2)).2,
      min (0 : ℚ) 10 ≤ v ∧ v ≤ max (0 : ℚ) 10) :=
  ⟨(easing_monotone_bounded.1 (1 / 4) (3 / 4) (by norm_num) (by norm_num) (by norm_num)).2.2.2,
   easing_monotone_bounded.2.2.2.2
     { started0 7 0 10 1 1 false TF_CUBIC_OUT none with startTime := 3, lastTime := 3 }
     (7 / 2) rfl (by decide)
     (by norm_num [progress, elapsed, rebase, validateTime, firstStart, started0])
     (by norm_num [progress, elapsed, rebase, validateTime, firstStart, started0])⟩

/-! ## Start time, sentinel and negative counts -/

section timing

variable (a : Anim) (now : ℚ)

/-- On a tick before the start time in force, the elapsed value is the previous
`lastTime - startTime`. -/
theorem elapsed_backward (hlt : now < (firstStart a now).startTime) :
    (rebase a now).startTime = now - (a.lastTime - a.startTime) ∧
    elapsed a now = a.lastTime - a.startTime := by
  unfold elapsed rebase validateTime
  rw [if_pos hlt]
  unfold firstStart at hlt ⊢
  split_ifs at hlt ⊢ with hz
  · simp at hlt
  · simp

/-- A tick that starts from the sentinel start time 0 is based at its own time. -/
theorem rebase_sentinel (h0 : a.startTime = 0) :
    (rebase a now).startTime = now ∧ elapsed a now = 0 ∧ progress a now = 0 := by
  have hst : (rebase a now).startTime = now := by
    simp [rebase, validateTime, firstStart, h0]
  exact ⟨hst, by simp [elapsed, hst], by simp [progress, elapsed, hst]⟩

end timing

/-- C26: `startTime ≤ lastTime` holds after every tick of every sequence of ticks
of an animation that satisfies it at first (as every new animation does, with
both 0); on a tick whose current time is before the start time in force, the
re-based start time satisfies `currentTime - startTime' = lastTime - startTime`,
and when the previous tick was a plain tick (progress not above 1) that value
is its elapsed time, so the tick has the same progress as the previous one. -/
theorem start_time_not_after_last (a : Anim) (hinv : a.startTime ≤ a.lastTime)
    (pre : List ℚ) (now : ℚ) :
    (runTicks a pre).1.startTime ≤ (runTicks a pre).1.lastTime ∧
    (update (runTicks a pre).1 now).1.startTime ≤ (update (runTicks a pre).1 now).1.lastTime ∧
    (now < (firstStart (runTicks a pre).1 now).startTime →
      now - (rebase (runTicks a pre).1 now).startTime =
        (runTicks a pre).1.lastTime - (runTicks a pre).1.startTime) ∧
    (∀ prev : ℚ, (runTicks a pre).1.started = true → (runTicks a pre).1.count ≠ 0 →
      ¬ progress (runTicks a pre).1 prev > 1 →
      now < (firstStart (update (runTicks a pre).1 prev).1 now).startTime →
      elapsed (update (runTicks a pre).1 prev).1 now = elapsed (runTicks a pre).1 prev ∧
      progress (update (runTicks a pre).1 prev).1 now = progress (runTicks a pre).1 prev) := by
  have hb := runTicks_times_inv a pre hinv
  generalize (runTicks a pre).1 = b at hb
  refine ⟨hb, update_times_inv b now hb, ?_, ?_⟩
  · intro hlt
    have h := (elapsed_backward b now hlt).2
    unfold elapsed at h
    exact h
  · intro prev hs hc ht hlt
    have hu := update_within b prev hs hc ht
    have hstate : (update b prev).1 = { rebase b prev with lastTime := prev } := by
      rw [hu]; rfl
    have he := (elapsed_backward (update b prev).1 now hlt).2
    have hel : elapsed (update b prev).1 now = elapsed b prev := by
      rw [he, hstate]
      rfl
    refine ⟨hel, ?_⟩
    unfold progress
    rw [hel, rebase_duration, rebase_duration, hstate]
    simp

/-- Witness for C26: a new animation ticked at 5 and 7 and then at the earlier
time 3 keeps its elapsed time 2. -/
theorem start_time_not_after_last_witness :
    (runTicks (started0 7 0 10 4 1 false TF_LINEAR none) [5, 7]).1.startTime ≤
      (runTicks (started0 7 0 10 4 1 false TF_LINEAR none) [5, 7]).1.lastTime ∧
    3 - (rebase (runTicks (started0 7 0 10 4 1 false TF_LINEAR none) [5, 7]).1 3).startTime =
      (runTicks (started0 7 0 10 4 1 false TF_LINEAR none) [5, 7]).1.lastTime -
      (runTicks (started0 7 0 10 4 1 false TF_LINEAR none) [5, 7]).1.startTime :=
  ⟨(start_time_not_after_last (started0 7 0 10 4 1 false TF_LINEAR none) (le_refl 0)
      [5, 7] 3).1,
   (start_time_not_after_last (started0 7 0 10 4 1 false TF_LINEAR none) (le_refl 0)
      [5, 7] 3).2.2.1
      (by norm_num [runTicks, run, step, update, progress, elapsed, rebase, validateTime,
        firstStart, started0, writeAt, endAnimation, stop, destroy, applyValue])⟩

/-- C27: the start time 0 is the "not yet based" sentinel.  Whenever `startTime`
is 0 at the beginning of a tick of a started animation with repeats left and a
duration other than 0, the tick bases the animation at its own time: elapsed
time and progress are 0, the value written is the one of progress 0 (`start`,
or `end` when running backward) and the start time afterwards is the current
time.  The start time is 0 on the first tick, after a first tick at time 0, and
after a backward-clock re-base that lands on 0, as for the ticks at 5, 7 and 2 of
a new animation, whose next tick, at time 9, has progress 0. -/
theorem zero_start_time_is_sentinel (a : Anim) (now : ℚ) (hs : a.started = true)
    (hc : a.count ≠ 0) (_hd : a.duration ≠ 0) (h0 : a.startTime = 0) :
    (rebase a now).startTime = now ∧ elapsed a now = 0 ∧ progress a now = 0 ∧
    (update a now).1.startTime = now ∧ (update a now).1.lastTime = now ∧
    (∀ p : Nat, a.prop = some p →
      (update a now).2 =
        [Event.setValue p (if a.direction = BACKWARD then a.end_ else a.start)]) ∧
    (update a 0).1.startTime = 0 ∧
    (runTicks (started0 7 0 10 10 1 false TF_LINEAR none) [5, 7, 2]).1.startTime = 0 ∧
    progress (runTicks (started0 7 0 10 10 1 false TF_LINEAR none) [5, 7, 2]).1 9 = 0 := by
  obtain ⟨hst, hel, hpr⟩ := rebase_sentinel a now h0
  have hnot : ¬ progress a now > 1 := by rw [hpr]; norm_num
  have hu := update_within a now hs hc hnot
  have hz : (update a 0).1.startTime = 0 := by
    have hpr0 := (rebase_sentinel a 0 h0).2.2
    have hnot0 : ¬ progress a 0 > 1 := by rw [hpr0]; norm_num
    rw [update_within a 0 hs hc hnot0]
    exact (rebase_sentinel a 0 h0).1
  have hrun : (runTicks (started0 7 0 10 10 1 false TF_LINEAR none) [5, 7, 2]).1.startTime
      = 0 := by
    norm_num [runTicks, run, step, update, progress, elapsed, rebase, validateTime,
      firstStart, started0, writeAt, endAnimation, stop, destroy, applyValue]
  refine ⟨hst, hel, hpr, ?_, ?_, ?_, hz, hrun, (rebase_sentinel _ 9 hrun).2.2⟩
  · rw [hu]; exact hst
  · rw [hu]; rfl
  · intro p hp
    rw [hu, hpr]
    by_cases hb : a.direction = BACKWARD
    · simp [writeAt, applyValue, hp, hb, timeToPosition_one]
    · simp [writeAt, applyValue, hp, hb, timeToPosition_zero]

/-- Witness for C27: the animation from 0 to 10 over 10 s whose first tick was at
time 0 is based again by its tick at time 5 and writes 0 there. -/
theorem zero_start_time_is_sentinel_witness :
    progress (runTicks (started0 7 0 10 10 1 false TF_LINEAR none) [0]).1 5 = 0 ∧
    (update (runTicks (started0 7 0 10 10 1 false TF_LINEAR none) [0]).1 5).1.startTime = 5 :=
  ⟨(zero_start_time_is_sentinel (runTicks (started0 7 0 10 10 1 false TF_LINEAR none) [0]).1 5
      (by norm_num [runTicks, run, step, update, progress, elapsed, rebase, validateTime,
        firstStart, started0, writeAt])
      (by norm_num [runTicks, run, step, update, progress, elapsed, rebase, validateTime,
        firstStart, started0, writeAt])
      (by norm_num [runTicks, run, step, update, progress, elapsed, rebase, validateTime,
        firstStart, started0, writeAt])
      (by norm_num [runTicks, run, step, update, progress, elapsed, rebase, validateTime,
        firstStart, started0, writeAt])).2.2.1,
   (zero_start_time_is_sentinel (runTicks (started0 7 0 10 10 1 false TF_LINEAR none) [0]).1 5
      (by norm_num [runTicks, run, step, update, progress, elapsed, rebase, validateTime,
        firstStart, started0, writeAt])
      (by norm_num [runTicks, run, step, update, progress, elapsed, rebase, validateTime,
        firstStart, started0, writeAt])
      (by norm_num [runTicks, run, step, update, progress, elapsed, rebase, validateTime,
        firstStart, started0, writeAt])
      (by norm_num [runTicks, run, step, update, progress, elapsed, rebase, validateTime,
        firstStart, started0, writeAt])).2.2.2.1⟩

section negative

variable (a : Anim)

/-- What a tick does to a started animation whose count is below the sentinel. -/
theorem update_negative_frame (now : ℚ) (hs : a.started = true) (hc : a.count < -1) :
    (update a now).1.count = a.count ∧ (update a now).1.started = true ∧
    (update a now).1.direction = a.direction ∧ (update a now).1.prop = a.prop ∧
    (update a now).1.then_ = a.then_ ∧ (update a now).1.end_ = a.end_ ∧
    (update a now).1.startTime = (rebase a now).startTime ∧
    calls (update a now).2 = 0 := by
  have hc0 : a.count ≠ 0 := by omega
  have hneg : a.count < 0 := by omega
  have hf : a.count ≠ FOREVER := by
    intro h
    rw [h] at hc
    exact absurd hc (by decide)
  by_cases ht : progress a now > 1
  · rw [update_clamp a now hs hneg hf ht]
    simp [writeAt, calls_applyValue, hs]
  · rw [update_within a now hs hc0 ht]
    simp [writeAt, calls_applyValue, hs]

/-- No sequence of ticks changes count, direction or binding of a started animation
whose count is below the sentinel, or invokes its callback. -/
theorem runTicks_negative_frame (times : List ℚ) (hs : a.started = true)
    (hc : a.count < -1) :
    (runTicks a times).1.count = a.count ∧ (runTicks a times).1.started = true ∧
    (runTicks a times).1.direction = a.direction ∧ (runTicks a times).1.prop = a.prop ∧
    (runTicks a times).1.then_ = a.then_ ∧ (runTicks a times).1.end_ = a.end_ ∧
    calls (runTicks a times).2 = 0 := by
  induction times generalizing a with
  | nil => exact ⟨rfl, hs, rfl, rfl, rfl, rfl, rfl⟩
  | cons t ts ih =>
    obtain ⟨h1, h2, h3, h4, h5, h6, _, h8⟩ := update_negative_frame a t hs hc
    obtain ⟨i1, i2, i3, i4, i5, i6, i7⟩ := ih (update a t).1 h2 (by rw [h1]; exact hc)
    rw [calls_runTicks_cons, h8, i7]
    rw [runTicks_cons]
    exact ⟨i1.trans h1, i2, i3.trans h3, i4.trans h4, i5.trans h5, i6.trans h6, rfl⟩

end negative

/-- C28: for a started animation whose repeat count is below the sentinel (count <
-1), after every sequence of ticks the count and the direction are unchanged,
the animation is still bound, and the callback has never been invoked; a tick
whose progress exceeds 1 takes neither the restart nor the completion branch:
it keeps the start time of the tick, clamps the progress to 1 and, when running
forward, writes `end`. -/
theorem negative_count_never_completes (a : Anim) (hs : a.started = true)
    (hc : a.count < -1) (pre : List ℚ) (now : ℚ) :
    (runTicks a pre).1.count = a.count ∧ (runTicks a pre).1.direction = a.direction ∧
    (runTicks a pre).1.prop = a.prop ∧ (runTicks a pre).1.then_ = a.then_ ∧
    calls (runTicks a pre).2 = 0 ∧ calls (runTicks a (pre ++ [now])).2 = 0 ∧
    (update (runTicks a pre).1 now).1.count = a.count ∧
    (update (runTicks a pre).1 now).1.direction = a.direction ∧
    (progress (runTicks a pre).1 now > 1 →
      update (runTicks a pre).1 now =
        writeAt { rebase (runTicks a pre).1 now with lastTime := now } 1 ∧
      (update (runTicks a pre).1 now).1.startTime = (rebase (runTicks a pre).1 now).startTime ∧
      (∀ p : Nat, a.prop = some p → a.direction ≠ BACKWARD →
        (update (runTicks a pre).1 now).2 = [Event.setValue p a.end_])) := by
  obtain ⟨i1, i2, i3, i4, i5, i6, i7⟩ := runTicks_negative_frame a pre hs hc
  have hlast := (runTicks_negative_frame a (pre ++ [now]) hs hc).2.2.2.2.2.2
  generalize runTicks a pre = r at *
  have hcb : r.1.count < -1 := by rw [i1]; exact hc
  obtain ⟨u1, _, u3, _, _, _, u7, _⟩ := update_negative_frame r.1 now i2 hcb
  refine ⟨i1, i3, i4, i5, i7, hlast, u1.trans i1, u3.trans i3, ?_⟩
  intro ht
  have hf : r.1.count ≠ FOREVER := by
    intro h
    rw [h] at hcb
    exact absurd hcb (by decide)
  have hu := update_clamp r.1 now i2 (by omega) hf ht
  refine ⟨hu, u7, ?_⟩
  intro p hp hdir
  rw [hu]
  have hdir' : r.1.direction ≠ BACKWARD := by rw [i3]; exact hdir
  simp [writeAt, applyValue, i4, hp, hdir', timeToPosition_one, i6]

/-- Witness for C28: the animation from 0 to 10 over 1 s with count -2, first
ticked at time 2, writes 10 at time 5 and keeps its count. -/
theorem negative_count_never_completes_witness :
    (update (runTicks (started0 7 0 10 1 (-2) true TF_LINEAR (some 4)) [2]).1 5).1.count = -2 ∧
    (update (runTicks (started0 7 0 10 1 (-2) true TF_LINEAR (some 4)) [2]).1 5).2 =
      [Event.setValue 7 10] :=
  ⟨(negative_count_never_completes (started0 7 0 10 1 (-2) true TF_LINEAR (some 4)) rfl
      (by decide) [2] 5).2.2.2.2.2.2.1,
   ((negative_count_never_completes (started0 7 0 10 1 (-2) true TF_LINEAR (some 4)) rfl
      (by decide) [2] 5).2.2.2.2.2.2.2.2
      (by norm_num [runTicks, run, step, update, progress, elapsed, rebase, validateTime,
        firstStart, started0, writeAt])).2.2 7 rfl (by decide)⟩

/-- C29: `removeChild` for a node that is in the child list removes exactly its
first occurrence: the list splits as `before ++ node :: after` with the node not
in `before`, and the new list is `before ++ after`, so it is one shorter, every
other element (later duplicates of the node included) keeps its place relative
to the others, and the node is released once (its reference count falls by one
and no other count changes). -/
theorem remove_present_first_occurrence (group : Group) (refs : Nat → Int) (node : Nat)
    (hm : node ∈ group.children) :
    (∃ before after : List Nat, group.children = before ++ node :: after ∧
      node ∉ before ∧
      (Group.removeChild group refs node).1.children = before ++ after) ∧
    (Group.removeChild group refs node).1.children.length + 1 = group.children.length ∧
    (Group.removeChild group refs node).1.children.count node + 1 =
      group.children.count node ∧
    (∀ other : Nat, other ≠ node →
      (Group.removeChild group refs node).1.children.count other =
        group.children.count other) ∧
    (Group.removeChild group refs node).1.children.Sublist group.children ∧
    (Group.removeChild group refs node).2 node = refs node - 1 ∧
    (∀ other : Nat, other ≠ node →
      (Group.removeChild group refs node).2 other = refs other) := by
  have hch : (Group.removeChild group refs node).1.children = group.children.erase node := by
    simp [Group.removeChild, hm]
  have hrefs : (Group.removeChild group refs node).2 = Group.releaseNode refs node := by
    simp [Group.removeChild, hm]
  rw [hch, hrefs]
  refine ⟨?_, ?_, ?_, ?_, List.erase_sublist node group.children, ?_, ?_⟩
  · obtain ⟨l1, l2, h1, h2, h3⟩ := List.exists_erase_eq hm
    exact ⟨l1, l2, h2, h1, h3⟩
  · rw [List.length_erase_of_mem hm]
    have hpos : 0 < group.children.length := List.length_pos_of_mem hm
    omega
  · rw [List.count_erase_self]
    have hpos : 0 < group.children.count node := List.count_pos_iff.mpr hm
    omega
  · intro other hne
    exact List.count_erase_of_ne hne group.children
  · simp [Group.releaseNode]
  · intro other hne
    simp [Group.releaseNode, Function.update, hne]

/-- Witness for C29: removing node 7 from the children 8, 7, 9, 7 leaves 8, 9, 7. -/
theorem remove_present_first_occurrence_witness :
    (Group.removeChild { handle := 20, eventHandler := some 1, children := [8, 7, 9, 7] }
      (fun _ => 1) 7).1.children.length + 1 = 4 ∧
    (Group.removeChild { handle := 20, eventHandler := some 1, children := [8, 7, 9, 7] }
      (fun _ => 1) 7).2 7 = 1 - 1 :=
  ⟨(remove_present_first_occurrence
      { handle := 20, eventHandler := some 1, children := [8, 7, 9, 7] } (fun _ => 1) 7
      (by decide)).2.1,
   (remove_present_first_occurrence
      { handle := 20, eventHandler := some 1, children := [8, 7, 9, 7] } (fun _ => 1) 7
      (by decide)).2.2.2.2.2.1⟩

/-! ## The tick on the machine quotient -/

section machine

variable (quot : ℚ → ℚ → ℚ) (a : Anim) (now : ℚ)

/-- The tick `update` is the tick with the exact quotient. -/
theorem update_eq_updateWith : update a now = updateWith (fun x d => x / d) a now := rfl

/-- A tick whose computed progress does not exceed 1 takes the plain write path. -/
theorem updateWith_within (hs : a.started = true) (hc : a.count ≠ 0)
    (ht : ¬ quot (elapsed a now) a.duration > 1) :
    updateWith quot a now =
      writeAt { rebase a now with lastTime := now } (quot (elapsed a now) a.duration) := by
  unfold updateWith
  simp [hs, hc, ht]

/-- A tick whose computed progress exceeds 1 with one repeat left ends the
animation. -/
theorem updateWith_last (hs : a.started = true) (hc : a.count = 1)
    (ht : quot (elapsed a now) a.duration > 1) :
    updateWith quot a now = endAnimation { rebase a now with lastTime := now, count := 0 } := by
  unfold updateWith
  simp [hs, hc, ht]

/-- A tick whose computed progress exceeds 1 on an infinite animation starts the
next cycle. -/
theorem updateWith_forever (hs : a.started = true) (hc : a.count = FOREVER)
    (ht : quot (elapsed a now) a.duration > 1) :
    updateWith quot a now =
      writeAt (toggle { rebase a now with lastTime := now, startTime := now }) 0 := by
  unfold updateWith
  simp [hs, hc, ht, FOREVER]

/-- A tick on an animation whose repeat count is 0 does nothing. -/
theorem updateWith_count_zero (hc : a.count = 0) : updateWith quot a now = (a, []) := by
  unfold updateWith
  simp [hc]

/-- Ticks on an animation whose repeat count is 0 do nothing. -/
theorem runTicksWith_count_zero (times : List ℚ) (hc : a.count = 0) :
    runTicksWith quot a times = (a, []) := by
  induction times with
  | nil => rfl
  | cons t ts ih =>
    simp only [runTicksWith]
    rw [updateWith_count_zero quot a t hc]
    simp [ih]

/-- What a tick does to a started animation that repeats forever. -/
theorem updateWith_forever_frame (hs : a.started = true) (hc : a.count = FOREVER) :
    (updateWith quot a now).1.count = FOREVER ∧ (updateWith quot a now).1.started = true ∧
    (updateWith quot a now).1.autoreverse = a.autoreverse ∧
    (updateWith quot a now).1.duration = a.duration ∧
    (updateWith quot a now).1.prop = a.prop ∧
    (updateWith quot a now).1.then_ = a.then_ ∧ (updateWith quot a now).1.start = a.start ∧
    (updateWith quot a now).1.end_ = a.end_ ∧
    calls (updateWith quot a now).2 = 0 := by
  have hc0 : a.count ≠ 0 := by rw [hc]; decide
  by_cases ht : quot (elapsed a now) a.duration > 1
  · rw [updateWith_forever quot a now hs hc ht]
    simp [writeAt, calls_applyValue, hc, hs]
  · rw [updateWith_within quot a now hs hc0 ht]
    simp [writeAt, calls_applyValue, hc, hs]

/-- No sequence of ticks changes or completes a started animation that repeats
forever. -/
theorem runTicksWith_forever_frame (times : List ℚ) (hs : a.started = true)
    (hc : a.count = FOREVER) :
    (runTicksWith quot a times).1.count = FOREVER ∧
    (runTicksWith quot a times).1.started = true ∧
    (runTicksWith quot a times).1.autoreverse = a.autoreverse ∧
    (runTicksWith quot a times).1.duration = a.duration ∧
    (runTicksWith quot a times).1.prop = a.prop ∧
    (runTicksWith quot a times).1.then_ = a.then_ ∧
    (runTicksWith quot a times).1.start = a.start ∧
    (runTicksWith quot a times).1.end_ = a.end_ ∧
    calls (runTicksWith quot a times).2 = 0 := by
  induction times generalizing a with
  | nil => exact ⟨hc, hs, rfl, rfl, rfl, rfl, rfl, rfl, rfl⟩
  | cons t ts ih =>
    obtain ⟨h1, h2, h3, h4, h5, h6, h7, h8, h9⟩ := updateWith_forever_frame quot a t hs hc
    obtain ⟨i1, i2, i3, i4, i5, i6, i7, i8, i9⟩ := ih (updateWith quot a t).1 h2 h1
    have hcalls : calls (runTicksWith quot a (t :: ts)).2 = 0 := by
      simp only [runTicksWith, calls_append, h9, i9]
    exact ⟨i1, i2, i3.trans h3, i4.trans h4, i5.trans h5, i6.trans h6, i7.trans h7,
      i8.trans h8, hcalls⟩

/-- The exponent of a rational between two consecutive powers of 2. -/
theorem log_two_abs (q : ℚ) (e : Int) (h1 : (2 : ℚ) ^ e ≤ |q|)
    (h2 : |q| < (2 : ℚ) ^ (e + 1)) : Int.log 2 |q| = e := by
  have hpos : 0 < |q| := lt_of_lt_of_le (by positivity) h1
  have ha : e ≤ Int.log 2 |q| :=
    (Int.zpow_le_iff_le_log (by norm_num) hpos).1 (by exact_mod_cast h1)
  have hb : Int.log 2 |q| < e + 1 :=
    (Int.lt_zpow_iff_log_lt (by norm_num) hpos).1 (by exact_mod_cast h2)
  omega

/-- Rounding in the binade of exponent `e`. -/
theorem roundBinary_eq (p : Nat) (emin : Int) (q : ℚ) (e : Int)
    (h1 : (2 : ℚ) ^ e ≤ |q|) (h2 : |q| < (2 : ℚ) ^ (e + 1)) (he : emin ≤ e) :
    roundBinary p emin q =
      (roundHalfEven (q / (2 : ℚ) ^ (e - ((p : Int) - 1))) : ℚ) *
        (2 : ℚ) ^ (e - ((p : Int) - 1)) := by
  have hpos : 0 < |q| := lt_of_lt_of_le (by positivity) h1
  have hq : q ≠ 0 := abs_pos.mp hpos
  unfold roundBinary binaryUlp
  rw [if_neg hq, log_two_abs q e h1 h2, max_eq_left he]

/-- An integer rounds to itself. -/
theorem roundHalfEven_intCast (n : Int) : roundHalfEven (n : ℚ) = n := by
  unfold roundHalfEven
  simp

/-- A value of the format rounds to itself: `m * 2 ^ (e - (p - 1))` with an
integer `m`, in the binade of exponent `e`. -/
theorem roundBinary_exact (p : Nat) (emin : Int) (q : ℚ) (e m : Int)
    (hq : q = (m : ℚ) * (2 : ℚ) ^ (e - ((p : Int) - 1)))
    (h1 : (2 : ℚ) ^ e ≤ |q|) (h2 : |q| < (2 : ℚ) ^ (e + 1)) (he : emin ≤ e) :
    roundBinary p emin q = q := by
  rw [roundBinary_eq p emin q e h1 h2 he]
  have hu : (2 : ℚ) ^ (e - ((p : Int) - 1)) ≠ 0 := by positivity
  have hdiv : q / (2 : ℚ) ^ (e - ((p : Int) - 1)) = (m : ℚ) := by
    rw [hq]
    field_simp
  rw [hdiv, roundHalfEven_intCast]
  exact hq.symm

/-- Rounding to an integer does not go below an integer that the argument is not
below. -/
theorem roundHalfEven_ge (x : ℚ) (n : Int) (h : (n : ℚ) ≤ x) : n ≤ roundHalfEven x := by
  have hfl : n ≤ ⌊x⌋ := Int.le_floor.2 h
  unfold roundHalfEven
  split_ifs <;> omega

/-- Rounding to an integer does not go above an integer that the argument is not
above. -/
theorem roundHalfEven_le (x : ℚ) (n : Int) (h : x ≤ (n : ℚ)) : roundHalfEven x ≤ n := by
  have hfl : ⌊x⌋ ≤ n := by
    have := Int.floor_le x
    exact_mod_cast (le_trans this h)
  unfold roundHalfEven
  by_cases h1 : x - (⌊x⌋ : ℚ) < 1 / 2
  · rw [if_pos h1]; exact hfl
  · have hlt : (⌊x⌋ : ℚ) < n := by
      have : (⌊x⌋ : ℚ) < x := by linarith
      exact lt_of_lt_of_le this h
    have hlt2 : ⌊x⌋ < n := by exact_mod_cast hlt
    rw [if_neg h1]
    split_ifs <;> omega

/-- The spacing is positive. -/
theorem binaryUlp_pos (p : Nat) (emin : Int) (q : ℚ) : 0 < binaryUlp p emin q := by
  unfold binaryUlp
  positivity

/-- Rounding does not go below a value of the format that the argument is not below. -/
theorem roundBinary_ge (p : Nat) (emin : Int) (m k : Int) (q : ℚ) (hm0 : 0 < m)
    (hm : m < 2 ^ p) (hk : emin - ((p : Int) - 1) ≤ k) (h : (m : ℚ) * (2 : ℚ) ^ k ≤ q) :
    (m : ℚ) * (2 : ℚ) ^ k ≤ roundBinary p emin q := by
  have hmq : (0 : ℚ) < m := by exact_mod_cast hm0
  have hr : (0 : ℚ) < (m : ℚ) * (2 : ℚ) ^ k := by positivity
  have hq : 0 < q := lt_of_lt_of_le hr h
  have habs : |q| = q := abs_of_pos hq
  have hu := binaryUlp_pos p emin q
  unfold roundBinary
  rw [if_neg (ne_of_gt hq)]
  by_cases hcase : max (Int.log 2 |q|) emin - ((p : Int) - 1) ≤ k
  · -- the value is a multiple of the spacing at q
    obtain ⟨j, hj⟩ := Int.eq_ofNat_of_zero_le (sub_nonneg.mpr hcase)
    have hk2 : (2 : ℚ) ^ k = (2 : ℚ) ^ j * binaryUlp p emin q := by
      unfold binaryUlp
      rw [← zpow_natCast, ← zpow_add₀ (by norm_num : (2 : ℚ) ≠ 0)]
      congr 1
      omega
    have hint : ((m * 2 ^ j : Int) : ℚ) ≤ q / binaryUlp p emin q := by
      rw [le_div_iff₀ hu]
      push_cast
      calc (m : ℚ) * 2 ^ j * binaryUlp p emin q = (m : ℚ) * (2 : ℚ) ^ k := by rw [hk2]; ring
        _ ≤ q := h
    have hge := roundHalfEven_ge _ _ hint
    have hge2 : ((m * 2 ^ j : Int) : ℚ) ≤ (roundHalfEven (q / binaryUlp p emin q) : ℚ) := by
      exact_mod_cast hge
    calc (m : ℚ) * (2 : ℚ) ^ k = ((m * 2 ^ j : Int) : ℚ) * binaryUlp p emin q := by
          rw [hk2]; push_cast; ring
      _ ≤ (roundHalfEven (q / binaryUlp p emin q) : ℚ) * binaryUlp p emin q :=
          mul_le_mul_of_nonneg_right hge2 (le_of_lt hu)
  · -- the value lies below the binade of q
    have hcase2 : k < max (Int.log 2 |q|) emin - ((p : Int) - 1) := not_le.mp hcase
    have hE : max (Int.log 2 |q|) emin = Int.log 2 |q| := by
      rcases le_total (Int.log 2 |q|) emin with hle | hle
      · rw [max_eq_right hle] at hcase2
        omega
      · exact max_eq_left hle
    have hpow : (2 : ℚ) ^ (Int.log 2 |q|) ≤ q := by
      have := Int.zpow_log_le_self (b := 2) (by norm_num) (show 0 < |q| by rw [habs]; exact hq)
      rw [habs] at this ⊢
      exact_mod_cast this
    have hub : binaryUlp p emin q = (2 : ℚ) ^ (Int.log 2 |q| - ((p : Int) - 1)) := by
      unfold binaryUlp
      rw [hE]
    have hp1 : 1 ≤ p := by
      rcases Nat.eq_zero_or_pos p with hp0 | hpos
      · subst hp0
        simp at hm
        omega
      · exact hpos
    have hmq2 : (m : ℚ) < (2 : ℚ) ^ p := by exact_mod_cast hm
    have hsplit : (2 : ℚ) ^ (Int.log 2 |q|) =
        ((2 ^ (p - 1) : Int) : ℚ) * binaryUlp p emin q := by
      rw [hub]
      push_cast
      rw [← zpow_natCast, ← zpow_add₀ (by norm_num : (2 : ℚ) ≠ 0)]
      congr 1
      have : ((p - 1 : Nat) : Int) = (p : Int) - 1 := by omega
      omega
    have hint : ((2 ^ (p - 1) : Int) : ℚ) ≤ q / binaryUlp p emin q := by
      rw [le_div_iff₀ hu, ← hsplit]
      exact hpow
    have hge := roundHalfEven_ge _ _ hint
    have hge2 : ((2 ^ (p - 1) : Int) : ℚ) ≤ (roundHalfEven (q / binaryUlp p emin q) : ℚ) := by
      exact_mod_cast hge
    have hlow : (2 : ℚ) ^ (Int.log 2 |q|) ≤
        (roundHalfEven (q / binaryUlp p emin q) : ℚ) * binaryUlp p emin q := by
      rw [hsplit]
      exact mul_le_mul_of_nonneg_right hge2 (le_of_lt hu)
    have hr2 : (m : ℚ) * (2 : ℚ) ^ k ≤ (2 : ℚ) ^ (Int.log 2 |q|) := by
      have h2k : (0 : ℚ) < (2 : ℚ) ^ k := by positivity
      have hle1 : (m : ℚ) * (2 : ℚ) ^ k ≤ (2 : ℚ) ^ p * (2 : ℚ) ^ k :=
        mul_le_mul_of_nonneg_right (le_of_lt hmq2) (le_of_lt h2k)
      have heq : (2 : ℚ) ^ p * (2 : ℚ) ^ k = (2 : ℚ) ^ ((p : Int) + k) := by
        rw [zpow_add₀ (by norm_num : (2 : ℚ) ≠ 0), zpow_natCast]
      have hle2 : (2 : ℚ) ^ ((p : Int) + k) ≤ (2 : ℚ) ^ (Int.log 2 |q|) := by
        apply zpow_le_zpow_right₀ (by norm_num)
        rw [hE] at hcase2
        omega
      linarith
    linarith


/-- Rounding does not go above a value of the format that the argument is not above. -/
theorem roundBinary_le (p : Nat) (emin : Int) (m k : Int) (q : ℚ) (hm0 : 0 < m)
    (hm : m < 2 ^ p) (hk : emin - ((p : Int) - 1) ≤ k) (h : q ≤ (m : ℚ) * (2 : ℚ) ^ k) :
    roundBinary p emin q ≤ (m : ℚ) * (2 : ℚ) ^ k := by
  have hmq : (0 : ℚ) < m := by exact_mod_cast hm0
  have hr : (0 : ℚ) < (m : ℚ) * (2 : ℚ) ^ k := by positivity
  have hu := binaryUlp_pos p emin q
  unfold roundBinary
  by_cases hq0 : q = 0
  · rw [if_pos hq0]; exact le_of_lt hr
  rw [if_neg hq0]
  rcases lt_or_gt_of_ne hq0 with hneg | hpos
  · have hle : q / binaryUlp p emin q ≤ ((0 : Int) : ℚ) := by
      rw [div_le_iff₀ hu]
      simp
      exact le_of_lt hneg
    have h0 := roundHalfEven_le _ _ hle
    have h0q : (roundHalfEven (q / binaryUlp p emin q) : ℚ) ≤ 0 := by exact_mod_cast h0
    have : (roundHalfEven (q / binaryUlp p emin q) : ℚ) * binaryUlp p emin q ≤ 0 :=
      mul_nonpos_of_nonpos_of_nonneg h0q (le_of_lt hu)
    linarith
  · have hq : 0 < q := hpos
    have habs : |q| = q := abs_of_pos hq
    have hmq2 : (m : ℚ) < (2 : ℚ) ^ p := by exact_mod_cast hm
    have hlt : |q| < (2 : ℚ) ^ ((p : Int) + k) := by
      rw [habs]
      have h2k : (0 : ℚ) < (2 : ℚ) ^ k := by positivity
      have hle1 : (m : ℚ) * (2 : ℚ) ^ k < (2 : ℚ) ^ p * (2 : ℚ) ^ k :=
        mul_lt_mul_of_pos_right hmq2 h2k
      have heq : (2 : ℚ) ^ p * (2 : ℚ) ^ k = (2 : ℚ) ^ ((p : Int) + k) := by
        rw [zpow_add₀ (by norm_num : (2 : ℚ) ≠ 0), zpow_natCast]
      linarith
    have hlog : Int.log 2 |q| < (p : Int) + k :=
      (Int.lt_zpow_iff_log_lt (by norm_num) (by rw [habs]; exact hq)).1 (by exact_mod_cast hlt)
    have hcase : max (Int.log 2 |q|) emin - ((p : Int) - 1) ≤ k := by
      rcases le_total (Int.log 2 |q|) emin with hle | hle
      · rw [max_eq_right hle]; exact hk
      · rw [max_eq_left hle]; omega
    obtain ⟨j, hj⟩ := Int.eq_ofNat_of_zero_le (sub_nonneg.mpr hcase)
    have hk2 : (2 : ℚ) ^ k = (2 : ℚ) ^ j * binaryUlp p emin q := by
      unfold binaryUlp
      rw [← zpow_natCast, ← zpow_add₀ (by norm_num : (2 : ℚ) ≠ 0)]
      congr 1
      omega
    have hint : q / binaryUlp p emin q ≤ ((m * 2 ^ j : Int) : ℚ) := by
      rw [div_le_iff₀ hu]
      push_cast
      calc q ≤ (m : ℚ) * (2 : ℚ) ^ k := h
        _ = (m : ℚ) * 2 ^ j * binaryUlp p emin q := by rw [hk2]; ring
    have hle := roundHalfEven_le _ _ hint
    have hle2 : (roundHalfEven (q / binaryUlp p emin q) : ℚ) ≤ ((m * 2 ^ j : Int) : ℚ) := by
      exact_mod_cast hle
    calc (roundHalfEven (q / binaryUlp p emin q) : ℚ) * binaryUlp p emin q
        ≤ ((m * 2 ^ j : Int) : ℚ) * binaryUlp p emin q :=
          mul_le_mul_of_nonneg_right hle2 (le_of_lt hu)
      _ = (m : ℚ) * (2 : ℚ) ^ k := by rw [hk2]; push_cast; ring

/-- With a duration that is a positive `float`, the machine quotient exceeds 1
whenever the difference is at least the duration times 1 + 2⁻²³. -/
theorem floatQuot_gt_one (x d : ℚ) (m k : Int) (hm0 : 0 < m) (hm : m < 2 ^ 24)
    (hk : -149 ≤ k) (hd : d = (m : ℚ) * (2 : ℚ) ^ k) (hx : (1 + 1 / 2 ^ 23) * d ≤ x) :
    floatQuot x d > 1 := by
  have hmq : (0 : ℚ) < m := by exact_mod_cast hm0
  have hdpos : 0 < d := by rw [hd]; positivity
  have hone : (1 : ℚ) + 1 / 2 ^ 23 = ((2 ^ 23 + 1 : Int) : ℚ) * (2 : ℚ) ^ (-23 : Int) := by
    norm_num
  have h1 : (1 + 1 / 2 ^ 23) * d ≤ toDouble x := by
    have hrep : (1 + 1 / 2 ^ 23) * d =
        ((m * (2 ^ 23 + 1) : Int) : ℚ) * (2 : ℚ) ^ (k - 23) := by
      rw [hd, zpow_sub₀ (by norm_num : (2 : ℚ) ≠ 0)]
      push_cast
      norm_num
      ring
    rw [hrep]
    unfold toDouble
    apply roundBinary_ge 53 (-1022) _ _ _ (by positivity) (by norm_num; omega)
      (by norm_num; omega)
    rw [← hrep]
    exact hx
  have h2 : (1 : ℚ) + 1 / 2 ^ 23 ≤ toDouble x / d := by
    rw [le_div_iff₀ hdpos]
    exact h1
  have h3 : (1 : ℚ) + 1 / 2 ^ 23 ≤ toDouble (toDouble x / d) := by
    rw [hone]
    unfold toDouble
    apply roundBinary_ge 53 (-1022) _ _ _ (by norm_num) (by norm_num) (by norm_num)
    rw [← hone]
    exact h2
  have h4 : (1 : ℚ) + 1 / 2 ^ 23 ≤ floatQuot x d := by
    unfold floatQuot
    rw [hone]
    unfold toFloat
    apply roundBinary_ge 24 (-126) _ _ _ (by norm_num) (by norm_num) (by norm_num)
    rw [← hone]
    exact h3
  have : (1 : ℚ) < 1 + 1 / 2 ^ 23 := by norm_num
  exact lt_of_lt_of_le this h4

/-- With a duration that is a positive `float`, the machine quotient does not
exceed 1 when the difference does not exceed the duration. -/
theorem floatQuot_le_one (x d : ℚ) (m k : Int) (hm0 : 0 < m) (hm : m < 2 ^ 24)
    (hk : -149 ≤ k) (hd : d = (m : ℚ) * (2 : ℚ) ^ k) (hx : x ≤ d) :
    floatQuot x d ≤ 1 := by
  have hmq : (0 : ℚ) < m := by exact_mod_cast hm0
  have hdpos : 0 < d := by rw [hd]; positivity
  have hone : (1 : ℚ) = ((1 : Int) : ℚ) * (2 : ℚ) ^ (0 : Int) := by norm_num
  have h1 : toDouble x ≤ d := by
    rw [hd]
    unfold toDouble
    apply roundBinary_le 53 (-1022) _ _ _ hm0 (by omega) (by norm_num; omega)
    rw [← hd]
    exact hx
  have h2 : toDouble x / d ≤ 1 := by
    rw [div_le_iff₀ hdpos, one_mul]
    exact h1
  have h3 : toDouble (toDouble x / d) ≤ 1 := by
    rw [hone]
    unfold toDouble
    apply roundBinary_le 53 (-1022) _ _ _ (by norm_num) (by norm_num) (by norm_num)
    rw [← hone]
    exact h2
  unfold floatQuot
  rw [hone]
  unfold toFloat
  apply roundBinary_le 24 (-126) _ _ _ (by norm_num) (by norm_num) (by norm_num)
  rw [← hone]
  exact h3

end machine

section quotients

/-- The quotient of a zero difference is 0. -/
theorem floatQuot_zero (d : ℚ) : floatQuot 0 d = 0 := by
  simp [floatQuot, toFloat, toDouble, roundBinary]

/-- The machine quotient 1 / 1. -/
theorem floatQuot_one_one : floatQuot 1 1 = 1 := by
  have hd : toDouble 1 = 1 :=
    roundBinary_exact 53 (-1022) 1 0 (2 ^ 52) (by norm_num) (by norm_num) (by norm_num)
      (by norm_num)
  have hf : toFloat 1 = 1 :=
    roundBinary_exact 24 (-126) 1 0 (2 ^ 23) (by norm_num) (by norm_num) (by norm_num)
      (by norm_num)
  simp [floatQuot, hd, hf]

/-- The machine quotient 2 / 1. -/
theorem floatQuot_two_one : floatQuot 2 1 = 2 := by
  have hd : toDouble 2 = 2 :=
    roundBinary_exact 53 (-1022) 2 1 (2 ^ 52) (by norm_num) (by norm_num) (by norm_num)
      (by norm_num)
  have hf : toFloat 2 = 2 :=
    roundBinary_exact 24 (-126) 2 1 (2 ^ 23) (by norm_num) (by norm_num) (by norm_num)
      (by norm_num)
  simp [floatQuot, hd, hf]

/-- The machine quotient (3/2) / 1. -/
theorem floatQuot_three_halves : floatQuot (3 / 2) 1 = 3 / 2 := by
  have hd : toDouble (3 / 2) = 3 / 2 :=
    roundBinary_exact 53 (-1022) (3 / 2) 0 (3 * 2 ^ 51) (by norm_num)
      (by norm_num [abs_of_pos]) (by norm_num [abs_of_pos]) (by norm_num)
  have hf : toFloat (3 / 2) = 3 / 2 :=
    roundBinary_exact 24 (-126) (3 / 2) 0 (3 * 2 ^ 22) (by norm_num)
      (by norm_num [abs_of_pos]) (by norm_num [abs_of_pos]) (by norm_num)
  simp only [floatQuot, hd, div_one, hf]

/-- The value 1 + 2⁻³⁰ is a `double`. -/
theorem toDouble_just_over : toDouble (1 + 1 / 2 ^ 30) = 1 + 1 / 2 ^ 30 :=
  roundBinary_exact 53 (-1022) (1 + 1 / 2 ^ 30) 0 (2 ^ 52 + 2 ^ 22) (by norm_num)
    (by norm_num [abs_of_pos]) (by norm_num [abs_of_pos]) (by norm_num)

/-- The value 1 + 2⁻³⁰ rounds to the `float` 1: the neighbours of 1 in binary32
are 2⁻²³ apart above it. -/
theorem toFloat_just_over : toFloat (1 + 1 / 2 ^ 30) = 1 := by
  unfold toFloat
  rw [roundBinary_eq 24 (-126) _ 0 (by norm_num [abs_of_pos]) (by norm_num [abs_of_pos])
    (by norm_num)]
  have hfl : ⌊((1 : ℚ) + 1 / 2 ^ 30) / (2 : ℚ) ^ ((0 : Int) - (((24 : Nat) : Int) - 1))⌋ =
      2 ^ 23 := by
    rw [Int.floor_eq_iff]
    norm_num
  unfold roundHalfEven
  rw [hfl]
  norm_num

/-- The machine quotient (1 + 2⁻³⁰) / 1 is 1. -/
theorem floatQuot_just_over : floatQuot (1 + 1 / 2 ^ 30) 1 = 1 := by
  simp only [floatQuot, toDouble_just_over, div_one, toFloat_just_over]

end quotients

/-- C4, amended: for a started animation with one repeat left, duration > 0, bound
to its property and carrying a callback, whatever value the machine computes for
the quotient of line 729: a tick whose computed progress `t` exceeds 1 writes
exactly the end value, fires the callback and leaves the count at 0, and every
later tick is inert, so over the tick and any later ticks the end value is the
only write and the callback fires exactly once; a tick whose computed progress
does not exceed 1 fires nothing and leaves the animation running with its
repeat, its callback and its property; and when the computed progress is
exactly 1, as it is at elapsed = duration, such a tick writes the end value when
running forward.  For the quotient as the machine rounds it and a duration that
is a positive `float` (`m * 2 ^ k` with `0 < m < 2 ^ 24` and `k ≥ -149`), the
computed progress exceeds 1 for every elapsed time of at least duration times
1 + 2⁻²³ and does not exceed 1 for any elapsed time up to the duration. -/
theorem single_repeat_completion (quot : ℚ → ℚ → ℚ) (a : Anim) (now : ℚ) (p cb : Nat)
    (hs : a.started = true) (hc : a.count = 1) (_hd : 0 < a.duration)
    (hp : a.prop = some p) (hcb : a.then_ = some cb) (hdes : a.destroyed = false) :
    (quot (elapsed a now) a.duration > 1 →
      writes (updateWith quot a now).2 = [a.end_] ∧ calls (updateWith quot a now).2 = 1 ∧
      (updateWith quot a now).1.count = 0 ∧
      ∀ later : List ℚ,
        (runTicksWith quot (updateWith quot a now).1 later).2 = [] ∧
        writes (runTicksWith quot a (now :: later)).2 = [a.end_] ∧
        calls (runTicksWith quot a (now :: later)).2 = 1) ∧
    (¬ quot (elapsed a now) a.duration > 1 →
      calls (updateWith quot a now).2 = 0 ∧
      (updateWith quot a now).1.count = 1 ∧ (updateWith quot a now).1.then_ = some cb ∧
      (updateWith quot a now).1.prop = some p) ∧
    (quot (elapsed a now) a.duration = 1 → a.direction ≠ BACKWARD →
      (updateWith quot a now).2 = [Event.setValue p a.end_]) ∧
    (∀ m k : Int, 0 < m → m < 2 ^ 24 → -149 ≤ k → a.duration = (m : ℚ) * (2 : ℚ) ^ k →
      ((1 + 1 / 2 ^ 23) * a.duration ≤ elapsed a now →
        floatQuot (elapsed a now) a.duration > 1) ∧
      (elapsed a now ≤ a.duration → ¬ floatQuot (elapsed a now) a.duration > 1)) := by
  have hc0 : a.count ≠ 0 := by rw [hc]; decide
  refine ⟨?_, ?_, ?_, fun m k hm0 hm hk hdur =>
    ⟨fun hx => floatQuot_gt_one _ _ m k hm0 hm hk hdur hx,
     fun hx => not_lt.mpr (floatQuot_le_one _ _ m k hm0 hm hk hdur hx)⟩⟩
  · intro ht
    have hu := updateWith_last quot a now hs hc ht
    rw [endAnimation_bound _ p (by simpa using hp) (by simpa using hdes)] at hu
    have hev : writes (updateWith quot a now).2 = [a.end_] ∧
        calls (updateWith quot a now).2 = 1 := by
      rw [hu]
      cases he : a.eventHandler <;> simp [hcb, he, writes, calls]
    have hz : (updateWith quot a now).1.count = 0 := by rw [hu]
    refine ⟨hev.1, hev.2, hz, fun later => ?_⟩
    have hin := runTicksWith_count_zero quot (updateWith quot a now).1 later hz
    refine ⟨by rw [hin], ?_, ?_⟩
    · simp only [runTicksWith, hin, writes_append]
      simpa [writes] using hev.1
    · simp only [runTicksWith, hin, calls_append]
      simpa [calls] using hev.2
  · intro ht
    rw [updateWith_within quot a now hs hc0 ht]
    simp [writeAt, calls_applyValue, hc, hcb, hp]
  · intro ht hdir
    have hnot : ¬ quot (elapsed a now) a.duration > 1 := by rw [ht]; norm_num
    rw [updateWith_within quot a now hs hc0 hnot, ht]
    simp [writeAt, applyValue, hp, hdir, timeToPosition_one]

/-- Witness for C4 (amended), with the quotient of the machine: the animation from
0 to 10 over 1 s with one repeat, based at time 2, completes on a tick at time 4
(progress 2); on a tick at time 3 (progress 1) it writes 10 and fires nothing;
and on a tick at time 3 + 2⁻³⁰, where the elapsed time exceeds the duration but
the quotient rounds to 1, it fires nothing and keeps its repeat. -/
theorem single_repeat_completion_witness :
    (writes (updateWith floatQuot { started0 7 0 10 1 1 false TF_LINEAR (some 4) with
        startTime := 2, lastTime := 2 } 4).2 = [10] ∧
      calls (updateWith floatQuot { started0 7 0 10 1 1 false TF_LINEAR (some 4) with
        startTime := 2, lastTime := 2 } 4).2 = 1) ∧
    (updateWith floatQuot { started0 7 0 10 1 1 false TF_LINEAR (some 4) with
        startTime := 2, lastTime := 2 } 3).2 = [Event.setValue 7 10] ∧
    (calls (updateWith floatQuot { started0 7 0 10 1 1 false TF_LINEAR (some 4) with
        startTime := 2, lastTime := 2 } (3 + 1 / 2 ^ 30)).2 = 0 ∧
      (updateWith floatQuot { started0 7 0 10 1 1 false TF_LINEAR (some 4) with
        startTime := 2, lastTime := 2 } (3 + 1 / 2 ^ 30)).1.count = 1) :=
  ⟨⟨((single_repeat_completion floatQuot
        { started0 7 0 10 1 1 false TF_LINEAR (some 4) with startTime := 2, lastTime := 2 }
        4 7 4 rfl rfl (by norm_num [started0]) rfl rfl rfl).1
        (by
          rw [show elapsed { started0 7 0 10 1 1 false TF_LINEAR (some 4) with
                startTime := 2, lastTime := 2 } 4 = 2 from by
              norm_num [elapsed, rebase, validateTime, firstStart, started0],
            show ({ started0 7 0 10 1 1 false TF_LINEAR (some 4) with
                startTime := 2, lastTime := 2 } : Anim).duration = 1 from rfl,
            floatQuot_two_one]
          norm_num)).1,
     ((single_repeat_completion floatQuot
        { started0 7 0 10 1 1 false TF_LINEAR (some 4) with startTime := 2, lastTime := 2 }
        4 7 4 rfl rfl (by norm_num [started0]) rfl rfl rfl).1
        (by
          rw [show elapsed { started0 7 0 10 1 1 false TF_LINEAR (some 4) with
                startTime := 2, lastTime := 2 } 4 = 2 from by
              norm_num [elapsed, rebase, validateTime, firstStart, started0],
            show ({ started0 7 0 10 1 1 false TF_LINEAR (some 4) with
                startTime := 2, lastTime := 2 } : Anim).duration = 1 from rfl,
            floatQuot_two_one]
          norm_num)).2.1⟩,
   (single_repeat_completion floatQuot
        { started0 7 0 10 1 1 false TF_LINEAR (some 4) with startTime := 2, lastTime := 2 }
        3 7 4 rfl rfl (by norm_num [started0]) rfl rfl rfl).2.2.1
        (by
          rw [show elapsed { started0 7 0 10 1 1 false TF_LINEAR (some 4) with
                startTime := 2, lastTime := 2 } 3 = 1 from by
              norm_num [elapsed, rebase, validateTime, firstStart, started0],
            show ({ started0 7 0 10 1 1 false TF_LINEAR (some 4) with
                startTime := 2, lastTime := 2 } : Anim).duration = 1 from rfl,
            floatQuot_one_one])
        (by decide),
   ⟨((single_repeat_completion floatQuot
        { started0 7 0 10 1 1 false TF_LINEAR (some 4) with startTime := 2, lastTime := 2 }
        (3 + 1 / 2 ^ 30) 7 4 rfl rfl (by norm_num [started0]) rfl rfl rfl).2.1
        (by
          rw [show elapsed { started0 7 0 10 1 1 false TF_LINEAR (some 4) with
                startTime := 2, lastTime := 2 } (3 + 1 / 2 ^ 30) = 1 + 1 / 2 ^ 30 from by
              norm_num [elapsed, rebase, validateTime, firstStart, started0],
            show ({ started0 7 0 10 1 1 false TF_LINEAR (some 4) with
                startTime := 2, lastTime := 2 } : Anim).duration = 1 from rfl,
            floatQuot_just_over]
          norm_num)).1,
    ((single_repeat_completion floatQuot
        { started0 7 0 10 1 1 false TF_LINEAR (some 4) with startTime := 2, lastTime := 2 }
        (3 + 1 / 2 ^ 30) 7 4 rfl rfl (by norm_num [started0]) rfl rfl rfl).2.1
        (by
          rw [show elapsed { started0 7 0 10 1 1 false TF_LINEAR (some 4) with
                startTime := 2, lastTime := 2 } (3 + 1 / 2 ^ 30) = 1 + 1 / 2 ^ 30 from by
              norm_num [elapsed, rebase, validateTime, firstStart, started0],
            show ({ started0 7 0 10 1 1 false TF_LINEAR (some 4) with
                startTime := 2, lastTime := 2 } : Anim).duration = 1 from rfl,
            floatQuot_just_over]
          norm_num)).2.1⟩⟩

/-- C7, counterexample: the forever animation from 0 to 10 over 1 s with
autoreverse, first ticked at time 1, is ticked at time 2 + 2⁻³⁰.  The elapsed
time 1 + 2⁻³⁰ exceeds the duration, but the quotient the machine computes is the
`float` 1, which does not exceed 1: the direction does not flip, the cycle is
not restarted (the start time is still 1) and the tick writes 10.  The direction
only flips on the next tick, at time 5/2, which writes 10 again. -/
theorem tick_just_over_duration_no_flip :
    (runTicksWith floatQuot (started0 7 0 10 1 FOREVER true TF_LINEAR none) [1]).1.duration <
      elapsed (runTicksWith floatQuot (started0 7 0 10 1 FOREVER true TF_LINEAR none) [1]).1
        (2 + 1 / 2 ^ 30) ∧
    (updateWith floatQuot
      (runTicksWith floatQuot (started0 7 0 10 1 FOREVER true TF_LINEAR none) [1]).1
      (2 + 1 / 2 ^ 30)).1.direction =
      (runTicksWith floatQuot (started0 7 0 10 1 FOREVER true TF_LINEAR none)
        [1]).1.direction ∧
    (updateWith floatQuot
      (runTicksWith floatQuot (started0 7 0 10 1 FOREVER true TF_LINEAR none) [1]).1
      (2 + 1 / 2 ^ 30)).1.startTime = 1 ∧
    (runTicksWith floatQuot (started0 7 0 10 1 FOREVER true TF_LINEAR none)
      [1, 2 + 1 / 2 ^ 30, 5 / 2]).2 =
      [Event.setValue 7 0, Event.setValue 7 10, Event.setValue 7 10] ∧
    (runTicks (started0 7 0 10 1 FOREVER true TF_LINEAR none)
      [1, 2 + 1 / 2 ^ 30, 5 / 2]).2 ≠
      [Event.setValue 7 0, Event.setValue 7 10, Event.setValue 7 10] := by
  have e1 : elapsed (started0 7 0 10 1 FOREVER true TF_LINEAR none) 1 = 0 := by
    norm_num [elapsed, rebase, validateTime, firstStart, started0]
  have h1 : updateWith floatQuot (started0 7 0 10 1 FOREVER true TF_LINEAR none) 1 =
      ({ started0 7 0 10 1 FOREVER true TF_LINEAR none with startTime := 1, lastTime := 1 },
        [Event.setValue 7 0]) := by
    rw [updateWith_within _ _ _ rfl (by decide) (by rw [e1, floatQuot_zero]; norm_num),
      e1, floatQuot_zero]
    norm_num [writeAt, applyValue, timeToPosition, timeFunction, rebase,
      validateTime, firstStart, started0, FORWARD, BACKWARD, TF_LINEAR, TF_CUBIC_IN,
      TF_CUBIC_OUT, TF_CUBIC_IN_OUT]
  have e2 : elapsed { started0 7 0 10 1 FOREVER true TF_LINEAR none with
      startTime := 1, lastTime := 1 } (2 + 1 / 2 ^ 30) = 1 + 1 / 2 ^ 30 := by
    norm_num [elapsed, rebase, validateTime, firstStart, started0]
  have d2 : ({ started0 7 0 10 1 FOREVER true TF_LINEAR none with
      startTime := 1, lastTime := 1 } : Anim).duration = 1 := rfl
  have h2 : updateWith floatQuot
      { started0 7 0 10 1 FOREVER true TF_LINEAR none with startTime := 1, lastTime := 1 }
      (2 + 1 / 2 ^ 30) =
      ({ started0 7 0 10 1 FOREVER true TF_LINEAR none with
          startTime := 1, lastTime := 2 + 1 / 2 ^ 30 },
        [Event.setValue 7 10]) := by
    rw [updateWith_within _ _ _ rfl (by decide)
      (by rw [e2, d2, floatQuot_just_over]; norm_num), e2, d2, floatQuot_just_over]
    norm_num [writeAt, applyValue, timeToPosition, timeFunction, rebase,
      validateTime, firstStart, started0, FORWARD, BACKWARD, TF_LINEAR, TF_CUBIC_IN,
      TF_CUBIC_OUT, TF_CUBIC_IN_OUT]
  have e3 : elapsed { started0 7 0 10 1 FOREVER true TF_LINEAR none with
      startTime := 1, lastTime := 2 + 1 / 2 ^ 30 } (5 / 2) = 3 / 2 := by
    norm_num [elapsed, rebase, validateTime, firstStart, started0]
  have d3 : ({ started0 7 0 10 1 FOREVER true TF_LINEAR none with
      startTime := 1, lastTime := 2 + 1 / 2 ^ 30 } : Anim).duration = 1 := rfl
  have h3 : (updateWith floatQuot
      { started0 7 0 10 1 FOREVER true TF_LINEAR none with
          startTime := 1, lastTime := 2 + 1 / 2 ^ 30 } (5 / 2)).2 =
      [Event.setValue 7 10] := by
    rw [updateWith_forever _ _ _ rfl rfl
      (by rw [e3, d3, floatQuot_three_halves]; norm_num)]
    norm_num [writeAt, toggle, applyValue, timeToPosition, timeFunction, rebase,
      validateTime, firstStart, started0, FORWARD, BACKWARD, TF_LINEAR, TF_CUBIC_IN,
      TF_CUBIC_OUT, TF_CUBIC_IN_OUT]
  refine ⟨?_, ?_, ?_, ?_, ?_⟩
  · simp only [runTicksWith, h1, e2]
    norm_num [started0]
  · simp only [runTicksWith, h1, h2]
  · simp only [runTicksWith, h1, h2]
  · simp only [runTicksWith, h1, h2, h3]
    rfl
  · norm_num [runTicks, run, step, update, progress, elapsed, rebase, validateTime,
      firstStart, started0, writeAt, toggle, applyValue, timeToPosition, timeFunction,
      FOREVER, FORWARD, BACKWARD, TF_LINEAR, TF_CUBIC_IN, TF_CUBIC_OUT, TF_CUBIC_IN_OUT]

/-- C7, amended: for a started animation that repeats forever with autoreverse and
duration > 0, whatever value the machine computes for the quotient of line 729:
after every sequence of ticks the repeat count is still the sentinel, the
callback has never been invoked and the animation is still bound to its
property; on the next tick the direction flips exactly when the progress `t` the
tick computes exceeds 1, and such a tick restarts the cycle at the current time
and writes `end` when it turns backward and `start` when it turns forward; a
tick whose computed progress does not exceed 1, also one whose elapsed time
exceeds the duration by so little that the quotient rounds to 1, keeps the
direction and the cycle start it computed its progress from.  For the quotient
as the machine rounds it and a duration that is a positive `float` (`m * 2 ^ k`
with `0 < m < 2 ^ 24` and `k ≥ -149`), the computed progress exceeds 1 for every
elapsed time of at least duration times 1 + 2⁻²³ and does not exceed 1 for any
elapsed time up to the duration. -/
theorem forever_autoreverse_oscillates (quot : ℚ → ℚ → ℚ) (a : Anim) (p : Nat)
    (hs : a.started = true) (hc : a.count = FOREVER) (har : a.autoreverse = true)
    (_hd : 0 < a.duration) (hp : a.prop = some p) (pre : List ℚ) (now : ℚ) :
    (runTicksWith quot a pre).1.count = FOREVER ∧
    (runTicksWith quot a (pre ++ [now])).1.count = FOREVER ∧
    calls (runTicksWith quot a pre).2 = 0 ∧ (runTicksWith quot a pre).1.prop = some p ∧
    (runTicksWith quot a pre).1.then_ = a.then_ ∧
    (quot (elapsed (runTicksWith quot a pre).1 now) (runTicksWith quot a pre).1.duration > 1 →
      (updateWith quot (runTicksWith quot a pre).1 now).1.direction =
        (if (runTicksWith quot a pre).1.direction = FORWARD then BACKWARD else FORWARD) ∧
      (updateWith quot (runTicksWith quot a pre).1 now).1.startTime = now ∧
      (updateWith quot (runTicksWith quot a pre).1 now).2 =
        [Event.setValue p (if (runTicksWith quot a pre).1.direction = FORWARD then a.end_
          else a.start)]) ∧
    (¬ quot (elapsed (runTicksWith quot a pre).1 now)
        (runTicksWith quot a pre).1.duration > 1 →
      (updateWith quot (runTicksWith quot a pre).1 now).1.direction =
        (runTicksWith quot a pre).1.direction ∧
      (updateWith quot (runTicksWith quot a pre).1 now).1.startTime =
        (rebase (runTicksWith quot a pre).1 now).startTime) ∧
    (∀ m k : Int, 0 < m → m < 2 ^ 24 → -149 ≤ k → a.duration = (m : ℚ) * (2 : ℚ) ^ k →
      ((1 + 1 / 2 ^ 23) * a.duration ≤ elapsed (runTicksWith quot a pre).1 now →
        floatQuot (elapsed (runTicksWith quot a pre).1 now)
          (runTicksWith quot a pre).1.duration > 1) ∧
      (elapsed (runTicksWith quot a pre).1 now ≤ a.duration →
        ¬ floatQuot (elapsed (runTicksWith quot a pre).1 now)
          (runTicksWith quot a pre).1.duration > 1)) := by
  obtain ⟨i1, i2, i3, i4, i5, i6, i7, i8, i9⟩ := runTicksWith_forever_frame quot a pre hs hc
  have hlast : (runTicksWith quot a (pre ++ [now])).1.count = FOREVER :=
    (runTicksWith_forever_frame quot a (pre ++ [now]) hs hc).1
  generalize runTicksWith quot a pre = r at *
  have hc0 : r.1.count ≠ 0 := by rw [i1]; decide
  refine ⟨i1, hlast, i9, by rw [i5, hp], i6, ?_, ?_, fun m k hm0 hm hk hdur =>
    ⟨fun hx => floatQuot_gt_one _ _ m k hm0 hm hk (i4.trans hdur) (by rw [i4]; exact hx),
     fun hx => not_lt.mpr
       (floatQuot_le_one _ _ m k hm0 hm hk (i4.trans hdur) (by rw [i4]; exact hx))⟩⟩
  · intro ht
    rw [updateWith_forever quot r.1 now i2 i1 ht]
    by_cases hdir : r.1.direction = FORWARD
    · simp [writeAt, toggle, applyValue, i3, har, hdir, i5, hp, timeToPosition_one, i8]
    · have hfb : FORWARD ≠ BACKWARD := by decide
      simp [writeAt, toggle, applyValue, i3, har, hdir, i5, hp, timeToPosition_zero, hfb, i7]
  · intro ht
    rw [updateWith_within quot r.1 now i2 hc0 ht]
    simp [writeAt]

/-- Witness for C7 (amended), with the quotient of the machine: the forever
animation from 0 to 10 over 1 s with autoreverse, first ticked at time 2, turns
backward on a tick at time 4 (progress 2), which restarts the cycle at 4 and
writes 10. -/
theorem forever_autoreverse_oscillates_witness :
    (updateWith floatQuot
      (runTicksWith floatQuot (started0 7 0 10 1 FOREVER true TF_LINEAR none) [2]).1
      4).1.direction =
      (if (runTicksWith floatQuot (started0 7 0 10 1 FOREVER true TF_LINEAR none)
          [2]).1.direction = FORWARD
        then BACKWARD else FORWARD) ∧
    (updateWith floatQuot
      (runTicksWith floatQuot (started0 7 0 10 1 FOREVER true TF_LINEAR none) [2]).1
      4).1.startTime = 4 ∧
    (updateWith floatQuot
      (runTicksWith floatQuot (started0 7 0 10 1 FOREVER true TF_LINEAR none) [2]).1
      4).2 =
      [Event.setValue 7
        (if (runTicksWith floatQuot (started0 7 0 10 1 FOREVER true TF_LINEAR none)
            [2]).1.direction = FORWARD
          then (started0 7 0 10 1 FOREVER true TF_LINEAR none).end_
          else (started0 7 0 10 1 FOREVER true TF_LINEAR none).start)] :=
  (forever_autoreverse_oscillates floatQuot (started0 7 0 10 1 FOREVER true TF_LINEAR none) 7
    rfl rfl rfl (by norm_num [started0]) rfl [2] 4).2.2.2.2.2.1
    (by
      have e1 : elapsed (started0 7 0 10 1 FOREVER true TF_LINEAR none) 2 = 0 := by
        norm_num [elapsed, rebase, validateTime, firstStart, started0]
      have h1 : updateWith floatQuot (started0 7 0 10 1 FOREVER true TF_LINEAR none) 2 =
          ({ started0 7 0 10 1 FOREVER true TF_LINEAR none with
              startTime := 2, lastTime := 2 },
            [Event.setValue 7 0]) := by
        rw [updateWith_within _ _ _ rfl (by decide) (by rw [e1, floatQuot_zero]; norm_num),
          e1, floatQuot_zero]
        norm_num [writeAt, applyValue, timeToPosition, timeFunction, rebase,
          validateTime, firstStart, started0, FORWARD, BACKWARD, TF_LINEAR, TF_CUBIC_IN,
          TF_CUBIC_OUT, TF_CUBIC_IN_OUT]
      simp only [runTicksWith, h1]
      rw [show elapsed { started0 7 0 10 1 FOREVER true TF_LINEAR none with
            startTime := 2, lastTime := 2 } 4 = 2 from by
          norm_num [elapsed, rebase, validateTime, firstStart, started0],
        show ({ started0 7 0 10 1 FOREVER true TF_LINEAR none with
            startTime := 2, lastTime := 2 } : Anim).duration = 1 from rfl,
        floatQuot_two_one]
      norm_num)

/-! ## The frame cycle: set, then animate -/

/-- The first tick of a started animation that is not yet based, has repeats and
runs forward writes its start value, for every quotient that is 0 at elapsed
time 0. -/
theorem first_tick_writes_start_with (quot : ℚ → ℚ → ℚ) (a : Anim) (now : ℚ) (p : Nat)
    (hs : a.started = true) (hc : a.count ≠ 0) (hp : a.prop = some p)
    (h0 : a.startTime = 0) (hdir : a.direction ≠ BACKWARD) (hq : quot 0 a.duration = 0) :
    (updateWith quot a now).2 = [Event.setValue p a.start] := by
  have hst : (rebase a now).startTime = now := by
    simp [rebase, validateTime, firstStart, h0]
  have he : elapsed a now = 0 := by
    simp [elapsed, hst]
  have hnot : ¬ quot (elapsed a now) a.duration > 1 := by rw [he, hq]; norm_num
  rw [updateWith_within quot a now hs hc hnot, he, hq]
  simp [writeAt, applyValue, hp, hdir, timeToPosition_zero]

/-- C24: in the queue as the specification describes it, updates are applied in
enqueue order: after U1 (set property P to 5) and U2
(add a started animation on P from 5, to 15 or any other end value, with duration
> 0 and not yet based) have been enqueued in that order behind any pending
updates, the drain applies everything enqueued before, then U1, then U2; the
value of P after the drain is 5 whatever P held before and whatever the earlier
pending updates set it to; the animation is the last of the active set, so in
the tick of the cycle it is advanced after the animations that were active
before, in the state U1 and they have left; when none of those is bound to P,
the value of P its first tick finds is the 5 of U1 and no earlier value; this
first tick writes the start value 5, with the exact quotient and with the
quotient of the machine alike (the elapsed time is 0), and the value of P after
the drain + tick cycle is 5. -/
theorem fifo_set_then_animate (r : Renderer) (P : Nat) (anim : Anim) (now : ℚ)
    (hs : anim.started = true) (hc : anim.count ≠ 0) (hp : anim.prop = some P)
    (hfrom : anim.start = 5) (_hd : 0 < anim.duration) (h0 : anim.startTime = 0)
    (hdir : anim.direction ≠ BACKWARD)
    (hother : ∀ b ∈ (Renderer.drain r).animations, b.prop ≠ some P) :
    Renderer.drain (Renderer.enqueue (Renderer.enqueue r (QueuedUpdate.setProperty P 5))
        (QueuedUpdate.addAnimation anim)) =
      Renderer.applyUpdate (Renderer.applyUpdate (Renderer.drain r)
        (QueuedUpdate.setProperty P 5)) (QueuedUpdate.addAnimation anim) ∧
    (Renderer.drain (Renderer.enqueue (Renderer.enqueue r (QueuedUpdate.setProperty P 5))
        (QueuedUpdate.addAnimation anim))).values P = 5 ∧
    (Renderer.drain (Renderer.enqueue (Renderer.enqueue r (QueuedUpdate.setProperty P 5))
        (QueuedUpdate.addAnimation anim))).animations =
      (Renderer.drain r).animations ++ [anim] ∧
    Renderer.cycle (Renderer.enqueue (Renderer.enqueue r (QueuedUpdate.setProperty P 5))
        (QueuedUpdate.addAnimation anim)) now =
      Renderer.advance now
        (Renderer.processAnimations
          (Renderer.applyUpdate (Renderer.drain r) (QueuedUpdate.setProperty P 5)) now)
        anim ∧
    (Renderer.processAnimations
      (Renderer.applyUpdate (Renderer.drain r) (QueuedUpdate.setProperty P 5)) now).values P
      = 5 ∧
    (update anim now).2 = [Event.setValue P 5] ∧
    (updateWith floatQuot anim now).2 = [Event.setValue P 5] ∧
    (Renderer.cycle (Renderer.enqueue (Renderer.enqueue r (QueuedUpdate.setProperty P 5))
        (QueuedUpdate.addAnimation anim)) now).values P = 5 := by
  have hd := drain_enqueue_two r (QueuedUpdate.setProperty P 5) (QueuedUpdate.addAnimation anim)
  have hw := first_tick_writes_start anim now P hs hc hp h0 hdir
  rw [hfrom] at hw
  have hwm := first_tick_writes_start_with floatQuot anim now P hs hc hp h0 hdir
    (floatQuot_zero anim.duration)
  rw [hfrom] at hwm
  have hshape : Renderer.applyUpdate (Renderer.applyUpdate (Renderer.drain r)
      (QueuedUpdate.setProperty P 5)) (QueuedUpdate.addAnimation anim) =
      { (Renderer.applyUpdate (Renderer.drain r) (QueuedUpdate.setProperty P 5)) with
        animations := (Renderer.drain r).animations ++ [anim] } := by
    simp [Renderer.applyUpdate]
  have hsame : ({ (Renderer.applyUpdate (Renderer.drain r) (QueuedUpdate.setProperty P 5)) with
      animations := (Renderer.drain r).animations } : Renderer) =
      Renderer.applyUpdate (Renderer.drain r) (QueuedUpdate.setProperty P 5) := by
    simp [Renderer.applyUpdate]
  have hcycle : Renderer.cycle (Renderer.enqueue (Renderer.enqueue r
      (QueuedUpdate.setProperty P 5)) (QueuedUpdate.addAnimation anim)) now =
      Renderer.advance now
        (Renderer.processAnimations
          (Renderer.applyUpdate (Renderer.drain r) (QueuedUpdate.setProperty P 5)) now)
        anim := by
    unfold Renderer.cycle
    rw [hd, hshape, processAnimations_snoc, hsame]
  have hfound : (Renderer.processAnimations
      (Renderer.applyUpdate (Renderer.drain r) (QueuedUpdate.setProperty P 5)) now).values P
      = 5 := by
    unfold Renderer.processAnimations
    have hanims : (Renderer.applyUpdate (Renderer.drain r)
        (QueuedUpdate.setProperty P 5)).animations = (Renderer.drain r).animations := by
      simp [Renderer.applyUpdate]
    rw [hanims, foldl_advance_other now P _ _ hother]
    simp [Renderer.applyUpdate]
  refine ⟨hd, ?_, ?_, hcycle, hfound, hw, hwm, ?_⟩
  · rw [hd]
    simp [Renderer.applyUpdate]
  · rw [hd]
    simp [Renderer.applyUpdate]
  · rw [hcycle]
    simp [Renderer.advance, hw, Renderer.applyEvents]

/-- Witness for C24: property 7 holds 1 and an update setting it to 99 is already
pending when the set to 5 and the animation from 5 to 15 over 1 s are enqueued;
the frame is at time 3.  The earlier update alone leaves 99; the value the first
tick of the animation finds is the 5 of the later set, and the value after the
cycle is 5. -/
theorem fifo_set_then_animate_witness :
    (Renderer.drain { pending := [QueuedUpdate.setProperty 7 99], values := fun _ => 1,
                      animations := [] }).values 7 = 99 ∧
    (Renderer.processAnimations
      (Renderer.applyUpdate
        (Renderer.drain { pending := [QueuedUpdate.setProperty 7 99], values := fun _ => 1,
                          animations := [] })
        (QueuedUpdate.setProperty 7 5)) 3).values 7 = 5 ∧
    (Renderer.cycle (Renderer.enqueue (Renderer.enqueue
        { pending := [QueuedUpdate.setProperty 7 99], values := fun _ => 1, animations := [] }
        (QueuedUpdate.setProperty 7 5))
        (QueuedUpdate.addAnimation (started0 7 5 15 1 1 false TF_LINEAR none))) 3).values 7 = 5 :=
  ⟨by simp [Renderer.drain, Renderer.applyUpdate],
   (fifo_set_then_animate
      { pending := [QueuedUpdate.setProperty 7 99], values := fun _ => 1, animations := [] } 7
      (started0 7 5 15 1 1 false TF_LINEAR none) 3 rfl (by decide) rfl rfl
      (by norm_num [started0]) rfl (by decide)
      (by simp [Renderer.drain, Renderer.applyUpdate])).2.2.2.2.1,
   (fifo_set_then_animate
      { pending := [QueuedUpdate.setProperty 7 99], values := fun _ => 1, animations := [] } 7
      (started0 7 5 15 1 1 false TF_LINEAR none) 3 rfl (by decide) rfl rfl
      (by norm_num [started0]) rfl (by decide)
      (by simp [Renderer.drain, Renderer.applyUpdate])).2.2.2.2.2.2.2⟩
